import Mathlib

/-! Verification of the grnvs traceroute: wire-format codec and checksum engine.

A shallow embedding of the Go packages `netu`, `ipv6`, `icmp6`, of the probe
rendering, the receive path and the probe loop of `trace6.go`, of the packet
`wol.go` builds and of the flag test of `ndp/icmp.go`.

Conventions of the embedding:

* a Go `byte`, `uint16` or `uint32` is a `Nat`; every conversion or wrapping
  operation of the source is an explicit `% 2^w`;
* a Go `int` is an `Int`;
* a Go `[]byte` is the `List Nat` of its visible elements (`len`).  Where the
  source slices a slice (`b[lo:hi]`, checked against `cap`, not `len`), the
  function takes a second list `spare`: the elements of the backing array
  between `len` and `cap`;
* a Go function that can hit a runtime panic returns a `Run`;
* a Go `(value, error)` result is the tuple of its components, `none` standing
  for `nil`.
-/

namespace grnvs

/-- Outcome of a call: the function returns `v`, or the Go runtime panics
(index out of range, slice bounds out of range). -/
inductive Run (α : Type) where
  | returns (v : α)
  | panics
deriving DecidableEq, Repr

/-- The error values the two packages create with `errors.New`. -/
inductive GoError where
  /-- Error `errors.New("header too short")`, ipv6.ParseHeader -/
  | headerTooShort
  /-- Error `errors.New("No IPv6 packet")`, ipv6.ParseHeader -/
  | noIPv6Packet
  /-- Error `errors.New("ICMPv6 packet is to short")`, icmp6.Unmarshal -/
  | icmpTooShort
  /-- Error `errors.New("Invalid header code")`, icmp6.Unmarshal -/
  | invalidHeaderCode
  /-- Error `errors.New("ICMPv6 packet is to long")`, icmp6.Unmarshal -/
  | icmpTooLong
  /-- Error `errors.New("Unkown ICMPv6 meesage type")`, icmp6.Unmarshal -/
  | unknownType
deriving DecidableEq, Repr

/-! ## Go primitives -/

/-- Conversion `byte(x)` of an `int`: the low 8 bits of the two's complement. -/
def byteOfInt (x : Int) : Nat := (x % 256).toNat

/-- Conversion `uint32(x)` of an `int`: the low 32 bits of the two's complement. -/
def uint32OfInt (x : Int) : Nat := (x % 4294967296).toNat

/-- Slice expression `b[lo:hi]` on the elements of `b` (bounds checked by the caller). -/
def slice (b : List Nat) (lo hi : Nat) : List Nat := (b.drop lo).take (hi - lo)

/-- Builtin `copy(dst, src)`: the first `min (len dst) (len src)` elements of
`dst` are overwritten with those of `src`; the result is the new `dst`. -/
def copy (dst src : List Nat) : List Nat := src.take dst.length ++ dst.drop src.length

/-- Builtin `make([]byte, n)`. -/
def makeBytes (n : Nat) : List Nat := List.replicate n 0

namespace BigEndian

/-- Function `binary.BigEndian.Uint16(b)`: `uint16(b[1]) | uint16(b[0])<<8`. -/
def Uint16 (b : List Nat) : Nat := b.getD 1 0 ||| (b.getD 0 0 <<< 8)

/-- Function `binary.BigEndian.Uint32(b)`. -/
def Uint32 (b : List Nat) : Nat :=
  b.getD 3 0 ||| (b.getD 2 0 <<< 8) ||| (b.getD 1 0 <<< 16) ||| (b.getD 0 0 <<< 24)

/-- Function `binary.BigEndian.PutUint16(b, v)`: `b[0] = byte(v >> 8); b[1] = byte(v)`. -/
def PutUint16 (b : List Nat) (v : Nat) : List Nat :=
  (b.set 0 ((v >>> 8) % 256)).set 1 (v % 256)

/-- Function `binary.BigEndian.PutUint32(b, v)`. -/
def PutUint32 (b : List Nat) (v : Nat) : List Nat :=
  (((b.set 0 ((v >>> 24) % 256)).set 1 ((v >>> 16) % 256)).set 2 ((v >>> 8) % 256)).set 3 (v % 256)

/-- What `binary.Write(_, binary.BigEndian, _)` emits for a `uint16` field. -/
def bytes16 (v : Nat) : List Nat := [(v >>> 8) % 256, v % 256]

/-- What `binary.Write(_, binary.BigEndian, _)` emits for a `uint32` field. -/
def bytes32 (v : Nat) : List Nat :=
  [(v >>> 24) % 256, (v >>> 16) % 256, (v >>> 8) % 256, v % 256]

end BigEndian

/-! ## package netu -/

namespace netu

/-- Source: `netu/util.go`, `Htons` (all arithmetic is `uint16`). -/
def Htons (n : Nat) : Nat :=
  let high := n >>> 8
  let ret := ((n <<< 8) % 65536 + high) % 65536
  ret

end netu

/-! ## package ipv6 -/

namespace ipv6

def IPv6Version : Int := 6
def HeaderLen : Nat := 40

structure ExtensionHeader where
  NextHeader : Nat
  ExtensionLength : Nat
  Data : List Nat
deriving DecidableEq, Repr

/-- Source: `ipv6/header.go`, `Header`: the IPv6 base header. -/
structure Header where
  Version : Int
  TrafficClass : Int
  FlowLabel : Int
  PayloadLen : Int
  NextHeader : Int
  HopLimit : Int
  Src : List Nat
  Dst : List Nat
  ExtensionHeaders : List ExtensionHeader
deriving DecidableEq, Repr

/-- The extension-header loop of `ParseHeader` (`for { ... }`), entered with
the next-header value `n`, the offset `o` and the headers appended so far.
Every iteration reads `b[o]` and therefore has `o < len(b)`, and moves `o`
forward, which is the termination argument. -/
def extLoop (b spare : List Nat) (n o : Nat) (ehs : List ExtensionHeader) :
    Run (Nat × List ExtensionHeader) :=
  -- if n != 0x00 && n != 0x2b && n != 0x3c || n == 0x3a { break }
  if n ≠ 0x00 ∧ n ≠ 0x2b ∧ n ≠ 0x3c ∨ n = 0x3a then
    .returns (o, ehs)
  else if h0 : o < b.length then
    -- n = b[o]; o++
    let n1 := b[o]
    if h1 : o + 1 < b.length then
      -- eH := ExtensionHeader{NextHeader: n, ExtensionLength: b[o]}; o++
      let el := b[o + 1]
      let o2 := o + 2
      -- end := o + 8 + int(eH.ExtensionLength)
      let end_ := o2 + 8 + el
      -- eH.Data = b[o:end], a slice expression: it needs end <= cap(b)
      if end_ ≤ b.length + spare.length then
        extLoop b spare n1 end_
          (ehs ++ [{ NextHeader := n1, ExtensionLength := el,
                     Data := slice (b ++ spare) o2 end_ }])
      else .panics
    else .panics
  else .panics
termination_by b.length - o
decreasing_by omega

/-- Source: `ipv6/header.go`, `ParseHeader`.  The result is the Go triple
`(*Header, int, error)`.  The field expressions only combine values of
`int(byte)`, which are non-negative, so they are computed on `Nat`. -/
def ParseHeader (b spare : List Nat) : Run (Option Header × Nat × Option GoError) :=
  if b.length < HeaderLen then
    .returns (none, 0, some .headerTooShort)
  else
    let h : Header :=
      { Version := ((b.getD 0 0 >>> 4 : Nat) : Int)
        TrafficClass := ((((b.getD 0 0 &&& 0x0f) <<< 4) ||| (b.getD 1 0 >>> 4) : Nat) : Int)
        FlowLabel :=
          ((((b.getD 1 0 &&& 0x0f) <<< 16) ||| (b.getD 2 0 <<< 8) ||| b.getD 3 0 : Nat) : Int)
        PayloadLen := (((b.getD 4 0 <<< 8) ||| b.getD 5 0 : Nat) : Int)
        NextHeader := ((b.getD 6 0 : Nat) : Int)
        HopLimit := ((b.getD 7 0 : Nat) : Int)
        Src := []
        Dst := []
        ExtensionHeaders := [] }
    if h.Version ≠ 0x06 then
      .returns (none, 0, some .noIPv6Packet)
    else
      -- h.Src = make(net.IP, net.IPv6len); copy(h.Src, b[8:24]); same for Dst
      let h := { h with Src := copy (makeBytes 16) (slice b 8 24)
                        Dst := copy (makeBytes 16) (slice b 24 40) }
      -- o := HeaderLen; n := byte(h.NextHeader)
      match extLoop b spare (byteOfInt h.NextHeader) HeaderLen [] with
      | .panics => .panics
      | .returns (o, ehs) => .returns (some { h with ExtensionHeaders := ehs }, o, none)

/-- Source: `ipv6/header.go`, `NewHeader`. -/
def NewHeader (src dst : List Nat) : Header :=
  { Version := 0x6, TrafficClass := 0, FlowLabel := 0, PayloadLen := 0, NextHeader := 0,
    HopLimit := 0, Src := src, Dst := dst, ExtensionHeaders := [] }

/-- Source: `ipv6/header.go`, `(*Header).Marshal`: the fixed 40 bytes. -/
def Header.Marshal (h : Header) : List Nat :=
  [ byteOfInt (Int.land h.Version 0x0f <<< (4 : Int))
      ||| byteOfInt (Int.land h.TrafficClass 0xf0 >>> (4 : Nat)),
    byteOfInt (Int.land h.TrafficClass 0x0f <<< (4 : Int))
      ||| byteOfInt (h.FlowLabel >>> (16 : Nat)),
    byteOfInt (h.FlowLabel >>> (8 : Nat)),
    byteOfInt (Int.land h.FlowLabel 0xff),
    byteOfInt (h.PayloadLen >>> (8 : Nat)),
    byteOfInt (Int.land h.PayloadLen 0xff),
    byteOfInt h.NextHeader,
    byteOfInt h.HopLimit ]
  ++ copy (makeBytes 16) h.Src     -- copy(b[8:24], h.Src)
  ++ copy (makeBytes 16) h.Dst     -- copy(b[24:40], h.Dst)

/-- Source: `ipv6/header.go`, `PseudoHeader`. -/
structure PseudoHeader where
  Src : List Nat
  Dst : List Nat
  Length : Nat
  Reserved : List Nat
  NextHeader : Nat
deriving DecidableEq, Repr

/-- Source: `ipv6/header.go`, `(*PseudoHeader).Marshal`: `binary.Write` of the
struct, big-endian, field after field. -/
def PseudoHeader.Marshal (h : PseudoHeader) : List Nat :=
  h.Src ++ h.Dst ++ BigEndian.bytes32 h.Length ++ h.Reserved ++ [h.NextHeader % 256]

/-- Source: `ipv6/header.go`, `NewPseudoHeader`. -/
def NewPseudoHeader (length next : Int) (src dst : List Nat) : PseudoHeader :=
  { Length := uint32OfInt length
    NextHeader := byteOfInt next
    Reserved := makeBytes 3
    Src := copy (makeBytes 16) src
    Dst := copy (makeBytes 16) dst }

end ipv6

/-! ## package icmp6 -/

namespace icmp6

def TypeDestinationUnreachable : Nat := 0x01
def TypeTimeExceeded : Nat := 0x03
def TypeEchoRequest : Nat := 0x80
def TypeEchoReply : Nat := 0x81

/-- Source: `icmp6/icmp.go`, `Header` (the field `Type` is spelled `Type_` here). -/
structure Header where
  Type_ : Nat
  Code : Nat
  Checksum : Nat
deriving DecidableEq, Repr

/-- Source: `icmp6/icmp.go`, `(*Header).Marshal`: `binary.Write` of the struct,
big-endian; the error of `binary.Write` is nil for this fixed-size struct. -/
def Header.Marshal (h : Header) : List Nat × Option GoError :=
  ([h.Type_ % 256, h.Code % 256] ++ BigEndian.bytes16 h.Checksum, none)

/-- Source: `icmp6/echo_request.go`, `EchoRequest`. -/
structure EchoRequest where
  Header : Header
  Identifier : Nat
  SequenceNumber : Nat
deriving DecidableEq, Repr

/-- Source: `icmp6/echo_reply.go`, `EchoReply`. -/
structure EchoReply where
  Header : Header
  Identifier : Nat
  SequenceNumber : Nat
  Data : List Nat
deriving DecidableEq, Repr

/-- Source: `icmp6/time_exceeded.go`, `TimeExceeded`. -/
structure TimeExceeded where
  Header : Header
  Unused : Nat
  InvokingPacket : List Nat
deriving DecidableEq, Repr

/-- Source: `icmp6/destination_unreachable.go`, `DestinationUnreachable`. -/
structure DestinationUnreachable where
  Header : Header
  Unused : Nat
  InvokingPacket : List Nat
deriving DecidableEq, Repr

/-- Source: `icmp6/echo_request.go`, `NewEchoRequest`; the second component is
`binary.Size(r)`, the 8 bytes of the fixed-size struct. -/
def NewEchoRequest (identifier sequence : Nat) : EchoRequest × Int :=
  ({ Header := { Type_ := TypeEchoRequest, Code := 0, Checksum := 0 }
     Identifier := identifier
     SequenceNumber := sequence }, 8)

/-- Source: `icmp6/echo_request.go`, `(*EchoRequest).Marshal`: `binary.Write`
of the whole struct, big-endian. -/
def EchoRequest.Marshal (m : EchoRequest) : List Nat :=
  [m.Header.Type_ % 256, m.Header.Code % 256] ++ BigEndian.bytes16 m.Header.Checksum
    ++ BigEndian.bytes16 m.Identifier ++ BigEndian.bytes16 m.SequenceNumber

/-- Source: `icmp6/echo_reply.go`, `(*EchoReply).Marshal`. -/
def EchoReply.Marshal (m : EchoReply) : List Nat :=
  -- b, _ := m.Header.Marshal()
  let b := m.Header.Marshal.1
  -- binary.BigEndian.PutUint16(b, m.Identifier)
  let b := BigEndian.PutUint16 b m.Identifier
  -- binary.BigEndian.PutUint16(b, m.SequenceNumber)
  let b := BigEndian.PutUint16 b m.SequenceNumber
  -- b = append(b, m.Data...)
  b ++ m.Data

/-- Source: `icmp6/time_exceeded.go`, `(*TimeExceeded).Marshal`. -/
def TimeExceeded.Marshal (m : TimeExceeded) : List Nat :=
  let b := m.Header.Marshal.1
  -- binary.BigEndian.PutUint32(b, m.Unused)
  let b := BigEndian.PutUint32 b m.Unused
  b ++ m.InvokingPacket

/-- Source: `icmp6/destination_unreachable.go`, `(*DestinationUnreachable).Marshal`. -/
def DestinationUnreachable.Marshal (m : DestinationUnreachable) : List Nat :=
  let b := m.Header.Marshal.1
  let b := BigEndian.PutUint32 b m.Unused
  b ++ m.InvokingPacket

/-- Source: `icmp6/icmp.go`, interface `Message`: the four types that implement it. -/
inductive Message where
  | echoRequest (m : EchoRequest)
  | echoReply (m : EchoReply)
  | timeExceeded (m : TimeExceeded)
  | destinationUnreachable (m : DestinationUnreachable)
deriving DecidableEq, Repr

/-- Method `Marshal` of the interface `Message`, dispatched on the dynamic type. -/
def Message.Marshal : Message → List Nat
  | .echoRequest m => m.Marshal
  | .echoReply m => m.Marshal
  | .timeExceeded m => m.Marshal
  | .destinationUnreachable m => m.Marshal

/-- Source: `icmp6/icmp.go`, `verifyHeaderCode`. -/
def verifyHeaderCode (h : Header) : Bool :=
  if h.Type_ = TypeEchoReply then decide (h.Code ≥ 0 ∧ h.Code ≤ 0)
  else if h.Type_ = TypeTimeExceeded then decide (h.Code ≥ 0 ∧ h.Code ≤ 1)
  else if h.Type_ = TypeDestinationUnreachable then decide (h.Code ≥ 0 ∧ h.Code ≤ 6)
  else true

/-- Source: `icmp6/icmp.go`, `Unmarshal`; the result is the Go pair
`(Message, error)`.  After the length check every index and slice expression
of the body is in range, so no panic is possible. -/
def Unmarshal (b : List Nat) : Option Message × Option GoError :=
  if b.length < 8 then
    (none, some .icmpTooShort)
  else
    let h : Header :=
      { Type_ := b.getD 0 0, Code := b.getD 1 0, Checksum := BigEndian.Uint16 (slice b 2 4) }
    if !verifyHeaderCode h then
      (none, some .invalidHeaderCode)
    else if h.Type_ = TypeTimeExceeded then
      (some (.timeExceeded
        { Header := h, Unused := BigEndian.Uint32 (slice b 4 8), InvokingPacket := b.drop 8 }),
       none)
    else if h.Type_ = TypeEchoReply then
      if b.length > 8 then
        (none, some .icmpTooLong)
      else
        (some (.echoReply
          { Header := h
            Identifier := BigEndian.Uint16 (slice b 4 6)
            SequenceNumber := BigEndian.Uint16 (slice b 6 8)
            Data := [] }),      -- the field Data is left nil
         none)
    else if h.Type_ = TypeDestinationUnreachable then
      (some (.destinationUnreachable
        { Header := h, Unused := BigEndian.Uint32 (slice b 4 8), InvokingPacket := b.drop 8 }),
       none)
    else
      (none, some .unknownType)

/-- The indices `0, 2, 4, ...` below `csumcv` that the loop
`for i := 0; i < csumcv; i += 2` of `csum` visits, in order. -/
def csumIndices (csumcv : Int) : List Nat :=
  (List.range ((csumcv.toNat + 1) / 2)).map (fun k => 2 * k)

/-- Source: `icmp6/icmp.go`, `csum`; `s` is a `uint32`.  The loop only reads
`b[i]` and `b[i+1]` with `i + 1 <= csumcv = len(b) - 1`. -/
def csum (b : List Nat) : Nat :=
  let csumcv : Int := (b.length : Int) - 1
  let s := (csumIndices csumcv).foldl
    (fun s i => (s + ((b.getD (i + 1) 0 <<< 8) ||| b.getD i 0)) % 4294967296) 0
  let s := if Int.land csumcv 1 = 0 then (s + b.getD csumcv.toNat 0) % 4294967296 else s
  let s := ((s >>> 16) + (s &&& 0xffff)) % 4294967296
  let s := (s + (s >>> 16)) % 4294967296
  netu.Htons ((s % 65536) ^^^ 0xffff)

/-- Source: `icmp6/icmp.go`, `MakeChecksum`. -/
def MakeChecksum (packet : Message) (src dst : List Nat) : Nat :=
  let b := packet.Marshal
  let pHeader := ipv6.NewPseudoHeader (b.length : Int) 0x3a src dst
  let b := pHeader.Marshal ++ b
  csum b

/-- Source: `icmp6/icmp.go`, `VerifyChecksum`.  The second component of the
result is the caller's slice after the call (bytes 2 and 3 are overwritten). -/
def VerifyChecksum (h : ipv6.Header) (b spare : List Nat) : Run (Bool × List Nat) :=
  -- co := binary.BigEndian.Uint16(b[2:4]); the slice expression needs 4 <= cap(b)
  if ¬ 4 ≤ b.length + spare.length then .panics
  else
    let co := BigEndian.Uint16 (slice (b ++ spare) 2 4)
    let ph := ipv6.NewPseudoHeader h.PayloadLen h.NextHeader h.Src h.Dst
    -- b[2] = 0, an index expression: it needs 2 < len(b)
    if ¬ 2 < b.length then .panics
    else
      let b := b.set 2 0
      -- b[3] = 0
      if ¬ 3 < b.length then .panics
      else
        let b := b.set 3 0
        let full := ph.Marshal ++ b
        .returns (decide (co = csum full), b)

end icmp6

/-! ## package main (trace6.go) -/

namespace trace6

/-- Source: `trace6.go`, `request`. -/
structure request where
  Header : ipv6.Header
  Body : icmp6.EchoRequest
deriving DecidableEq, Repr

/-- Source: `trace6.go`, `(*request).Marshal`.  `localIP` and `remoteIP` are
the globals `Params.LocalAddress.IP` and `Params.RemoteAddress.IP`; the second
component is the request after the call (the method updates it in place). -/
def request.Marshal (p : request) (hl : Int) (seq : Nat) (localIP remoteIP : List Nat) :
    List Nat × request :=
  -- p.Body.SequenceNumber = seq; p.Header.HopLimit = hl
  let p : request := { Header := { p.Header with HopLimit := hl }
                       Body := { p.Body with SequenceNumber := seq } }
  -- p.Body.Header.Checksum = 0
  let p : request := { p with Body := { p.Body with Header := { p.Body.Header with Checksum := 0 } } }
  -- p.Body.Header.Checksum = icmp6.MakeChecksum(p.Body, local, remote)
  let c := icmp6.MakeChecksum (.echoRequest p.Body) localIP remoteIP
  let p : request := { p with Body := { p.Body with Header := { p.Body.Header with Checksum := c } } }
  (p.Header.Marshal ++ p.Body.Marshal, p)

/-- Source: `trace6.go`, `main`, lines 90-101: the probe template for the
identifier `id`. -/
def probeTemplate (id : Nat) (localIP remoteIP : List Nat) : request :=
  let (pck, l) := icmp6.NewEchoRequest id 0
  let req : request := { Header := ipv6.NewHeader localIP remoteIP, Body := pck }
  { req with Header := { req.Header with NextHeader := 0x3a, PayloadLen := l } }

end trace6

/-! ## Definitions used by the statements -/

namespace ipv6

/-- A valid IPv6 base header: version 6, every field within the width the wire
format gives it, 16-byte addresses. -/
def Header.Valid (h : Header) : Prop :=
  h.Version = 6 ∧ (0 ≤ h.TrafficClass ∧ h.TrafficClass ≤ 255) ∧
  (0 ≤ h.FlowLabel ∧ h.FlowLabel ≤ 1048575) ∧ (0 ≤ h.PayloadLen ∧ h.PayloadLen ≤ 65535) ∧
  (0 ≤ h.NextHeader ∧ h.NextHeader ≤ 255) ∧ (0 ≤ h.HopLimit ∧ h.HopLimit ≤ 255) ∧
  h.Src.length = 16 ∧ h.Dst.length = 16

instance (h : Header) : Decidable h.Valid := by
  unfold Header.Valid; infer_instance

end ipv6

namespace icmp6

/-- The caller-side stamping of a checksum: `c` written big-endian into bytes
2 and 3 of the ICMPv6 bytes `p`. -/
def putChecksum (p : List Nat) (c : Nat) : List Nat :=
  (p.set 2 ((c >>> 8) % 256)).set 3 (c % 256)

/-- The wire layout of a message as section 6 of the specification words it
(not taken from the `Marshal` methods): the common header `type | code |
checksum`, then `identifier | sequence | payload` for an echo message and
`unused | invokingPacket` for an error message, all big-endian. -/
def specWireLayout : Message → List Nat
  | .echoRequest m =>
      [m.Header.Type_, m.Header.Code] ++ BigEndian.bytes16 m.Header.Checksum
        ++ BigEndian.bytes16 m.Identifier ++ BigEndian.bytes16 m.SequenceNumber
  | .echoReply m =>
      [m.Header.Type_, m.Header.Code] ++ BigEndian.bytes16 m.Header.Checksum
        ++ BigEndian.bytes16 m.Identifier ++ BigEndian.bytes16 m.SequenceNumber ++ m.Data
  | .timeExceeded m =>
      [m.Header.Type_, m.Header.Code] ++ BigEndian.bytes16 m.Header.Checksum
        ++ BigEndian.bytes32 m.Unused ++ m.InvokingPacket
  | .destinationUnreachable m =>
      [m.Header.Type_, m.Header.Code] ++ BigEndian.bytes16 m.Header.Checksum
        ++ BigEndian.bytes32 m.Unused ++ m.InvokingPacket

/-- A message whose header carries the type constant of its variant and a
code legal for that type, every integer field within the range of its Go type. -/
def Message.Legal : Message → Prop
  | .echoRequest m =>
      m.Header.Type_ = TypeEchoRequest ∧ m.Header.Code < 256 ∧ m.Header.Checksum < 65536 ∧
        m.Identifier < 65536 ∧ m.SequenceNumber < 65536
  | .echoReply m =>
      m.Header.Type_ = TypeEchoReply ∧ m.Header.Code = 0 ∧ m.Header.Checksum < 65536 ∧
        m.Identifier < 65536 ∧ m.SequenceNumber < 65536
  | .timeExceeded m =>
      m.Header.Type_ = TypeTimeExceeded ∧ m.Header.Code ≤ 1 ∧ m.Header.Checksum < 65536 ∧
        m.Unused < 4294967296
  | .destinationUnreachable m =>
      m.Header.Type_ = TypeDestinationUnreachable ∧ m.Header.Code ≤ 6 ∧
        m.Header.Checksum < 65536 ∧ m.Unused < 4294967296

instance (m : Message) : Decidable m.Legal := by
  cases m <;> (unfold Message.Legal; infer_instance)

/-- A message of one of the three variants `Unmarshal` builds, an echo reply
being without payload. -/
def Message.IsResponse : Message → Prop
  | .echoRequest _ => False
  | .echoReply m => m.Data = []
  | .timeExceeded _ => True
  | .destinationUnreachable _ => True

instance (m : Message) : Decidable m.IsResponse := by
  cases m <;> (unfold Message.IsResponse; infer_instance)

end icmp6

namespace trace6

/-- The datagram of the echo-request scenario: the marshalled IPv6 header
(version 6, next header 0x3a, hop limit 64, payload length 8) followed by the
echo request that carries the checksum `MakeChecksum` computes for it. -/
def scenarioDatagram (identifier sequence : Nat) (src dst : List Nat) : List Nat :=
  let hdr : ipv6.Header :=
    { ipv6.NewHeader src dst with NextHeader := 0x3a, HopLimit := 64, PayloadLen := 8 }
  let req := (icmp6.NewEchoRequest identifier sequence).1
  let c := icmp6.MakeChecksum (.echoRequest req) src dst
  hdr.Marshal ++ ({ req with Header := { req.Header with Checksum := c } }).Marshal

end trace6

/-! ## Concrete inputs -/

/-- Address 2001:db8::1. -/
def addr1 : List Nat := [0x20, 0x01, 0x0d, 0xb8, 0, 0, 0, 0, 0, 0, 0, 0, 0, 0, 0, 1]

/-- Address 2001:db8::2. -/
def addr2 : List Nat := [0x20, 0x01, 0x0d, 0xb8, 0, 0, 0, 0, 0, 0, 0, 0, 0, 0, 0, 2]

/-- The header of a probe from 2001:db8::1 to 2001:db8::2: payload length 8,
next header ICMPv6, hop limit 64. -/
def probeHeader : ipv6.Header :=
  { Version := 6, TrafficClass := 0, FlowLabel := 0, PayloadLen := 8, NextHeader := 0x3a,
    HopLimit := 64, Src := addr1, Dst := addr2, ExtensionHeaders := [] }

/-- A valid header whose next-header value announces a hop-by-hop extension header. -/
def hopByHopHeader : ipv6.Header := { probeHeader with NextHeader := 0x00 }

/-- A valid header whose payload length is not the length of an echo request. -/
def emptyPayloadHeader : ipv6.Header := { probeHeader with PayloadLen := 0 }

/-- An echo request with a zero checksum field: identifier 0x1234, sequence 1. -/
def echoBytes : List Nat := [0x80, 0x00, 0x00, 0x00, 0x12, 0x34, 0x00, 0x01]

/-! ## package main (trace6.go): the receive path and the probe loop -/

namespace trace6

/-- Variable `v4InV6Prefix` of the Go package `net`. -/
def v4InV6Prefix : List Nat := [0, 0, 0, 0, 0, 0, 0, 0, 0, 0, 0xff, 0xff]

/-- Method `net.IP.Equal` of the Go standard library: byte equality for
addresses of one length, an IPv4 address and its IPv4-in-IPv6 form being equal. -/
def IPEqual (ip x : List Nat) : Bool :=
  if ip.length = x.length then decide (ip = x)
  else if ip.length = 4 ∧ x.length = 16 then
    decide (slice x 0 12 = v4InV6Prefix) && decide (ip = x.drop 12)
  else if ip.length = 16 ∧ x.length = 4 then
    decide (slice ip 0 12 = v4InV6Prefix) && decide (ip.drop 12 = x)
  else false

/-- Source: `trace6.go`, `response`. -/
structure response where
  Sender : List Nat
  DestinationUnreachable : Bool
  TimeExceeded : Bool
  EchoReply : Bool
  Timeout : Bool
deriving DecidableEq, Repr

/-- Source: `trace6.go`, `recvResponse`, lines 184-191: the scan of the
invoking packet for the first byte whose high nibble is 6, from index `i` on;
`off` stays 0 when there is none. -/
def headerOffsetFrom : List Nat → Nat → Nat
  | [], _ => 0
  | x :: rest, i => if x >>> 4 = 6 then i else headerOffsetFrom rest (i + 1)

/-- Source: `trace6.go`, `recvResponse`, lines 152-200: one iteration of the
receive loop, after `fileRead.Read(buf)` has put `l` bytes into the fresh
buffer `buf` (`len(buf) = cap(buf)`, the MTU).  The result is the value sent
on `chanReply`, or `none` where the iteration ends with `continue`.
`localIP` is `Params.LocalAddress.IP` and `from_` is the argument `from`. -/
def onDatagram (localIP : List Nat) (req : request) (from_ buf : List Nat) (l : Nat) :
    Run (Option response) :=
  -- header, o, err := ipv6.ParseHeader(buf)
  match ipv6.ParseHeader buf [] with
  | .panics => .panics
  | .returns (_, _, some _) => .returns none
  | .returns (none, _, none) => .panics       -- header.Dst on a nil header
  | .returns (some header, o, none) =>
    -- if !Params.LocalAddress.IP.Equal(header.Dst) || !icmp6.VerifyChecksum(header, buf[o:l])
    if !IPEqual localIP header.Dst then .returns none
    -- the slice expression buf[o:l] needs o <= l <= cap(buf)
    else if ¬ (o ≤ l ∧ l ≤ buf.length) then .panics
    else
      match icmp6.VerifyChecksum header (slice buf o l) (buf.drop l) with
      | .panics => .panics
      | .returns (false, _) => .returns none
      | .returns (true, payload) =>
        -- msg, err := icmp6.Unmarshal(buf[o:l]), on the bytes VerifyChecksum left
        match icmp6.Unmarshal payload with
        | (_, some _) => .returns none
        | (none, none) => .returns (some ⟨header.Src, false, false, false, false⟩)
        | (some msg, none) =>
          let resp : response := ⟨header.Src, false, false, false, false⟩
          match msg with
          | .timeExceeded _ => .returns (some { resp with TimeExceeded := true })
          | .echoReply r =>
            if r.Identifier ≠ req.Body.Identifier ∨ r.SequenceNumber ≠ req.Body.SequenceNumber
                ∨ !IPEqual from_ header.Src then
              .returns none
            else .returns (some { resp with EchoReply := true })
          | .destinationUnreachable m =>
            let invPck := m.InvokingPacket
            let off := headerOffsetFrom invPck 0
            -- h, _, err := ipv6.ParseHeader(invPck[off:]); the slice keeps the capacity of buf
            match ipv6.ParseHeader (invPck.drop off) (buf.drop l) with
            | .panics => .panics
            | .returns (_, _, some _) => .returns none
            | .returns (none, _, none) => .panics
            | .returns (some h, _, none) =>
              .returns (some { resp with Sender := h.Dst, DestinationUnreachable := true })
          | .echoRequest _ => .returns (some resp)

/-- How `main` ends: `os.Exit(1)` after a hop, the hop loop running out, or a
nil pointer dereference of `resp`. -/
inductive TraceEnd where
  | exit1
  | exhausted
  | nilDereference
deriving DecidableEq, Repr

/-- Source: `trace6.go`, `main`, lines 113-133: the attempt loop
`for j := 0; j < Params.Attempts; j++` of hop `i`, with `todo` iterations left.
`outcome i j` is what `recvResponse` returns for attempt `j` of hop `i`; the
state is the `uint16` counter `seq`, the pointer `resp` and the list of the
probes sent so far, each with its hop limit and sequence number. -/
def attemptLoop (outcome : Nat → Nat → response) (i : Nat) :
    Nat → Nat → Nat → Option response → List (Nat × Nat) →
      Nat × Option response × List (Nat × Nat)
  | 0, _, seq, resp, sent => (seq, resp, sent)
  | todo + 1, j, seq, _, sent =>
    -- p := req.Marshal(i, seq); connWrite.WriteTo(p, ...); resp, err = recvResponse(...); seq++
    attemptLoop outcome i todo (j + 1) ((seq + 1) % 65536) (some (outcome i j))
      (sent ++ [(i, seq)])

/-- Source: `trace6.go`, `main`, lines 109-139: the hop loop
`for i := 1; i <= Params.MaxHops; i++`, with `todo` iterations left. -/
def hopLoop (outcome : Nat → Nat → response) (attempts : Nat) :
    Nat → Nat → Nat → Option response → List (Nat × Nat) → TraceEnd × List (Nat × Nat)
  | 0, _, _, _, sent => (.exhausted, sent)
  | todo + 1, i, seq, resp, sent =>
    match attemptLoop outcome i attempts 0 seq resp sent with
    | (_, none, sent1) => (.nilDereference, sent1)
    | (seq1, some r, sent1) =>
      -- if resp.EchoReply || resp.DestinationUnreachable { os.Exit(1) }
      if r.EchoReply || r.DestinationUnreachable then (.exit1, sent1)
      else hopLoop outcome attempts todo (i + 1) seq1 (some r) sent1

/-- Source: `trace6.go`, `main`, lines 107-139, for `Params.MaxHops = maxHops`
and `Params.Attempts = attempts`: how the run ends and the probes it sent. -/
def traceLoop (maxHops attempts : Int) (outcome : Nat → Nat → response) :
    TraceEnd × List (Nat × Nat) :=
  hopLoop outcome attempts.toNat maxHops.toNat 1 0 none []

end trace6

/-! ## package main (wol.go) -/

namespace wol

/-- Source: `wol/wol.go`, `etherHeader` (the field `Type` is spelled `Type_`). -/
structure etherHeader where
  DHost : List Nat
  SHost : List Nat
  Type_ : Nat
deriving DecidableEq, Repr

/-- Source: `wol/wol.go`, `wolPayload`. -/
structure wolPayload where
  Sync : List Nat
  Target : List Nat
deriving DecidableEq, Repr

/-- Source: `wol/wol.go`, `magicPacket`. -/
structure magicPacket where
  Hdr : etherHeader
  Wol : wolPayload
deriving DecidableEq, Repr

/-- Source: `wol/wol.go`, `main`, lines 81-83: the loop
`for i := 0; i < len(payload.Target); i++ { payload.Target[i] = targetMac[i%6] }`
over the indices still to visit. -/
def targetLoop (targetMac : List Nat) : List Nat → List Nat → Run (List Nat)
  | [], target => .returns target
  | i :: rest, target =>
    if h : i % 6 < targetMac.length then
      targetLoop targetMac rest (target.set i targetMac[i % 6])
    else .panics

/-- Source: `wol/wol.go`, `main`, lines 69-88: the packet built for the target
address `targetMac` and the interface address `hardwareAddr` (with the spare
capacity of that slice). -/
def buildPacket (targetMac hardwareAddr hwSpare : List Nat) : Run magicPacket :=
  let header : etherHeader :=
    { DHost := [0xFF, 0xFF, 0xFF, 0xFF, 0xFF, 0xFF], SHost := makeBytes 6, Type_ := 0x0842 }
  -- copy(header.SHost[:], networkInterface.HardwareAddr[0:6]); the slice needs 6 <= cap
  if ¬ 6 ≤ hardwareAddr.length + hwSpare.length then .panics
  else
    let header := { header with SHost := copy header.SHost (slice (hardwareAddr ++ hwSpare) 0 6) }
    let payload : wolPayload :=
      { Sync := [0xFF, 0xFF, 0xFF, 0xFF, 0xFF, 0xFF], Target := makeBytes 96 }
    match targetLoop targetMac (List.range 96) payload.Target with
    | .panics => .panics
    | .returns target => .returns { Hdr := header, Wol := { payload with Target := target } }

/-- Source: `wol/wol.go`, `main`, line 96: `binary.Write(&buffer, binary.BigEndian, packet)`. -/
def encode (p : magicPacket) : List Nat :=
  p.Hdr.DHost ++ p.Hdr.SHost ++ BigEndian.bytes16 p.Hdr.Type_ ++ p.Wol.Sync ++ p.Wol.Target

end wol

/-! ## Definitions used by the statements of the later claims -/

namespace icmp6

/-- The 16-bit big-endian words of a byte sequence, a final odd byte padded
with a zero byte. -/
def beWords : List Nat → List Nat
  | x :: y :: rest => (x * 256 + y) :: beWords rest
  | [x] => [x * 256]
  | [] => []

/-- The 16-bit little-endian words of a byte sequence, a final odd byte padded
with a zero byte. -/
def leWords : List Nat → List Nat
  | x :: y :: rest => (y * 256 + x) :: leWords rest
  | [x] => [x]
  | [] => []

/-- One folding step, `sum = (sum>>16) + (sum & 0xffff)`. -/
def foldCarry (sum : Nat) : Nat := sum / 65536 + sum % 65536

/-- The two bytes of a 16-bit value exchanged. -/
def swapBytes (v : Nat) : Nat := (v % 256) * 256 + v / 256 % 256

/-- The checksum as the specification words it (section 4.1): the sum of the
big-endian words, two folding steps, the complement of the low 16 bits, the
byte swap. -/
def specChecksum (b : List Nat) : Nat :=
  swapBytes (65535 - foldCarry (foldCarry (beWords b).sum) % 65536)

/-- The same procedure over the little-endian words, the sum kept in 32 bits. -/
def leChecksum (b : List Nat) : Nat :=
  swapBytes (65535 - foldCarry (foldCarry ((leWords b).sum % 4294967296)) % 65536)

end icmp6

namespace ipv6

/-- The value `n` ends the extension loop of `ParseHeader`: it is 0x3a or
none of the three recognized extension-header values. -/
def EndsChain (n : Nat) : Prop := n ≠ 0x00 ∧ n ≠ 0x2b ∧ n ≠ 0x3c ∨ n = 0x3a

instance (n : Nat) : Decidable (EndsChain n) := by
  unfold EndsChain; infer_instance

/-- The extension headers `ehs` lie one after the other in `b` (and the spare
capacity) from offset `off` on, the first announced by the next-header value
`n`, each announced by its predecessor, and the next-header value of the last
one ends the chain. -/
def Chain (b spare : List Nat) : Nat → Nat → List ExtensionHeader → Prop
  | n, _, [] => EndsChain n
  | n, off, e :: rest =>
      ¬ EndsChain n ∧ b[off]? = some e.NextHeader ∧ b[off + 1]? = some e.ExtensionLength ∧
        e.Data = slice (b ++ spare) (off + 2) (off + 2 + e.Data.length) ∧
        off + 2 + e.Data.length ≤ b.length + spare.length ∧
        Chain b spare e.NextHeader (off + 2 + e.Data.length) rest

end ipv6

/-- A time-out, what `recvResponse` returns when no result arrives in time. -/
def timeoutResponse : trace6.response := ⟨[], false, false, false, true⟩

/-- An echo reply from 2001:db8::2. -/
def echoReplyResponse : trace6.response := ⟨addr2, false, false, true, false⟩

/-- Outcomes of a run in which the first attempt of hop 1 is answered by an
echo reply and every other attempt times out. -/
def replyThenTimeouts (i j : Nat) : trace6.response :=
  if i = 1 ∧ j = 0 then echoReplyResponse else timeoutResponse
/-- Outcomes of a run in which the last of two attempts of hop 1 is answered
by an echo reply and every other attempt times out. -/
def timeoutThenReply (i j : Nat) : trace6.response :=
  if i = 1 ∧ j = 1 then echoReplyResponse else timeoutResponse
/-- Outcomes of a run in which every attempt times out. -/
def allTimeouts (_ _ : Nat) : trace6.response := timeoutResponse
/-- The sequence numbers of the probes sent so far are their positions modulo
2^16, and the counter is the number of probes modulo 2^16. -/
def SeqInv (seq : Nat) (sent : List (Nat × Nat)) : Prop :=
  seq = sent.length % 65536 ∧ ∀ k, k < sent.length → (sent.getD k (0, 0)).2 = k % 65536


namespace ipv6

/-- The header `ParseHeader` has built from the base header bytes when it
enters the extension loop. -/
def baseHeader (b : List Nat) : Header :=
  { Version := ((b.getD 0 0 >>> 4 : Nat) : Int)
    TrafficClass := ((((b.getD 0 0 &&& 0x0f) <<< 4) ||| (b.getD 1 0 >>> 4) : Nat) : Int)
    FlowLabel :=
      ((((b.getD 1 0 &&& 0x0f) <<< 16) ||| (b.getD 2 0 <<< 8) ||| b.getD 3 0 : Nat) : Int)
    PayloadLen := (((b.getD 4 0 <<< 8) ||| b.getD 5 0 : Nat) : Int)
    NextHeader := ((b.getD 6 0 : Nat) : Int)
    HopLimit := ((b.getD 7 0 : Nat) : Int)
    Src := copy (makeBytes 16) (slice b 8 24)
    Dst := copy (makeBytes 16) (slice b 24 40)
    ExtensionHeaders := [] }

end ipv6

/-- The 40 bytes of a base header from 2001:db8::1 to 2001:db8::2 whose
next-header value is 0x00 (hop-by-hop options). -/
def baseNextHeader0 : List Nat := [0x60, 0, 0, 0, 0, 0, 0x00, 64] ++ addr1 ++ addr2

/-- A datagram with one extension header of length byte 1: next header 0x3a,
length 1, then the 16 bytes a header of 8*(1+1) data bytes would hold, then
an echo request. -/
def extLen1Datagram : List Nat :=
  baseNextHeader0 ++ [0x3a, 0x01] ++ [1, 2, 3, 4, 5, 6, 7, 8, 9, 10, 11, 12, 13, 14, 15, 16]
    ++ echoBytes

/-- A datagram with two extension headers of length byte 0, the first
announcing destination options (0x3c), the second ICMPv6 (0x3a). -/
def twoExtDatagram : List Nat :=
  baseNextHeader0 ++ [0x3c, 0x00, 1, 2, 3, 4, 5, 6, 7, 8]
    ++ [0x3a, 0x00, 11, 12, 13, 14, 15, 16, 17, 18] ++ echoBytes

/-- Address 2001:db8::3, a router on the path. -/
def addr3 : List Nat := [0x20, 0x01, 0x0d, 0xb8, 0, 0, 0, 0, 0, 0, 0, 0, 0, 0, 0, 3]

/-- The outstanding probe of a run from 2001:db8::1 to 2001:db8::2 with the
identifier 0x1234, after `request.Marshal(3, 1)`: hop limit 3, sequence 1. -/
def outstandingProbe : trace6.request :=
  (trace6.request.Marshal (trace6.probeTemplate 0x1234 addr1 addr2) 3 1 addr1 addr2).2

/-- The base header of an answer from 2001:db8::2 to 2001:db8::1 with an
8-byte ICMPv6 payload. -/
def replyHeader : ipv6.Header := { probeHeader with Src := addr2, Dst := addr1 }

/-- A 64-byte receive buffer holding a 48-byte datagram: `replyHeader`, then
the echo reply with identifier 0x1234, sequence 1 and checksum 0x1113, then
zero padding. -/
def replyBuffer : List Nat :=
  replyHeader.Marshal ++ [0x81, 0, 0x11, 0x13, 0x12, 0x34, 0, 1] ++ List.replicate 16 0

/-- The base header of an error message from the router 2001:db8::3 to
2001:db8::1 with a 58-byte ICMPv6 payload. -/
def unreachableHeader : ipv6.Header :=
  { probeHeader with Src := addr3, Dst := addr1, PayloadLen := 58 }

/-- A 128-byte receive buffer holding a 98-byte datagram: `unreachableHeader`,
then a destination-unreachable message (checksum 0x090f) whose invoking packet
is the two framing bytes 0x00 0x00 followed by the probe (header and echo
request), then zero padding. -/
def unreachableBuffer : List Nat :=
  unreachableHeader.Marshal
    ++ ([0x01, 0, 0x09, 0x0f, 0, 0, 0, 0] ++ [0x00, 0x00] ++ probeHeader.Marshal
      ++ [0x80, 0, 0x12, 0x13, 0x12, 0x34, 0, 1])
    ++ List.replicate 30 0

/-- The outstanding probe one attempt later: hop limit 3, sequence 2. -/
def nextProbe : trace6.request :=
  (trace6.request.Marshal outstandingProbe 3 2 addr1 addr2).2

namespace icmp6

/-- The accumulator `s` of `csum` after the loop and the addition of the odd
final byte, when the loop is entered with `s = s0` (`csum` enters it with 0). -/
def csumSumFrom (b : List Nat) (s0 : Nat) : Nat :=
  let csumcv : Int := (b.length : Int) - 1
  let s := (csumIndices csumcv).foldl
    (fun s i => (s + ((b.getD (i + 1) 0 <<< 8) ||| b.getD i 0)) % 4294967296) s0
  if Int.land csumcv 1 = 0 then (s + b.getD csumcv.toNat 0) % 4294967296 else s

end icmp6
/-! ## package main (ndp/icmp.go) -/

namespace ndp

def ICMPv6NeighborAdvertisementFlagR : Nat := 4
def ICMPv6NeighborAdvertisementFlagS : Nat := 2
def ICMPv6NeighborAdvertisementFlag0 : Nat := 1

/-- Source: `ndp/icmp.go`, `ICMPv6MessageHeader` (the field `Type` is spelled `Type_`). -/
structure ICMPv6MessageHeader where
  Type_ : Nat
  Code : Nat
  Checksum : Nat
deriving DecidableEq, Repr

/-- Source: `ndp/icmp.go`, `ICMPv6NeighborAdvertisement`; `Flags` is a `uint32`,
3 bit flags and 29 bit reserved. -/
structure ICMPv6NeighborAdvertisement where
  Header : ICMPv6MessageHeader
  Flags : Nat
  TargetAddress : List Nat
  OptionType : Nat
  OptionLength : Nat
  SourceLinkAddress : List Nat
deriving DecidableEq, Repr

/-- Source: `ndp/icmp.go`, `(*ICMPv6NeighborAdvertisement).FlagSet`:
`return uint8(m.Flags>>29)&flag == 1`. -/
def ICMPv6NeighborAdvertisement.FlagSet (m : ICMPv6NeighborAdvertisement) (flag : Nat) : Bool :=
  decide ((((m.Flags >>> 29) % 256) &&& flag) = 1)

end ndp

namespace icmp6

/-- The common header of a message, whatever its variant. -/
def Message.Header : Message → Header
  | .echoRequest m => m.Header
  | .echoReply m => m.Header
  | .timeExceeded m => m.Header
  | .destinationUnreachable m => m.Header

end icmp6

/-- A neighbor advertisement whose flags word has only bit 31 (router) set. -/
def routerAdvertisement : ndp.ICMPv6NeighborAdvertisement :=
  { Header := ⟨0x88, 0, 0⟩, Flags := 0x80000000, TargetAddress := addr2, OptionType := 2,
    OptionLength := 1, SourceLinkAddress := [0x02, 0, 0, 0, 0, 0x01] }

/-- A neighbor advertisement whose flags word has only bit 30 (solicited) set. -/
def solicitedAdvertisement : ndp.ICMPv6NeighborAdvertisement :=
  { routerAdvertisement with Flags := 0x40000000 }

/-- A neighbor advertisement whose flags word has only bit 29 (override) set. -/
def overrideAdvertisement : ndp.ICMPv6NeighborAdvertisement :=
  { routerAdvertisement with Flags := 0x20000000 }

namespace icmp6

/-- Addition of two 16-bit values with end-around carry: a carry out of bit 15
is added back into bit 0. -/
def endAroundAdd (a w : Nat) : Nat := if a + w < 65536 then a + w else a + w - 65535

/-- The Internet checksum of RFC 1071 of a byte sequence read in network byte
order, as the claim words it (not taken from `csum`): the 16-bit one's
complement of the end-around-carry sum of the big-endian 16-bit words, an odd
trailing byte being the high-order byte of a final word. -/
def rfc1071Checksum (b : List Nat) : Nat := 65535 - (beWords b).foldl endAroundAdd 0

end icmp6

/-- A 58-byte datagram from 2001:db8::2 to 2001:db8::1, laid out the way
`ParseHeader` walks it: the base header (payload length 18, next header 0x00),
one extension header of 2 + 8 bytes (next header 0x3a, length byte 0), and the
echo reply with identifier 0x1234 and sequence 1, whose checksum 0x1113 is the
one computed over the pseudo-header (source, destination, length 8, next
header 0x3a). -/
def extReplyDatagram : List Nat :=
  [0x60, 0, 0, 0, 0, 18, 0x00, 64] ++ addr2 ++ addr1 ++ [0x3a, 0x00, 1, 4, 0, 0, 0, 0, 0, 0]
    ++ [0x81, 0, 0x11, 0x13, 0x12, 0x34, 0, 1]

/-- The header `ParseHeader` returns for `extReplyDatagram`. -/
def extReplyParsed : ipv6.Header :=
  { replyHeader with PayloadLen := 18, NextHeader := 0x00,
                     ExtensionHeaders := [⟨0x3a, 0, [1, 4, 0, 0, 0, 0, 0, 0]⟩] }

/-- The same answer in the wire format of RFC 8200, 56 bytes: the base header
(payload length 16, next header 0x00), an 8-byte hop-by-hop header (next header
0x3a, length byte 0, one PadN option) and the echo reply with checksum 0x1113. -/
def wireExtReplyDatagram : List Nat :=
  [0x60, 0, 0, 0, 0, 16, 0x00, 64] ++ addr2 ++ addr1 ++ [0x3a, 0x00, 1, 4, 0, 0, 0, 0]
    ++ [0x81, 0, 0x11, 0x13, 0x12, 0x34, 0, 1]

/-- The header `ParseHeader` returns for `wireExtReplyDatagram`: the data of the
extension header runs two bytes into the echo reply. -/
def wireExtReplyParsed : ipv6.Header :=
  { replyHeader with PayloadLen := 16, NextHeader := 0x00,
                     ExtensionHeaders := [⟨0x3a, 0, [1, 4, 0, 0, 0, 0, 0x81, 0]⟩] }

/-- A 64-byte receive buffer holding a 48-byte datagram from 2001:db8::2 to
2001:db8::1 without upper-layer payload: the base header (payload length 8,
next header 0x00) and an 8-byte hop-by-hop header (next header 59, no next
header; length byte 0; one PadN option), then zero padding. -/
def padOnlyBuffer : List Nat :=
  [0x60, 0, 0, 0, 0, 8, 0x00, 64] ++ addr2 ++ addr1 ++ [0x3b, 0x00, 1, 4, 0, 0, 0, 0]
    ++ List.replicate 16 0

/-- A 64-byte receive buffer holding a 52-byte datagram from 2001:db8::2 to
2001:db8::1: the base header (payload length 12, next header 0x00), an 8-byte
hop-by-hop header (next header 0x3a) and an ICMPv6 message cut after its
4-byte header, then zero padding. -/
def shortMessageBuffer : List Nat :=
  [0x60, 0, 0, 0, 0, 12, 0x00, 64] ++ addr2 ++ addr1 ++ [0x3a, 0x00, 1, 4, 0, 0, 0, 0]
    ++ [0x81, 0, 0xab, 0xcd] ++ List.replicate 12 0

/-- The base header of an error message from the router 2001:db8::3 to
2001:db8::1 with a 56-byte ICMPv6 payload. -/
def timeExceededHeader : ipv6.Header :=
  { probeHeader with Src := addr3, Dst := addr1, PayloadLen := 56 }

/-- The header of a probe from 2001:db8::1 to 2001:db8::2 as a router returns
it in an error message: hop limit 1. -/
def expiredProbeHeader : ipv6.Header := { probeHeader with HopLimit := 1 }

/-- The ICMPv6 bytes of a time-exceeded message (checksum field zero) whose
invoking packet is a probe of another run: an echo request with identifier
0x9999 and sequence 7. -/
def foreignTimeExceeded : List Nat :=
  [0x03, 0, 0, 0, 0, 0, 0, 0] ++ expiredProbeHeader.Marshal
    ++ [0x80, 0, 0x8a, 0xa7, 0x99, 0x99, 0, 7]

/-- A 128-byte receive buffer holding a 96-byte datagram: `timeExceededHeader`,
then `foreignTimeExceeded` with its checksum 0x0750, then zero padding. -/
def timeExceededBuffer : List Nat :=
  timeExceededHeader.Marshal
    ++ ([0x03, 0, 0x07, 0x50, 0, 0, 0, 0] ++ expiredProbeHeader.Marshal
      ++ [0x80, 0, 0x8a, 0xa7, 0x99, 0x99, 0, 7])
    ++ List.replicate 32 0

/-! ## Arithmetic of the bit operations -/

theorem lor_shl (hi lo k : Nat) (hlo : lo < 2 ^ k) : (hi <<< k) ||| lo = hi * 2 ^ k + lo := by
  rw [Nat.shiftLeft_eq, Nat.mul_comm hi]
  exact (Nat.mul_add_lt_is_or hlo hi).symm

theorem lor_shl_right (hi lo k : Nat) (hlo : lo < 2 ^ k) :
    lo ||| (hi <<< k) = hi * 2 ^ k + lo := by
  rw [Nat.lor_comm, lor_shl hi lo k hlo]

theorem and_0f (x : Nat) : x &&& 0x0f = x % 16 := Nat.and_pow_two_sub_one_eq_mod x 4

theorem and_ff (x : Nat) : x &&& 0xff = x % 256 := Nat.and_pow_two_sub_one_eq_mod x 8

set_option maxRecDepth 100000 in
theorem and_f0_shr : ∀ t, t < 256 → (t &&& 0xf0) >>> 4 = t / 16 := by decide

theorem land_0f (a : ℕ) : Int.land (a : ℤ) 0x0f = ((a &&& 0x0f : ℕ) : ℤ) := rfl

theorem land_f0 (a : ℕ) : Int.land (a : ℤ) 0xf0 = ((a &&& 0xf0 : ℕ) : ℤ) := rfl

theorem land_ff (a : ℕ) : Int.land (a : ℤ) 0xff = ((a &&& 0xff : ℕ) : ℤ) := rfl

theorem shr_cast (a k : ℕ) : (a : ℤ) >>> k = ((a >>> k : ℕ) : ℤ) := rfl

theorem shl_cast4 (a : ℕ) : (a : ℤ) <<< (4 : ℤ) = ((a <<< 4 : ℕ) : ℤ) := by
  have := Int.shiftLeft_eq_mul_pow (a : ℤ) 4
  simp only [Nat.cast_ofNat] at this
  rw [this, Nat.shiftLeft_eq]; push_cast; rfl

theorem byteOfInt_cast (a : ℕ) : byteOfInt (a : ℤ) = a % 256 := by
  unfold byteOfInt; omega

theorem uint32OfInt_cast (a : ℕ) : uint32OfInt (a : ℤ) = a % 4294967296 := by
  unfold uint32OfInt; omega

theorem Uint16_bytes16 (c : Nat) (hc : c < 65536) :
    BigEndian.Uint16 (BigEndian.bytes16 c) = c := by
  simp only [BigEndian.Uint16, BigEndian.bytes16, List.getD_cons_zero, List.getD_cons_succ]
  rw [lor_shl_right _ _ 8 (by omega), Nat.shiftRight_eq_div_pow]
  omega

theorem Uint32_bytes32 (v : Nat) (hv : v < 4294967296) :
    BigEndian.Uint32 (BigEndian.bytes32 v) = v := by
  simp only [BigEndian.Uint32, BigEndian.bytes32, List.getD_cons_zero, List.getD_cons_succ]
  simp only [Nat.shiftRight_eq_div_pow]
  rw [lor_shl_right _ _ 8 (by omega), lor_shl_right _ _ 16 (by omega),
    lor_shl_right _ _ 24 (by omega)]
  omega

theorem Uint16_pair (hi lo : Nat) (hlo : lo < 256) :
    BigEndian.Uint16 [hi, lo] = hi * 256 + lo := by
  simp only [BigEndian.Uint16, List.getD_cons_zero, List.getD_cons_succ]
  rw [lor_shl_right _ _ 8 (by omega)]
  norm_num

/-! ## Bit packing of the IPv6 base header -/

theorem byte0_eq (t : Nat) (ht : t < 256) :
    (6 &&& 0x0f) <<< 4 % 256 ||| (t &&& 0xf0) >>> 4 % 256 = 96 + t / 16 := by
  rw [and_f0_shr t ht]
  have e1 : (6 &&& 0x0f) <<< 4 % 256 = 6 <<< 4 := by decide
  rw [e1, lor_shl 6 _ 4 (by omega)]
  omega

theorem byte1_eq (t g : Nat) (hg : g < 16) :
    (t &&& 0x0f) <<< 4 % 256 ||| g % 256 = (t % 16) * 16 + g := by
  have e2 : (t &&& 0x0f) <<< 4 % 256 = (t % 16) <<< 4 := by
    rw [and_0f, Nat.shiftLeft_eq]; omega
  rw [e2, lor_shl _ _ 4 (by omega)]
  omega

theorem trafficClass_bytes (t g : Nat) (ht : t < 256) (hg : g < 16) :
    (((6 &&& 0x0f) <<< 4 % 256 ||| (t &&& 0xf0) >>> 4 % 256) &&& 0x0f) <<< 4
      ||| ((t &&& 0x0f) <<< 4 % 256 ||| g % 256) >>> 4 = t := by
  rw [byte0_eq t ht, byte1_eq t g hg, and_0f, Nat.shiftRight_eq_div_pow,
    lor_shl _ _ 4 (by omega)]
  omega

theorem flowLabel_bytes (t f : Nat) (hf : f < 2 ^ 20) :
    (((t &&& 0x0f) <<< 4 % 256 ||| (f >>> 16) % 256) &&& 0x0f) <<< 16
      ||| ((f >>> 8) % 256) <<< 8 ||| (f &&& 0xff) % 256 = f := by
  have hg : f >>> 16 < 16 := by rw [Nat.shiftRight_eq_div_pow]; omega
  rw [byte1_eq t _ hg, and_0f, and_ff]
  have h1 : ((t % 16 * 16 + f >>> 16) % 16) <<< 16 ||| ((f >>> 8) % 256) <<< 8
      = ((t % 16 * 16 + f >>> 16) % 16 * 256 + (f >>> 8) % 256) <<< 8 := by
    rw [Nat.shiftLeft_eq, Nat.shiftLeft_eq, Nat.shiftLeft_eq]
    have := Nat.mul_add_lt_is_or (i := 16) (b := (f >>> 8) % 256 * 2 ^ 8) (by omega)
      ((t % 16 * 16 + f >>> 16) % 16)
    rw [Nat.mul_comm _ (2 ^ 16), ← this]
    ring
  rw [h1, lor_shl _ _ 8 (by omega)]
  simp only [Nat.shiftRight_eq_div_pow] at hg ⊢
  omega

theorem payloadLen_bytes (p : Nat) (hp : p < 65536) :
    ((p >>> 8) % 256) <<< 8 ||| (p &&& 0xff) % 256 = p := by
  rw [and_ff, lor_shl _ _ 8 (by omega), Nat.shiftRight_eq_div_pow]
  omega

/-! ## Lists -/

theorem copy_make16 (a : List Nat) (ha : a.length = 16) : copy (makeBytes 16) a = a := by
  simp [copy, makeBytes, ha]

theorem slice_8_24 (x0 x1 x2 x3 x4 x5 x6 x7 : Nat) (src t : List Nat)
    (hs : src.length = 16) :
    slice ([x0, x1, x2, x3, x4, x5, x6, x7] ++ src ++ t) 8 24 = src := by
  simp [slice, ← hs]

theorem slice_24_40 (x0 x1 x2 x3 x4 x5 x6 x7 : Nat) (src dst t : List Nat)
    (hs : src.length = 16) (hd : dst.length = 16) :
    slice ([x0, x1, x2, x3, x4, x5, x6, x7] ++ src ++ dst ++ t) 24 40 = dst := by
  simp only [slice, List.cons_append, List.nil_append, List.drop_succ_cons, List.append_assoc]
  have : List.drop 16 (src ++ (dst ++ t)) = dst ++ t := by
    rw [← hs]; exact List.drop_left' rfl
  rw [this]
  have h16 : 40 - 24 = dst.length := by omega
  rw [h16]; exact List.take_left' rfl

/-! ## The checksum -/

/-- The index list of the model is the set of indices the loop of `csum`
visits: the even `i` with `i < csumcv`, in increasing order. -/
theorem mem_csumIndices (csumcv : Int) (i : Nat) :
    i ∈ icmp6.csumIndices csumcv ↔ i % 2 = 0 ∧ (i : Int) < csumcv := by
  simp only [icmp6.csumIndices, List.mem_map, List.mem_range]
  constructor
  · rintro ⟨k, hk, rfl⟩
    constructor <;> omega
  · rintro ⟨h1, h2⟩
    exact ⟨i / 2, by omega, by omega⟩

theorem csumIndices_sorted (csumcv : Int) : (icmp6.csumIndices csumcv).Sorted (· < ·) := by
  unfold icmp6.csumIndices
  refine (List.pairwise_map).2 ?_
  exact (List.pairwise_lt_range _).imp (fun h => by omega)

theorem Htons_lt (n : Nat) : netu.Htons n < 65536 := by
  unfold netu.Htons
  exact Nat.mod_lt _ (by norm_num)

theorem csum_lt (b : List Nat) : icmp6.csum b < 65536 := by
  unfold icmp6.csum
  exact Htons_lt _

/-! ## ParseHeader without extension headers -/

theorem extLoop_break (b spare : List Nat) (n o : Nat) (ehs : List ipv6.ExtensionHeader)
    (hn : n ≠ 0x00 ∧ n ≠ 0x2b ∧ n ≠ 0x3c ∨ n = 0x3a) :
    ipv6.extLoop b spare n o ehs = .returns (o, ehs) := by
  rw [ipv6.extLoop]; simp only [hn, if_true]

theorem extLoop_panics_at_end (b spare : List Nat) (n o : Nat)
    (ehs : List ipv6.ExtensionHeader)
    (hn : ¬ (n ≠ 0x00 ∧ n ≠ 0x2b ∧ n ≠ 0x3c ∨ n = 0x3a)) (ho : b.length ≤ o) :
    ipv6.extLoop b spare n o ehs = .panics := by
  rw [ipv6.extLoop]
  have : ¬ o < b.length := by omega
  simp only [hn, if_false, this, dite_false]

theorem ParseHeader_noExt (b spare : List Nat) (hlen : 40 ≤ b.length)
    (hver : b.getD 0 0 >>> 4 = 6)
    (hnh : b.getD 6 0 % 256 ≠ 0x00 ∧ b.getD 6 0 % 256 ≠ 0x2b ∧ b.getD 6 0 % 256 ≠ 0x3c
      ∨ b.getD 6 0 % 256 = 0x3a) :
    ipv6.ParseHeader b spare = .returns (some
      { Version := ((b.getD 0 0 >>> 4 : Nat) : Int)
        TrafficClass := ((((b.getD 0 0 &&& 0x0f) <<< 4) ||| (b.getD 1 0 >>> 4) : Nat) : Int)
        FlowLabel :=
          ((((b.getD 1 0 &&& 0x0f) <<< 16) ||| (b.getD 2 0 <<< 8) ||| b.getD 3 0 : Nat) : Int)
        PayloadLen := (((b.getD 4 0 <<< 8) ||| b.getD 5 0 : Nat) : Int)
        NextHeader := ((b.getD 6 0 : Nat) : Int)
        HopLimit := ((b.getD 7 0 : Nat) : Int)
        Src := copy (makeBytes 16) (slice b 8 24)
        Dst := copy (makeBytes 16) (slice b 24 40)
        ExtensionHeaders := [] }, 40, none) := by
  have h1 : ¬ b.length < 40 := by omega
  simp only [ipv6.ParseHeader, ipv6.HeaderLen, h1, if_false, hver, byteOfInt_cast]
  rw [extLoop_break _ _ _ _ _ hnh]
  simp

/-- The bytes `Header.Marshal` produces for a valid header, field by field. -/
theorem Header_Marshal_valid (tc f pl nh hl : Nat) (src dst : List Nat)
    (ehs : List ipv6.ExtensionHeader) (hs : src.length = 16) (hd : dst.length = 16) :
    ipv6.Header.Marshal ⟨6, tc, f, pl, nh, hl, src, dst, ehs⟩ =
      [(6 &&& 15) <<< 4 % 256 ||| (tc &&& 240) >>> 4 % 256,
       (tc &&& 15) <<< 4 % 256 ||| f >>> 16 % 256,
       f >>> 8 % 256, (f &&& 255) % 256, pl >>> 8 % 256, (pl &&& 255) % 256, nh % 256, hl % 256]
        ++ src ++ dst := by
  have e6 : byteOfInt (Int.land 6 0x0f <<< (4 : ℤ)) = (6 &&& 0x0f) <<< 4 % 256 := by decide
  simp only [ipv6.Header.Marshal, land_0f, land_f0, land_ff, shr_cast, shl_cast4,
    byteOfInt_cast, e6, copy_make16 _ hs, copy_make16 _ hd]

theorem ParseHeader_Marshal_append (h : ipv6.Header) (rest spare : List Nat) (hv : h.Valid)
    (hn : h.NextHeader ≠ 0x00 ∧ h.NextHeader ≠ 0x2b ∧ h.NextHeader ≠ 0x3c) :
    ipv6.ParseHeader (h.Marshal ++ rest) spare
      = .returns (some { h with ExtensionHeaders := [] }, 40, none) := by
  obtain ⟨V, tc, f, pl, nh, hl, src, dst, ehs⟩ := h
  obtain ⟨hV, ⟨ht0, ht1⟩, ⟨hf0, hf1⟩, ⟨hp0, hp1⟩, ⟨hn0, hn1⟩, ⟨hl0, hl1⟩, hs, hd⟩ := hv
  simp only at hV ht0 ht1 hf0 hf1 hp0 hp1 hn0 hn1 hl0 hl1 hs hd hn
  subst hV
  lift tc to ℕ using ht0
  lift f to ℕ using hf0
  lift pl to ℕ using hp0
  lift nh to ℕ using hn0
  lift hl to ℕ using hl0
  have ht : tc < 256 := by omega
  have hf : f < 2 ^ 20 := by omega
  have hp : pl < 65536 := by omega
  have hnh : nh < 256 := by omega
  have hhl : hl < 256 := by omega
  have hg : f >>> 16 < 16 := by rw [Nat.shiftRight_eq_div_pow]; omega
  rw [Header_Marshal_valid tc f pl nh hl src dst ehs hs hd, ParseHeader_noExt]
  · rw [slice_24_40 _ _ _ _ _ _ _ _ _ _ _ hs hd, List.append_assoc _ dst rest,
      slice_8_24 _ _ _ _ _ _ _ _ _ _ hs, copy_make16 _ hs, copy_make16 _ hd]
    simp only [List.cons_append, List.nil_append, List.getD_cons_zero, List.getD_cons_succ]
    have t1 := trafficClass_bytes tc (f >>> 16) ht hg
    have t2 := flowLabel_bytes tc f hf
    have t3 := payloadLen_bytes pl hp
    have t0 : ((6 &&& 15) <<< 4 % 256 ||| (tc &&& 240) >>> 4 % 256) >>> 4 = 6 := by
      rw [byte0_eq tc ht, Nat.shiftRight_eq_div_pow]; omega
    have t6 : nh % 256 = nh := Nat.mod_eq_of_lt hnh
    have t7 : hl % 256 = hl := Nat.mod_eq_of_lt hhl
    simp only [Nat.reducePow] at t1 t2 t3 t0 ⊢
    rw [t0, t1, t2, t3, t6, t7]
    rfl
  · simp [hs, hd]; omega
  · simp only [List.cons_append, List.nil_append, List.getD_cons_zero, List.getD_cons_succ]
    rw [byte0_eq tc ht, Nat.shiftRight_eq_div_pow]; omega
  · simp only [List.cons_append, List.nil_append, List.getD_cons_zero, List.getD_cons_succ]
    left
    rw [Nat.mod_mod, Nat.mod_eq_of_lt hnh]
    omega

theorem Header_Marshal_length (h : ipv6.Header) (hv : h.Valid) : h.Marshal.length = 40 := by
  obtain ⟨_, _, _, _, _, _, hs, hd⟩ := hv
  simp [ipv6.Header.Marshal, copy_make16, hs, hd]

/-! ## Claims about the checksum and the IPv6 header -/

theorem VerifyChecksum_putChecksum (h : ipv6.Header) (p spare : List Nat)
    (hlen : 4 ≤ p.length) (h2 : p.getD 2 0 = 0) (h3 : p.getD 3 0 = 0) :
    icmp6.VerifyChecksum h
        (icmp6.putChecksum p (icmp6.csum
          ((ipv6.NewPseudoHeader h.PayloadLen h.NextHeader h.Src h.Dst).Marshal ++ p))) spare
      = .returns (true, p) := by
  generalize hc : icmp6.csum _ = c
  have hc' : c < 65536 := hc ▸ csum_lt _
  match p, hlen with
  | x0 :: x1 :: x2 :: x3 :: rest, _ =>
    simp at h2 h3
    subst h2 h3
    have hU := Uint16_bytes16 c hc'
    simp only [BigEndian.Uint16, BigEndian.bytes16, List.getD_cons_zero,
      List.getD_cons_succ] at hU
    have hl : 4 ≤ rest.length + 1 + 1 + 1 + 1 + spare.length := by omega
    simp [icmp6.VerifyChecksum, icmp6.putChecksum, slice, BigEndian.Uint16, hU, hc, hl]

/-- C1: for all addresses `src`, `dst` (16 bytes or not) and every ICMPv6 payload `p` of at least 4
bytes whose checksum field (bytes 2-3) is zero, let `c` be the checksum over
pseudo-header(len p, 0x3a, src, dst) ++ p, which is the value `MakeChecksum`
returns for a message that marshals to `p`; then `VerifyChecksum` returns true
on `p` with `c` written big-endian into bytes 2-3, for every header with
PayloadLen = len p, NextHeader = 0x3a, Src = src and Dst = dst (and whatever
the capacity of the slice).  The call leaves the checksum field zeroed. -/
theorem C1_verify_accepts_made_checksum (src dst p spare : List Nat) (h : ipv6.Header)
    (hlen : 4 ≤ p.length) (h2 : p.getD 2 0 = 0) (h3 : p.getD 3 0 = 0)
    (hpl : h.PayloadLen = (p.length : Int)) (hnh : h.NextHeader = 0x3a)
    (hs : h.Src = src) (hd : h.Dst = dst) :
    (∀ m : icmp6.Message, m.Marshal = p →
        icmp6.MakeChecksum m src dst
          = icmp6.csum ((ipv6.NewPseudoHeader (p.length : Int) 0x3a src dst).Marshal ++ p)) ∧
    icmp6.VerifyChecksum h
        (icmp6.putChecksum p
          (icmp6.csum ((ipv6.NewPseudoHeader (p.length : Int) 0x3a src dst).Marshal ++ p)))
        spare
      = .returns (true, p) := by
  refine ⟨?_, ?_⟩
  · intro m hm
    subst hm
    rfl
  · have key := VerifyChecksum_putChecksum h p spare hlen h2 h3
    rw [hpl, hnh, hs, hd] at key
    exact key

/-- C1, at an even and at an odd length: the echo request of the scenario
(8 bytes) and the same bytes followed by one payload byte (9 bytes), from
2001:db8::1 to 2001:db8::2. -/
theorem C1_verify_accepts_made_checksum_witness :
    icmp6.VerifyChecksum probeHeader
        (icmp6.putChecksum echoBytes
          (icmp6.csum ((ipv6.NewPseudoHeader 8 0x3a addr1 addr2).Marshal ++ echoBytes))) []
      = .returns (true, echoBytes) ∧
    icmp6.VerifyChecksum { probeHeader with PayloadLen := 9 }
        (icmp6.putChecksum (echoBytes ++ [0xab])
          (icmp6.csum ((ipv6.NewPseudoHeader 9 0x3a addr1 addr2).Marshal
            ++ (echoBytes ++ [0xab])))) []
      = .returns (true, echoBytes ++ [0xab]) :=
  ⟨(C1_verify_accepts_made_checksum addr1 addr2 echoBytes [] probeHeader
      (by decide) (by decide) (by decide) (by decide) (by decide) (by decide)
      (by decide)).2,
   (C1_verify_accepts_made_checksum addr1 addr2 (echoBytes ++ [0xab]) []
      { probeHeader with PayloadLen := 9 }
      (by decide) (by decide) (by decide) (by decide) (by decide) (by decide)
      (by decide)).2⟩

/-- C2, as stated, fails: the header `hopByHopHeader` is valid (version 6, all
fields in range, next header 0x00), its `Marshal` is 40 bytes long, and
`ParseHeader` on these bytes does not succeed: the extension loop reads
`b[40]` and the runtime panics. -/
theorem C2_counterexample :
    hopByHopHeader.Valid ∧ hopByHopHeader.Marshal.length = 40 ∧
    ipv6.ParseHeader hopByHopHeader.Marshal [] = .panics := by
  refine ⟨by decide, by decide, ?_⟩
  have hm : hopByHopHeader.Marshal =
      [96, 0, 0, 0, 0, 8, 0, 64, 0x20, 0x01, 0x0d, 0xb8, 0, 0, 0, 0, 0, 0, 0, 0, 0, 0, 0, 1,
       0x20, 0x01, 0x0d, 0xb8, 0, 0, 0, 0, 0, 0, 0, 0, 0, 0, 0, 2] := by decide
  rw [hm]
  simp only [ipv6.ParseHeader]
  rw [extLoop_panics_at_end _ _ _ _ _ (by decide) (by decide)]
  decide

/-- C2, amended: for every valid IPv6 header `h` whose NextHeader is not one of
the extension-header values 0x00, 0x2b, 0x3c that `ParseHeader` walks,
`ParseHeader(h.Marshal())` succeeds with offset 40 and returns a header with
the same Version, TrafficClass, FlowLabel, PayloadLen, NextHeader, HopLimit,
Src and Dst (and no extension headers). -/
theorem C2_parse_marshal_round_trip (h : ipv6.Header) (spare : List Nat) (hv : h.Valid)
    (hn : h.NextHeader ≠ 0x00 ∧ h.NextHeader ≠ 0x2b ∧ h.NextHeader ≠ 0x3c) :
    ipv6.ParseHeader h.Marshal spare
      = .returns (some { h with ExtensionHeaders := [] }, 40, none) := by
  have key := ParseHeader_Marshal_append h [] spare hv hn
  rwa [List.append_nil] at key

/-- C2, amended, at the probe header (next header 0x3a, hop limit 64). -/
theorem C2_parse_marshal_round_trip_witness :
    ipv6.ParseHeader probeHeader.Marshal [] = .returns (some probeHeader, 40, none) :=
  C2_parse_marshal_round_trip probeHeader [] (by decide) (by decide)

/-! ## Claims about the error results -/

/-- C7: `ParseHeader` returns `(nil, 0, "header too short")` for every input
shorter than 40 bytes, whatever its first byte, and `(nil, 0, "No IPv6
packet")` for every input of at least 40 bytes whose first byte has a high
nibble other than 6: no header and offset 0 in both cases. -/
theorem C7_parse_header_errors (b spare : List Nat) :
    (b.length < 40 →
      ipv6.ParseHeader b spare = .returns (none, 0, some .headerTooShort)) ∧
    (40 ≤ b.length → b.getD 0 0 >>> 4 ≠ 6 →
      ipv6.ParseHeader b spare = .returns (none, 0, some .noIPv6Packet)) := by
  constructor
  · intro h
    simp [ipv6.ParseHeader, ipv6.HeaderLen, h]
  · intro h hv
    have h1 : ¬ b.length < 40 := by omega
    have hv' : ¬ ((b.getD 0 0 >>> 4 : Nat) : Int) = 6 := by
      intro hc
      exact hv (by exact_mod_cast hc)
    simp only [ipv6.ParseHeader, ipv6.HeaderLen, h1, if_false]
    rw [if_pos (by simpa using hv')]

/-- C7 at a 39-byte input that starts with a version-6 byte, and at a 40-byte
input whose first byte is 0x45 (an IPv4 header byte). -/
theorem C7_parse_header_errors_witness :
    ipv6.ParseHeader (0x60 :: List.replicate 38 0) []
      = .returns (none, 0, some .headerTooShort) ∧
    ipv6.ParseHeader (0x45 :: List.replicate 39 0) []
      = .returns (none, 0, some .noIPv6Packet) :=
  ⟨(C7_parse_header_errors (0x60 :: List.replicate 38 0) []).1 (by decide),
   (C7_parse_header_errors (0x45 :: List.replicate 39 0) []).2 (by decide) (by decide)⟩

/-- C8: `Unmarshal` returns `(nil, "ICMPv6 packet is to short")` for every
input shorter than 8 bytes; for an input of at least 8 bytes its error is
"Invalid header code" exactly when the type is 0x81 and the code is not 0, or
the type is 0x03 and the code exceeds 1, or the type is 0x01 and the code
exceeds 6 (and then no message is returned).  An 8-byte echo reply with code 1
fails with that error, and one with code 0 parses without error. -/
theorem C8_unmarshal_length_and_code (b : List Nat) :
    (b.length < 8 → icmp6.Unmarshal b = (none, some .icmpTooShort)) ∧
    (8 ≤ b.length →
      ((icmp6.Unmarshal b).2 = some .invalidHeaderCode ↔
        (b.getD 0 0 = 0x81 ∧ b.getD 1 0 ≠ 0) ∨ (b.getD 0 0 = 0x03 ∧ b.getD 1 0 > 1) ∨
          (b.getD 0 0 = 0x01 ∧ b.getD 1 0 > 6)) ∧
      ((icmp6.Unmarshal b).2 = some .invalidHeaderCode → (icmp6.Unmarshal b).1 = none)) ∧
    (b.length = 8 → b.getD 0 0 = 0x81 → b.getD 1 0 = 1 →
      icmp6.Unmarshal b = (none, some .invalidHeaderCode)) ∧
    (b.length = 8 → b.getD 0 0 = 0x81 → b.getD 1 0 = 0 →
      (icmp6.Unmarshal b).2 = none ∧ ∃ r, (icmp6.Unmarshal b).1 = some (.echoReply r)) := by
  refine ⟨?_, ?_, ?_, ?_⟩
  · intro h
    simp [icmp6.Unmarshal, h]
  · intro h
    have h1 : ¬ b.length < 8 := by omega
    simp only [icmp6.Unmarshal, h1, if_false, icmp6.verifyHeaderCode,
      icmp6.TypeEchoReply, icmp6.TypeTimeExceeded, icmp6.TypeDestinationUnreachable]
    generalize b.getD 0 0 = t
    generalize b.getD 1 0 = c
    by_cases t1 : t = 0x81
    · subst t1
      by_cases hc : c = 0
      · subst hc
        by_cases hl : b.length > 8 <;> simp [hl]
      · simp [hc]
    · by_cases t2 : t = 0x03
      · subst t2
        by_cases hc : c ≤ 1
        · have c' : ¬ 1 < c := by omega
          simp [hc, c']
        · have c' : 1 < c := by omega
          simp [hc, c']
      · by_cases t3 : t = 0x01
        · subst t3
          by_cases hc : c ≤ 6
          · have c' : ¬ 6 < c := by omega
            simp [hc, c']
          · have c' : 6 < c := by omega
            simp [hc, c']
        · simp [t1, t2, t3]
  · intro h t c
    have h1 : ¬ b.length < 8 := by omega
    simp only [icmp6.Unmarshal, h1, if_false, icmp6.verifyHeaderCode,
      icmp6.TypeEchoReply, icmp6.TypeTimeExceeded, icmp6.TypeDestinationUnreachable, t, c]
    simp
  · intro h t c
    have h1 : ¬ b.length < 8 := by omega
    have h2 : ¬ b.length > 8 := by omega
    simp only [icmp6.Unmarshal, h1, h2, if_false, icmp6.verifyHeaderCode,
      icmp6.TypeEchoReply, icmp6.TypeTimeExceeded, icmp6.TypeDestinationUnreachable, t, c]
    simp

/-- C8 at a 7-byte input, at an 8-byte echo reply with code 1 and at an 8-byte
echo reply with code 0. -/
theorem C8_unmarshal_length_and_code_witness :
    icmp6.Unmarshal [0x81, 0, 0, 0, 0, 0, 0] = (none, some .icmpTooShort) ∧
    icmp6.Unmarshal [0x81, 1, 0, 0, 0x12, 0x34, 0, 1] = (none, some .invalidHeaderCode) ∧
    ((icmp6.Unmarshal [0x81, 0, 0, 0, 0x12, 0x34, 0, 1]).2 = none ∧
      ∃ r, (icmp6.Unmarshal [0x81, 0, 0, 0, 0x12, 0x34, 0, 1]).1 = some (.echoReply r)) :=
  ⟨(C8_unmarshal_length_and_code [0x81, 0, 0, 0, 0, 0, 0]).1 (by decide),
   (C8_unmarshal_length_and_code [0x81, 1, 0, 0, 0x12, 0x34, 0, 1]).2.2.1
     (by decide) (by decide) (by decide),
   (C8_unmarshal_length_and_code [0x81, 0, 0, 0, 0x12, 0x34, 0, 1]).2.2.2
     (by decide) (by decide) (by decide)⟩

/-- C9: for every input whose type byte is 0x81 (echo reply) and whose code is
0: when it is longer than 8 bytes `Unmarshal` returns `(nil, "ICMPv6 packet is
to long")`; when it is exactly 8 bytes `Unmarshal` returns an `EchoReply` whose
Identifier is the big-endian value of bytes 4-5, whose SequenceNumber is the
big-endian value of bytes 6-7 and whose Data is empty. -/
theorem C9_echo_reply_length (b : List Nat) (hbytes : ∀ x ∈ b, x < 256)
    (ht : b.getD 0 0 = 0x81) (hc : b.getD 1 0 = 0) :
    (8 < b.length → icmp6.Unmarshal b = (none, some .icmpTooLong)) ∧
    (b.length = 8 →
      icmp6.Unmarshal b = (some (.echoReply
        { Header := { Type_ := 0x81, Code := 0, Checksum := b.getD 2 0 * 256 + b.getD 3 0 }
          Identifier := b.getD 4 0 * 256 + b.getD 5 0
          SequenceNumber := b.getD 6 0 * 256 + b.getD 7 0
          Data := [] }), none)) := by
  constructor
  · intro h
    have h1 : ¬ b.length < 8 := by omega
    simp only [icmp6.Unmarshal, h1, if_false, icmp6.verifyHeaderCode,
      icmp6.TypeEchoReply, icmp6.TypeTimeExceeded, icmp6.TypeDestinationUnreachable, ht, hc]
    simp [h]
  · intro h
    match b, h with
    | [x0, x1, x2, x3, x4, x5, x6, x7], _ =>
      simp only [List.getD_cons_zero, List.getD_cons_succ] at ht hc ⊢
      subst ht hc
      have h3 : x3 < 256 := hbytes x3 (by simp)
      have h5 : x5 < 256 := hbytes x5 (by simp)
      have h7 : x7 < 256 := hbytes x7 (by simp)
      have e1 : slice [0x81, 0, x2, x3, x4, x5, x6, x7] 2 4 = [x2, x3] := rfl
      have e2 : slice [0x81, 0, x2, x3, x4, x5, x6, x7] 4 6 = [x4, x5] := rfl
      have e3 : slice [0x81, 0, x2, x3, x4, x5, x6, x7] 6 8 = [x6, x7] := rfl
      simp [icmp6.Unmarshal, icmp6.verifyHeaderCode, icmp6.TypeEchoReply,
        icmp6.TypeTimeExceeded, e1, e2, e3, Uint16_pair _ _ h3, Uint16_pair _ _ h5,
        Uint16_pair _ _ h7]

/-- C9 at a 9-byte echo reply and at the 8-byte echo reply with identifier
0x1234 and sequence number 1. -/
theorem C9_echo_reply_length_witness :
    icmp6.Unmarshal [0x81, 0, 0xab, 0xcd, 0x12, 0x34, 0, 1, 0xff] = (none, some .icmpTooLong) ∧
    icmp6.Unmarshal [0x81, 0, 0xab, 0xcd, 0x12, 0x34, 0, 1] = (some (.echoReply
        { Header := { Type_ := 0x81, Code := 0, Checksum := 0xab * 256 + 0xcd }
          Identifier := 0x12 * 256 + 0x34
          SequenceNumber := 0 * 256 + 1
          Data := [] }), none) :=
  ⟨(C9_echo_reply_length [0x81, 0, 0xab, 0xcd, 0x12, 0x34, 0, 1, 0xff]
      (by decide) (by decide) (by decide)).1 (by decide),
   (C9_echo_reply_length [0x81, 0, 0xab, 0xcd, 0x12, 0x34, 0, 1]
      (by decide) (by decide) (by decide)).2 (by decide)⟩

/-- Every input shorter than 4 bytes makes `VerifyChecksum` panic, whatever the
header and the capacity of the slice: at the slice expression `b[2:4]` when
the capacity is below 4, at `b[2] = 0` or `b[3] = 0` otherwise. -/
theorem VerifyChecksum_panics_of_short (h : ipv6.Header) (b spare : List Nat)
    (hb : b.length < 4) : icmp6.VerifyChecksum h b spare = .panics := by
  unfold icmp6.VerifyChecksum
  by_cases h4 : 4 ≤ b.length + spare.length
  · by_cases h2 : 2 < b.length
    · have h3 : b.length ≤ 3 := by omega
      simp [h4, h2, h3]
    · simp [h4, h2]
  · simp [h4]

/-- C10, the code at inputs shorter than 4 bytes: `VerifyChecksum` does not
return a boolean but panics, on the empty payload (with and without spare
capacity in the receive buffer) and on a 3-byte payload. -/
theorem C10_verify_panics_on_short_input :
    icmp6.VerifyChecksum probeHeader [] [] = .panics ∧
    icmp6.VerifyChecksum probeHeader [] [0, 0, 0, 0, 0, 0, 0, 0] = .panics ∧
    icmp6.VerifyChecksum probeHeader [0x81, 0x00, 0x12] [0, 0, 0, 0] = .panics := by
  decide

/-- The bytes `EchoReply.Marshal` produces: both `PutUint16` calls write at
offset 0 of the 4 header bytes, so the sequence number ends up in bytes 0-1,
the checksum stays in bytes 2-3, and the identifier is lost. -/
theorem EchoReply_Marshal_eq (m : icmp6.EchoReply) :
    m.Marshal = BigEndian.bytes16 m.SequenceNumber ++ BigEndian.bytes16 m.Header.Checksum
      ++ m.Data := by
  simp [icmp6.EchoReply.Marshal, icmp6.Header.Marshal, BigEndian.PutUint16, BigEndian.bytes16]

/-- The bytes `TimeExceeded.Marshal` produces: `PutUint32` overwrites the 4
header bytes with the unused field. -/
theorem TimeExceeded_Marshal_eq (m : icmp6.TimeExceeded) :
    m.Marshal = BigEndian.bytes32 m.Unused ++ m.InvokingPacket := by
  simp [icmp6.TimeExceeded.Marshal, icmp6.Header.Marshal, BigEndian.PutUint32,
    BigEndian.bytes16, BigEndian.bytes32]

/-- The bytes `DestinationUnreachable.Marshal` produces, as for `TimeExceeded`. -/
theorem DestinationUnreachable_Marshal_eq (m : icmp6.DestinationUnreachable) :
    m.Marshal = BigEndian.bytes32 m.Unused ++ m.InvokingPacket := by
  simp [icmp6.DestinationUnreachable.Marshal, icmp6.Header.Marshal, BigEndian.PutUint32,
    BigEndian.bytes16, BigEndian.bytes32]

/-- C6, the code at an echo reply (type 0x81, code 0, checksum 0xabcd,
identifier 0x1234, sequence 1, no payload) and at a destination-unreachable
message (type 0x01, code 0, checksum 0xabcd, unused 0, invoking packet 0x60
0x00): `Marshal` returns 4 and 6 bytes, not 8 and 10, and byte 0 is not the
message type; the layout the claim describes is the second list of each line. -/
theorem C6_marshal_overwrites_header :
    (icmp6.Message.echoReply ⟨⟨0x81, 0, 0xabcd⟩, 0x1234, 0x0001, []⟩).Marshal
        = [0x00, 0x01, 0xab, 0xcd] ∧
    icmp6.specWireLayout (.echoReply ⟨⟨0x81, 0, 0xabcd⟩, 0x1234, 0x0001, []⟩)
        = [0x81, 0x00, 0xab, 0xcd, 0x12, 0x34, 0x00, 0x01] ∧
    (icmp6.Message.destinationUnreachable ⟨⟨0x01, 0, 0xabcd⟩, 0, [0x60, 0x00]⟩).Marshal
        = [0x00, 0x00, 0x00, 0x00, 0x60, 0x00] ∧
    icmp6.specWireLayout (.destinationUnreachable ⟨⟨0x01, 0, 0xabcd⟩, 0, [0x60, 0x00]⟩)
        = [0x01, 0x00, 0xab, 0xcd, 0x00, 0x00, 0x00, 0x00, 0x60, 0x00] := by
  decide

/-! ## Claims about the ICMPv6 round trip and the probe -/

/-- C3, as stated, fails for each variant.  An echo request with legal fields
marshals to 8 bytes that `Unmarshal` rejects with "Unkown ICMPv6 meesage
type"; an echo reply with legal fields marshals to 4 bytes that `Unmarshal`
rejects with "ICMPv6 packet is to short"; a time-exceeded message with legal
fields and an 8-byte invoking packet comes back with another code, checksum
and unused field. -/
theorem C3_counterexample :
    (icmp6.Message.echoRequest ⟨⟨0x80, 0, 0x1213⟩, 0x1234, 1⟩).Legal ∧
    icmp6.Unmarshal (icmp6.Message.echoRequest ⟨⟨0x80, 0, 0x1213⟩, 0x1234, 1⟩).Marshal
      = (none, some .unknownType) ∧
    (icmp6.Message.echoReply ⟨⟨0x81, 0, 0xabcd⟩, 0x1234, 1, []⟩).Legal ∧
    icmp6.Unmarshal (icmp6.Message.echoReply ⟨⟨0x81, 0, 0xabcd⟩, 0x1234, 1, []⟩).Marshal
      = (none, some .icmpTooShort) ∧
    (icmp6.Message.timeExceeded ⟨⟨0x03, 1, 0xabcd⟩, 0x03000000, [1, 2, 3, 4, 5, 6, 7, 8]⟩).Legal ∧
    icmp6.Unmarshal
        (icmp6.Message.timeExceeded
          ⟨⟨0x03, 1, 0xabcd⟩, 0x03000000, [1, 2, 3, 4, 5, 6, 7, 8]⟩).Marshal
      = (some (.timeExceeded ⟨⟨0x03, 0, 0⟩, 0x01020304, [5, 6, 7, 8]⟩), none) := by
  decide

/-- C3, amended: for every echo request with legal fields,
`Unmarshal(m.Marshal())` returns the error "Unkown ICMPv6 meesage type",
since `Unmarshal` builds the three response variants only; and for every
message `m` of these three variants (an echo reply without payload, a
time-exceeded or a destination-unreachable message) with a code legal for its
type, `Unmarshal` applied to the wire layout of `m` (type, code, checksum,
then identifier and sequence number or unused field and invoking packet, all
big-endian) succeeds and returns `m` itself: same variant, type, code,
checksum and variant fields. -/
theorem C3_unmarshal_round_trip (m : icmp6.Message) (hm : m.Legal) :
    (∀ r, m = .echoRequest r → icmp6.Unmarshal m.Marshal = (none, some .unknownType)) ∧
    (m.IsResponse → icmp6.Unmarshal (icmp6.specWireLayout m) = (some m, none)) := by
  cases m with
  | echoRequest r =>
    obtain ⟨⟨t, c, ck⟩, id, sq⟩ := r
    obtain ⟨ht, -, -, -, -⟩ := hm
    simp only at ht
    subst ht
    refine ⟨fun _ _ => ?_, fun hr => absurd hr (by simp [icmp6.Message.IsResponse])⟩
    simp [icmp6.Message.Marshal, icmp6.EchoRequest.Marshal, icmp6.Unmarshal,
      icmp6.verifyHeaderCode, BigEndian.bytes16, icmp6.TypeEchoRequest, icmp6.TypeEchoReply,
      icmp6.TypeTimeExceeded, icmp6.TypeDestinationUnreachable]
  | echoReply r =>
    obtain ⟨⟨t, c, ck⟩, id, sq, data⟩ := r
    obtain ⟨ht, hc, hck, hid, hsq⟩ := hm
    simp only at ht hc hck hid hsq
    subst ht hc
    refine ⟨fun _ hr => by simp at hr, fun hr => ?_⟩
    simp only [icmp6.Message.IsResponse] at hr
    subst hr
    have e1 := Uint16_bytes16 ck hck
    have e2 := Uint16_bytes16 id hid
    have e3 := Uint16_bytes16 sq hsq
    simp only [BigEndian.bytes16] at e1 e2 e3
    simp [icmp6.specWireLayout, icmp6.Unmarshal, icmp6.verifyHeaderCode, BigEndian.bytes16,
      icmp6.TypeEchoReply, icmp6.TypeTimeExceeded, slice, e1, e2, e3]
  | timeExceeded r =>
    obtain ⟨⟨t, c, ck⟩, un, inv⟩ := r
    obtain ⟨ht, hc, hck, hun⟩ := hm
    simp only at ht hc hck hun
    subst ht
    refine ⟨fun _ hr => by simp at hr, fun _ => ?_⟩
    have e1 := Uint16_bytes16 ck hck
    have e2 := Uint32_bytes32 un hun
    simp only [BigEndian.bytes16, BigEndian.bytes32] at e1 e2
    simp [icmp6.specWireLayout, icmp6.Unmarshal, icmp6.verifyHeaderCode, BigEndian.bytes16,
      BigEndian.bytes32, icmp6.TypeEchoReply, icmp6.TypeTimeExceeded, slice, e1, e2, hc]
  | destinationUnreachable r =>
    obtain ⟨⟨t, c, ck⟩, un, inv⟩ := r
    obtain ⟨ht, hc, hck, hun⟩ := hm
    simp only at ht hc hck hun
    subst ht
    refine ⟨fun _ hr => by simp at hr, fun _ => ?_⟩
    have e1 := Uint16_bytes16 ck hck
    have e2 := Uint32_bytes32 un hun
    simp only [BigEndian.bytes16, BigEndian.bytes32] at e1 e2
    simp [icmp6.specWireLayout, icmp6.Unmarshal, icmp6.verifyHeaderCode, BigEndian.bytes16,
      BigEndian.bytes32, icmp6.TypeEchoReply, icmp6.TypeTimeExceeded,
      icmp6.TypeDestinationUnreachable, slice, e1, e2, hc]

/-- C3, amended, at an echo request, at an echo reply without payload and at a
destination-unreachable message with a 3-byte invoking packet. -/
theorem C3_unmarshal_round_trip_witness :
    icmp6.Unmarshal (icmp6.Message.echoRequest ⟨⟨0x80, 0, 0x1213⟩, 0x1234, 1⟩).Marshal
      = (none, some .unknownType) ∧
    icmp6.Unmarshal (icmp6.specWireLayout (.echoReply ⟨⟨0x81, 0, 0xabcd⟩, 0x1234, 1, []⟩))
      = (some (.echoReply ⟨⟨0x81, 0, 0xabcd⟩, 0x1234, 1, []⟩), none) ∧
    icmp6.Unmarshal
        (icmp6.specWireLayout (.destinationUnreachable ⟨⟨0x01, 6, 0xabcd⟩, 7, [0x60, 0, 9]⟩))
      = (some (.destinationUnreachable ⟨⟨0x01, 6, 0xabcd⟩, 7, [0x60, 0, 9]⟩), none) :=
  ⟨(C3_unmarshal_round_trip (.echoRequest ⟨⟨0x80, 0, 0x1213⟩, 0x1234, 1⟩) (by decide)).1 _ rfl,
   (C3_unmarshal_round_trip (.echoReply ⟨⟨0x81, 0, 0xabcd⟩, 0x1234, 1, []⟩) (by decide)).2
     (by decide),
   (C3_unmarshal_round_trip (.destinationUnreachable ⟨⟨0x01, 6, 0xabcd⟩, 7, [0x60, 0, 9]⟩)
     (by decide)).2 (by decide)⟩

/-! ## The probe: header bytes followed by the stamped echo request -/

theorem EchoRequest_Marshal_putChecksum (t c id sq ck : Nat) :
    icmp6.EchoRequest.Marshal ⟨⟨t, c, ck⟩, id, sq⟩
      = icmp6.putChecksum (icmp6.EchoRequest.Marshal ⟨⟨t, c, 0⟩, id, sq⟩) ck := by
  simp [icmp6.EchoRequest.Marshal, icmp6.putChecksum, BigEndian.bytes16]

theorem EchoRequest_Marshal_length (m : icmp6.EchoRequest) : m.Marshal.length = 8 := by
  simp [icmp6.EchoRequest.Marshal, BigEndian.bytes16]

theorem slice_append_of_length (a b : List Nat) (n lo hi : Nat) (ha : a.length = n) :
    slice (a ++ b) (n + lo) (n + hi) = slice b lo hi := by
  unfold slice
  rw [← ha, ← List.drop_drop, List.drop_left' rfl]
  congr 1
  omega

/-- What `request.Marshal` renders, for a request whose header is valid with
payload length 8 and next header 0x3a: the facts the probe claims share. -/
theorem request_Marshal_facts (h : ipv6.Header) (body : icmp6.EchoRequest) (hl s : Nat)
    (spare spare2 : List Nat) (hv : h.Valid) (hpl : h.PayloadLen = 8) (hnh : h.NextHeader = 0x3a)
    (hhl : hl < 256) (hs : s < 65536) (hid : body.Identifier < 65536) :
    ((trace6.request.Marshal ⟨h, body⟩ (hl : Int) s h.Src h.Dst).1).length = 48 ∧
    ((trace6.request.Marshal ⟨h, body⟩ (hl : Int) s h.Src h.Dst).1).getD 7 0 = hl ∧
    BigEndian.Uint16 (slice (trace6.request.Marshal ⟨h, body⟩ (hl : Int) s h.Src h.Dst).1 44 46)
      = body.Identifier ∧
    BigEndian.Uint16 (slice (trace6.request.Marshal ⟨h, body⟩ (hl : Int) s h.Src h.Dst).1 46 48)
      = s ∧
    ipv6.ParseHeader (trace6.request.Marshal ⟨h, body⟩ (hl : Int) s h.Src h.Dst).1 spare
      = .returns (some { h with HopLimit := (hl : Int), ExtensionHeaders := [] }, 40, none) ∧
    icmp6.VerifyChecksum { h with HopLimit := (hl : Int), ExtensionHeaders := [] }
        ((trace6.request.Marshal ⟨h, body⟩ (hl : Int) s h.Src h.Dst).1.drop 40) spare2
      = .returns (true,
          icmp6.EchoRequest.Marshal ⟨⟨body.Header.Type_, body.Header.Code, 0⟩,
            body.Identifier, s⟩) ∧
    icmp6.Unmarshal ((trace6.request.Marshal ⟨h, body⟩ (hl : Int) s h.Src h.Dst).1.drop 40)
      = icmp6.Unmarshal (icmp6.EchoRequest.Marshal
          ⟨⟨body.Header.Type_, body.Header.Code,
            icmp6.MakeChecksum (.echoRequest ⟨⟨body.Header.Type_, body.Header.Code, 0⟩,
              body.Identifier, s⟩) h.Src h.Dst⟩, body.Identifier, s⟩) := by
  obtain ⟨⟨t, c, ck⟩, id, sq⟩ := body
  obtain ⟨V, tc, f, pl, nh, hl0, src, dst, ehs⟩ := h
  simp only at hid hpl hnh
  subst hpl hnh
  have hv' : (⟨V, tc, f, 8, 0x3a, (hl : Int), src, dst, ehs⟩ : ipv6.Header).Valid := by
    obtain ⟨h1, h2, h3, h4, h5, _, h7, h8⟩ := hv
    exact ⟨h1, h2, h3, h4, h5, ⟨by simp, by simp only []; omega⟩, h7, h8⟩
  have hn' : (⟨V, tc, f, 8, 0x3a, (hl : Int), src, dst, ehs⟩ : ipv6.Header).NextHeader ≠ 0x00 ∧
      (⟨V, tc, f, 8, 0x3a, (hl : Int), src, dst, ehs⟩ : ipv6.Header).NextHeader ≠ 0x2b ∧
      (⟨V, tc, f, 8, 0x3a, (hl : Int), src, dst, ehs⟩ : ipv6.Header).NextHeader ≠ 0x3c := by
    simp
  have hprobe : (trace6.request.Marshal ⟨⟨V, tc, f, 8, 0x3a, hl0, src, dst, ehs⟩,
        ⟨⟨t, c, ck⟩, id, sq⟩⟩ (hl : Int) s src dst).1
      = ipv6.Header.Marshal ⟨V, tc, f, 8, 0x3a, (hl : Int), src, dst, ehs⟩
        ++ icmp6.EchoRequest.Marshal ⟨⟨t, c,
            icmp6.MakeChecksum (.echoRequest ⟨⟨t, c, 0⟩, id, s⟩) src dst⟩, id, s⟩ := rfl
  have hlen40 := Header_Marshal_length _ hv'
  have hdrop : (ipv6.Header.Marshal ⟨V, tc, f, 8, 0x3a, (hl : Int), src, dst, ehs⟩
        ++ icmp6.EchoRequest.Marshal ⟨⟨t, c,
            icmp6.MakeChecksum (.echoRequest ⟨⟨t, c, 0⟩, id, s⟩) src dst⟩, id, s⟩).drop 40
      = icmp6.EchoRequest.Marshal ⟨⟨t, c,
            icmp6.MakeChecksum (.echoRequest ⟨⟨t, c, 0⟩, id, s⟩) src dst⟩, id, s⟩ := by
    rw [← hlen40]; exact List.drop_left' rfl
  rw [hprobe, hdrop]
  refine ⟨?_, ?_, ?_, ?_, ?_, ?_, rfl⟩
  · rw [List.length_append, hlen40, EchoRequest_Marshal_length]
  · simp only [ipv6.Header.Marshal, byteOfInt_cast, List.cons_append, List.getD_cons_zero,
      List.getD_cons_succ]
    omega
  · rw [slice_append_of_length _ _ 40 4 6 hlen40]
    have e : slice (icmp6.EchoRequest.Marshal ⟨⟨t, c,
            icmp6.MakeChecksum (.echoRequest ⟨⟨t, c, 0⟩, id, s⟩) src dst⟩, id, s⟩) 4 6
        = BigEndian.bytes16 id := by
      simp [slice, icmp6.EchoRequest.Marshal, BigEndian.bytes16]
    rw [e, Uint16_bytes16 id hid]
  · rw [slice_append_of_length _ _ 40 6 8 hlen40]
    have e : slice (icmp6.EchoRequest.Marshal ⟨⟨t, c,
            icmp6.MakeChecksum (.echoRequest ⟨⟨t, c, 0⟩, id, s⟩) src dst⟩, id, s⟩) 6 8
        = BigEndian.bytes16 s := by
      simp [slice, icmp6.EchoRequest.Marshal, BigEndian.bytes16]
    rw [e, Uint16_bytes16 s hs]
  · exact ParseHeader_Marshal_append _ _ spare hv' hn'
  · rw [EchoRequest_Marshal_putChecksum]
    have key := VerifyChecksum_putChecksum
      ⟨V, tc, f, 8, 0x3a, (hl : Int), src, dst, []⟩
      (icmp6.EchoRequest.Marshal ⟨⟨t, c, 0⟩, id, s⟩) spare2
      (by rw [EchoRequest_Marshal_length]; omega)
      (by simp [icmp6.EchoRequest.Marshal, BigEndian.bytes16])
      (by simp [icmp6.EchoRequest.Marshal, BigEndian.bytes16])
    have hmk : icmp6.MakeChecksum (.echoRequest ⟨⟨t, c, 0⟩, id, s⟩) src dst
        = icmp6.csum ((ipv6.NewPseudoHeader 8 0x3a src dst).Marshal
            ++ icmp6.EchoRequest.Marshal ⟨⟨t, c, 0⟩, id, s⟩) := by
      simp only [icmp6.MakeChecksum, icmp6.Message.Marshal, EchoRequest_Marshal_length]
      rfl
    rw [hmk]
    exact key

/-- C4, as stated, fails at its own witness (identifier 0x1234, sequence 1,
2001:db8::1 to 2001:db8::2): the datagram is the 48 bytes listed, its echo
request carries the checksum 0x1213, and `Unmarshal` of the bytes from offset
40 does not succeed but returns `(nil, "Unkown ICMPv6 meesage type")`. -/
theorem C4_counterexample :
    trace6.scenarioDatagram 0x1234 0x0001 addr1 addr2
      = [0x60, 0, 0, 0, 0, 8, 0x3a, 64,
         0x20, 0x01, 0x0d, 0xb8, 0, 0, 0, 0, 0, 0, 0, 0, 0, 0, 0, 1,
         0x20, 0x01, 0x0d, 0xb8, 0, 0, 0, 0, 0, 0, 0, 0, 0, 0, 0, 2,
         0x80, 0, 0x12, 0x13, 0x12, 0x34, 0x00, 0x01] ∧
    icmp6.Unmarshal ((trace6.scenarioDatagram 0x1234 0x0001 addr1 addr2).drop 40)
      = (none, some .unknownType) := by
  decide

/-- C4, amended: for every identifier, sequence number and pair of 16-byte
addresses, the scenario datagram is 48 bytes long, `ParseHeader` succeeds on
it with offset 40 and returns the header that was marshalled, `VerifyChecksum`
on the parsed header and the bytes from offset 40 is true, bytes 44-45 and
46-47 are the identifier and the sequence number, big-endian; and `Unmarshal`
of the bytes from offset 40 returns the error "Unkown ICMPv6 meesage type",
because `Unmarshal` does not build echo requests. -/
theorem C4_echo_request_scenario (identifier sequence : Nat) (src dst spare spare2 : List Nat)
    (hid : identifier < 65536) (hseq : sequence < 65536)
    (hs : src.length = 16) (hd : dst.length = 16) :
    (trace6.scenarioDatagram identifier sequence src dst).length = 48 ∧
    ipv6.ParseHeader (trace6.scenarioDatagram identifier sequence src dst) spare
      = .returns (some ⟨6, 0, 0, 8, 0x3a, 64, src, dst, []⟩, 40, none) ∧
    icmp6.VerifyChecksum ⟨6, 0, 0, 8, 0x3a, 64, src, dst, []⟩
        ((trace6.scenarioDatagram identifier sequence src dst).drop 40) spare2
      = .returns (true, (icmp6.NewEchoRequest identifier sequence).1.Marshal) ∧
    BigEndian.Uint16 (slice (trace6.scenarioDatagram identifier sequence src dst) 44 46)
      = identifier ∧
    BigEndian.Uint16 (slice (trace6.scenarioDatagram identifier sequence src dst) 46 48)
      = sequence ∧
    icmp6.Unmarshal ((trace6.scenarioDatagram identifier sequence src dst).drop 40)
      = (none, some .unknownType) := by
  have hv : (⟨6, 0, 0, 8, 0x3a, 0, src, dst, []⟩ : ipv6.Header).Valid :=
    ⟨rfl, by simp, by simp, by simp, by simp, by simp, hs, hd⟩
  have hprobe : trace6.scenarioDatagram identifier sequence src dst
      = (trace6.request.Marshal ⟨⟨6, 0, 0, 8, 0x3a, 0, src, dst, []⟩,
          (icmp6.NewEchoRequest identifier 0).1⟩ ((64 : Nat) : Int) sequence src dst).1 := rfl
  obtain ⟨f1, _, f3, f4, f5, f6, f7⟩ := request_Marshal_facts
    ⟨6, 0, 0, 8, 0x3a, 0, src, dst, []⟩ (icmp6.NewEchoRequest identifier 0).1 64 sequence
    spare spare2 hv rfl rfl (by decide) hseq hid
  rw [hprobe]
  refine ⟨f1, f5, f6, f3, f4, ?_⟩
  rw [f7]
  simp [icmp6.NewEchoRequest, icmp6.EchoRequest.Marshal, icmp6.Unmarshal,
    icmp6.verifyHeaderCode, BigEndian.bytes16, icmp6.TypeEchoRequest, icmp6.TypeEchoReply,
    icmp6.TypeTimeExceeded, icmp6.TypeDestinationUnreachable]

/-- C4, amended, at the scenario of the specification: identifier 0x1234,
sequence 1, from 2001:db8::1 to 2001:db8::2. -/
theorem C4_echo_request_scenario_witness :
    ipv6.ParseHeader (trace6.scenarioDatagram 0x1234 0x0001 addr1 addr2) []
      = .returns (some probeHeader, 40, none) ∧
    icmp6.VerifyChecksum probeHeader
        ((trace6.scenarioDatagram 0x1234 0x0001 addr1 addr2).drop 40) []
      = .returns (true, echoBytes) ∧
    BigEndian.Uint16 (slice (trace6.scenarioDatagram 0x1234 0x0001 addr1 addr2) 44 46)
      = 0x1234 ∧
    BigEndian.Uint16 (slice (trace6.scenarioDatagram 0x1234 0x0001 addr1 addr2) 46 48)
      = 0x0001 :=
  have key := C4_echo_request_scenario 0x1234 0x0001 addr1 addr2 [] []
    (by decide) (by decide) (by decide) (by decide)
  ⟨key.2.1, key.2.2.1, key.2.2.2.1, key.2.2.2.2.1⟩

/-- C5, as stated, fails: `emptyPayloadHeader` is a valid header (PayloadLen 0,
NextHeader 0x3a) with 16-byte addresses equal to the local and the remote
address; the probe `request.Marshal(64, 1)` renders for it parses with offset
40, and `VerifyChecksum` on the parsed header and the bytes from offset 40 is
false: `MakeChecksum` put the length 8 in the pseudo-header, `VerifyChecksum`
takes the header's PayloadLen, 0. -/
theorem C5_counterexample :
    emptyPayloadHeader.Valid ∧
    ipv6.ParseHeader
        (trace6.request.Marshal ⟨emptyPayloadHeader, (icmp6.NewEchoRequest 0x1234 0).1⟩
          64 1 addr1 addr2).1 []
      = .returns (some emptyPayloadHeader, 40, none) ∧
    icmp6.VerifyChecksum emptyPayloadHeader
        ((trace6.request.Marshal ⟨emptyPayloadHeader, (icmp6.NewEchoRequest 0x1234 0).1⟩
          64 1 addr1 addr2).1.drop 40) []
      = .returns (false, echoBytes) := by
  refine ⟨by decide, ?_, by decide⟩
  have hprobe : (trace6.request.Marshal ⟨emptyPayloadHeader, (icmp6.NewEchoRequest 0x1234 0).1⟩
        64 1 addr1 addr2).1
      = emptyPayloadHeader.Marshal
        ++ [0x80, 0, 0x12, 0x13, 0x12, 0x34, 0x00, 0x01] := by decide
  rw [hprobe]
  exact ParseHeader_Marshal_append emptyPayloadHeader _ [] (by decide) (by decide)

/-- C5, amended: for every valid IPv6 header whose PayloadLen is 8 and whose
NextHeader is 0x3a (what `main` sets in the probe template), every hop limit
`hl` in 0..255 and every 16-bit sequence number `s`, the probe rendered by
`request.Marshal(hl, s)` with local and remote address equal to the header's
Src and Dst is 48 bytes long, its byte 7 is `hl`, its bytes 44-45 are the
identifier and 46-47 are `s`, both big-endian, `ParseHeader` succeeds on it
with offset 40, and `VerifyChecksum` on the parsed header and the bytes from
offset 40 is true. -/
theorem C5_probe_rendering (p : trace6.request) (hl : Int) (s : Nat)
    (localIP remoteIP spare spare2 : List Nat)
    (hv : p.Header.Valid) (hpl : p.Header.PayloadLen = 8) (hnh : p.Header.NextHeader = 0x3a)
    (hL : localIP = p.Header.Src) (hR : remoteIP = p.Header.Dst)
    (hhl : 0 ≤ hl ∧ hl ≤ 255) (hs : s < 65536) (hid : p.Body.Identifier < 65536) :
    (p.Marshal hl s localIP remoteIP).1.length = 48 ∧
    (((p.Marshal hl s localIP remoteIP).1.getD 7 0 : Nat) : Int) = hl ∧
    BigEndian.Uint16 (slice (p.Marshal hl s localIP remoteIP).1 44 46) = p.Body.Identifier ∧
    BigEndian.Uint16 (slice (p.Marshal hl s localIP remoteIP).1 46 48) = s ∧
    ipv6.ParseHeader (p.Marshal hl s localIP remoteIP).1 spare
      = .returns (some { p.Header with HopLimit := hl, ExtensionHeaders := [] }, 40, none) ∧
    ∃ after,
      icmp6.VerifyChecksum { p.Header with HopLimit := hl, ExtensionHeaders := [] }
          ((p.Marshal hl s localIP remoteIP).1.drop 40) spare2
        = .returns (true, after) := by
  obtain ⟨h, body⟩ := p
  obtain ⟨hl0, hl1⟩ := hhl
  lift hl to ℕ using hl0
  subst hL hR
  obtain ⟨f1, f2, f3, f4, f5, f6, _⟩ := request_Marshal_facts h body hl s spare spare2
    hv hpl hnh (by omega) hs hid
  exact ⟨f1, by rw [f2], f3, f4, f5, _, f6⟩

/-- C5, amended, at the probe template of `main` for the identifier 0x1234,
hop limit 3 and sequence number 7, from 2001:db8::1 to 2001:db8::2. -/
theorem C5_probe_rendering_witness :
    (trace6.request.Marshal (trace6.probeTemplate 0x1234 addr1 addr2) 3 7 addr1 addr2).1.length
      = 48 ∧
    ∃ after,
      icmp6.VerifyChecksum
          { (trace6.probeTemplate 0x1234 addr1 addr2).Header with
            HopLimit := 3, ExtensionHeaders := [] }
          ((trace6.request.Marshal (trace6.probeTemplate 0x1234 addr1 addr2) 3 7
            addr1 addr2).1.drop 40) []
        = .returns (true, after) :=
  have key := C5_probe_rendering (trace6.probeTemplate 0x1234 addr1 addr2) 3 7 addr1 addr2 [] []
    (by decide) (by decide) (by decide) (by decide) (by decide) (by decide) (by decide)
    (by decide)
  ⟨key.1, key.2.2.2.2.2⟩

/-! ## Unmarshal of the error messages -/

theorem Uint32_quad (a b c d : Nat) (hb : b < 256) (hc : c < 256) (hd : d < 256) :
    BigEndian.Uint32 [a, b, c, d] = a * 16777216 + b * 65536 + c * 256 + d := by
  simp only [BigEndian.Uint32, List.getD_cons_zero, List.getD_cons_succ]
  rw [lor_shl_right _ _ 8 (by omega), lor_shl_right _ _ 16 (by omega),
    lor_shl_right _ _ 24 (by omega)]
  omega

/-- C18: for every input of at least 8 bytes whose type is 0x03 with a code of
at most 1, or 0x01 with a code of at most 6, `Unmarshal` succeeds and returns
the variant of that type with Header = (type, code, big-endian value of bytes
2-3), Unused = big-endian 32-bit value of bytes 4-7 and InvokingPacket = all
the bytes from offset 8 on (the empty list for an 8-byte input), whatever the
length of the input. -/
theorem C18_unmarshal_error_variants (b : List Nat) (hbytes : ∀ x ∈ b, x < 256)
    (hlen : 8 ≤ b.length) :
    (b.getD 0 0 = 0x03 → b.getD 1 0 ≤ 1 →
      icmp6.Unmarshal b = (some (.timeExceeded
        { Header := { Type_ := 0x03, Code := b.getD 1 0,
                      Checksum := b.getD 2 0 * 256 + b.getD 3 0 }
          Unused := b.getD 4 0 * 16777216 + b.getD 5 0 * 65536 + b.getD 6 0 * 256 + b.getD 7 0
          InvokingPacket := b.drop 8 }), none)) ∧
    (b.getD 0 0 = 0x01 → b.getD 1 0 ≤ 6 →
      icmp6.Unmarshal b = (some (.destinationUnreachable
        { Header := { Type_ := 0x01, Code := b.getD 1 0,
                      Checksum := b.getD 2 0 * 256 + b.getD 3 0 }
          Unused := b.getD 4 0 * 16777216 + b.getD 5 0 * 65536 + b.getD 6 0 * 256 + b.getD 7 0
          InvokingPacket := b.drop 8 }), none)) := by
  match b, hlen with
  | x0 :: x1 :: x2 :: x3 :: x4 :: x5 :: x6 :: x7 :: rest, _ =>
    have h3 : x3 < 256 := hbytes x3 (by simp)
    have h5 : x5 < 256 := hbytes x5 (by simp)
    have h6 : x6 < 256 := hbytes x6 (by simp)
    have h7 : x7 < 256 := hbytes x7 (by simp)
    have e1 : slice (x0 :: x1 :: x2 :: x3 :: x4 :: x5 :: x6 :: x7 :: rest) 2 4 = [x2, x3] := rfl
    have e2 : slice (x0 :: x1 :: x2 :: x3 :: x4 :: x5 :: x6 :: x7 :: rest) 4 8
        = [x4, x5, x6, x7] := rfl
    simp only [List.getD_cons_zero, List.getD_cons_succ]
    constructor
    · intro ht hc
      subst ht
      have hl : ¬ (rest.length + 8 < 8) := by omega
      simp [icmp6.Unmarshal, icmp6.verifyHeaderCode, icmp6.TypeEchoReply,
        icmp6.TypeTimeExceeded, e1, e2, Uint16_pair _ _ h3, Uint32_quad _ _ _ _ h5 h6 h7, hc]
    · intro ht hc
      subst ht
      simp [icmp6.Unmarshal, icmp6.verifyHeaderCode, icmp6.TypeEchoReply,
        icmp6.TypeTimeExceeded, icmp6.TypeDestinationUnreachable, e1, e2,
        Uint16_pair _ _ h3, Uint32_quad _ _ _ _ h5 h6 h7, hc]

/-- C18 at an 8-byte time-exceeded message (empty invoking packet) and at a
destination-unreachable message with code 6 that carries 3 trailing bytes. -/
theorem C18_unmarshal_error_variants_witness :
    icmp6.Unmarshal [0x03, 1, 0xab, 0xcd, 1, 2, 3, 4] = (some (.timeExceeded
        { Header := { Type_ := 0x03, Code := 1, Checksum := 0xab * 256 + 0xcd }
          Unused := 1 * 16777216 + 2 * 65536 + 3 * 256 + 4
          InvokingPacket := [] }), none) ∧
    icmp6.Unmarshal [0x01, 6, 0xab, 0xcd, 0, 0, 0, 0, 0x60, 0, 9] =
      (some (.destinationUnreachable
        { Header := { Type_ := 0x01, Code := 6, Checksum := 0xab * 256 + 0xcd }
          Unused := 0 * 16777216 + 0 * 65536 + 0 * 256 + 0
          InvokingPacket := [0x60, 0, 9] }), none) :=
  ⟨(C18_unmarshal_error_variants [0x03, 1, 0xab, 0xcd, 1, 2, 3, 4]
      (by decide) (by decide)).1 (by decide) (by decide),
   (C18_unmarshal_error_variants [0x01, 6, 0xab, 0xcd, 0, 0, 0, 0, 0x60, 0, 9]
      (by decide) (by decide)).2 (by decide) (by decide)⟩

/-! ## The Wake-on-LAN packet -/

/-- The target loop of `wol` over the indices `a .. a+k-1`, for a 6-byte address. -/
theorem targetLoop_range' (t : List Nat) (ht : t.length = 6) :
    ∀ (k a : Nat) (target : List Nat), a + k ≤ target.length →
      wol.targetLoop t (List.range' a k) target
        = .returns (target.take a ++ (List.range' a k).map (fun i => t.getD (i % 6) 0)
            ++ target.drop (a + k)) := by
  intro k
  induction k with
  | zero =>
    intro a target _
    simp [wol.targetLoop]
  | succ k ih =>
    intro a target hle
    have hlt : a % 6 < t.length := by omega
    have ha : a < target.length := by omega
    rw [List.range'_succ, wol.targetLoop, dif_pos hlt, ih (a + 1) _ (by simp; omega)]
    congr 1
    rw [List.set_eq_take_append_cons_drop, if_pos ha]
    have e1 : List.take (a + 1) (List.take a target ++ t[a % 6] :: List.drop (a + 1) target)
        = List.take a target ++ [t[a % 6]] := by
      rw [List.take_append_eq_append_take]
      simp [List.length_take, Nat.min_eq_left (Nat.le_of_lt ha)]
    have e2 : List.drop (a + 1 + k) (List.take a target ++ t[a % 6] :: List.drop (a + 1) target)
        = List.drop (a + (k + 1)) target := by
      have hl : (List.take a target).length = a := by
        simp [List.length_take, Nat.min_eq_left (Nat.le_of_lt ha)]
      have h1 : a + 1 + k = (List.take a target).length + (k + 1) := by omega
      rw [h1, List.drop_append, List.drop_succ_cons, List.drop_drop]
      congr 1
      omega
    rw [e1, e2]
    simp [List.getD_eq_getElem?_getD, List.getElem?_eq_getElem hlt]

/-- C16: for every 6-byte target address `t` and every 6-byte interface
address `hw`, the payload `wol` builds is six 0xFF bytes followed by 16
consecutive copies of `t` (96 bytes), and the encoded packet is 116 bytes: the
broadcast destination, `hw`, the EtherType 0x0842 big-endian, then that
payload. -/
theorem C16_magic_packet (t hw hwSpare : List Nat) (ht : t.length = 6) (hhw : hw.length = 6) :
    ∃ p, wol.buildPacket t hw hwSpare = .returns p ∧
      p.Wol.Sync = List.replicate 6 0xFF ∧
      p.Wol.Target = (List.replicate 16 t).flatten ∧ p.Wol.Target.length = 96 ∧
      wol.encode p = List.replicate 6 0xFF ++ hw ++ [0x08, 0x42]
        ++ (List.replicate 6 0xFF ++ (List.replicate 16 t).flatten) ∧
      (wol.encode p).length = 116 := by
  match t, ht, hw, hhw with
  | [t0, t1, t2, t3, t4, t5], _, [h0, h1, h2, h3, h4, h5], _ =>
    refine ⟨⟨⟨[0xFF, 0xFF, 0xFF, 0xFF, 0xFF, 0xFF], [h0, h1, h2, h3, h4, h5], 0x0842⟩,
      ⟨[0xFF, 0xFF, 0xFF, 0xFF, 0xFF, 0xFF],
        (List.replicate 16 [t0, t1, t2, t3, t4, t5]).flatten⟩⟩, ?_, rfl, rfl, rfl,
      by simp only [wol.encode, BigEndian.bytes16]; rfl,
      by simp only [wol.encode, BigEndian.bytes16]; rfl⟩
    have hcap : 6 ≤ [h0, h1, h2, h3, h4, h5].length + hwSpare.length := by simp
    have hloop := targetLoop_range' [t0, t1, t2, t3, t4, t5] rfl 96 0 (makeBytes 96)
      (by simp [makeBytes])
    have hmap : (List.range' 0 96).map (fun i => [t0, t1, t2, t3, t4, t5].getD (i % 6) 0)
        = (List.replicate 16 [t0, t1, t2, t3, t4, t5]).flatten := rfl
    rw [hmap] at hloop
    have hdrop : List.drop (0 + 96) (makeBytes 96) = [] := by simp [makeBytes]
    rw [hdrop, List.take_zero, List.nil_append, List.append_nil] at hloop
    simp only [wol.buildPacket, hcap, not_true_eq_false, if_false, List.range_eq_range', hloop]
    rfl

/-- C16 at the target 00:11:22:33:44:55 and the interface 02:00:00:00:00:01. -/
theorem C16_magic_packet_witness :
    ∃ p, wol.buildPacket [0x00, 0x11, 0x22, 0x33, 0x44, 0x55] [0x02, 0, 0, 0, 0, 0x01] []
        = .returns p ∧
      p.Wol.Sync = List.replicate 6 0xFF ∧
      p.Wol.Target = (List.replicate 16 [0x00, 0x11, 0x22, 0x33, 0x44, 0x55]).flatten ∧
      p.Wol.Target.length = 96 ∧
      wol.encode p = List.replicate 6 0xFF ++ [0x02, 0, 0, 0, 0, 0x01] ++ [0x08, 0x42]
        ++ (List.replicate 6 0xFF
          ++ (List.replicate 16 [0x00, 0x11, 0x22, 0x33, 0x44, 0x55]).flatten) ∧
      (wol.encode p).length = 116 :=
  C16_magic_packet [0x00, 0x11, 0x22, 0x33, 0x44, 0x55] [0x02, 0, 0, 0, 0, 0x01] []
    (by decide) (by decide)

/-! ## The probe loop -/

theorem SeqInv_step (i seq : Nat) (sent : List (Nat × Nat)) (h : SeqInv seq sent) :
    SeqInv ((seq + 1) % 65536) (sent ++ [(i, seq)]) := by
  obtain ⟨h1, h2⟩ := h
  refine ⟨by simp; omega, ?_⟩
  intro k hk
  simp only [List.length_append, List.length_singleton] at hk
  by_cases hk' : k < sent.length
  · rw [List.getD_append _ _ _ _ hk']
    exact h2 k hk'
  · have hk2 : k = sent.length := by omega
    subst hk2
    rw [List.getD_append_right _ _ _ _ (le_refl _)]
    simpa using h1

theorem attemptLoop_spec (outcome : Nat → Nat → trace6.response) (i : Nat) :
    ∀ (todo j seq : Nat) (resp : Option trace6.response) (sent : List (Nat × Nat)),
      SeqInv seq sent →
      SeqInv (trace6.attemptLoop outcome i todo j seq resp sent).1
          (trace6.attemptLoop outcome i todo j seq resp sent).2.2 ∧
      (trace6.attemptLoop outcome i todo j seq resp sent).2.2.length = sent.length + todo ∧
      (trace6.attemptLoop outcome i todo j seq resp sent).2.1
        = (if todo = 0 then resp else some (outcome i (j + todo - 1))) := by
  intro todo
  induction todo with
  | zero =>
    intro j seq resp sent h
    simpa [trace6.attemptLoop] using h
  | succ n ih =>
    intro j seq resp sent h
    obtain ⟨a, b, c⟩ := ih (j + 1) ((seq + 1) % 65536) (some (outcome i j))
      (sent ++ [(i, seq)]) (SeqInv_step i seq sent h)
    simp only [trace6.attemptLoop]
    refine ⟨a, ?_, ?_⟩
    · rw [b]; simp; omega
    · rw [c]
      by_cases hn : n = 0
      · subst hn; simp
      · have e : j + 1 + n - 1 = j + (n + 1) - 1 := by omega
        simp [hn, e]

theorem hopLoop_spec (outcome : Nat → Nat → trace6.response) (attempts : Nat) :
    ∀ (todo i seq : Nat) (resp : Option trace6.response) (sent : List (Nat × Nat)),
      SeqInv seq sent →
      (∀ k, k < (trace6.hopLoop outcome attempts todo i seq resp sent).2.length →
        ((trace6.hopLoop outcome attempts todo i seq resp sent).2.getD k (0, 0)).2 = k % 65536) ∧
      (trace6.hopLoop outcome attempts todo i seq resp sent).2.length
        ≤ sent.length + todo * attempts := by
  intro todo
  induction todo with
  | zero =>
    intro i seq resp sent h
    simpa [trace6.hopLoop] using h.2
  | succ n ih =>
    intro i seq resp sent h
    obtain ⟨a, b, -⟩ := attemptLoop_spec outcome i attempts 0 seq resp sent h
    rw [trace6.hopLoop]
    generalize trace6.attemptLoop outcome i attempts 0 seq resp sent = res at a b
    obtain ⟨seq1, resp1, sent1⟩ := res
    simp only at a b
    have hle : sent1.length ≤ sent.length + (n + 1) * attempts := by
      rw [b, Nat.succ_mul]; omega
    cases resp1 with
    | none => exact ⟨a.2, hle⟩
    | some r =>
      simp only
      split_ifs with hr
      · exact ⟨a.2, hle⟩
      · obtain ⟨c, d⟩ := ih (i + 1) seq1 (some r) sent1 a
        refine ⟨c, ?_⟩
        rw [b] at d
        rw [Nat.succ_mul]; omega

/-- A run in which no attempt yields an echo reply or a destination
unreachable sends `todo * attempts` more probes and runs out of hops. -/
theorem hopLoop_exhausts (outcome : Nat → Nat → trace6.response) (attempts : Nat)
    (hatt : 0 < attempts)
    (hout : ∀ i j, (outcome i j).EchoReply = false ∧ (outcome i j).DestinationUnreachable = false) :
    ∀ (todo i seq : Nat) (resp : Option trace6.response) (sent : List (Nat × Nat)),
      SeqInv seq sent →
      (trace6.hopLoop outcome attempts todo i seq resp sent).1 = .exhausted ∧
      (trace6.hopLoop outcome attempts todo i seq resp sent).2.length
        = sent.length + todo * attempts := by
  intro todo
  induction todo with
  | zero =>
    intro i seq resp sent _
    simp [trace6.hopLoop]
  | succ n ih =>
    intro i seq resp sent h
    obtain ⟨a, b, c⟩ := attemptLoop_spec outcome i attempts 0 seq resp sent h
    rw [trace6.hopLoop]
    generalize trace6.attemptLoop outcome i attempts 0 seq resp sent = res at a b c
    obtain ⟨seq1, resp1, sent1⟩ := res
    simp only at a b c
    have hne : attempts ≠ 0 := by omega
    rw [if_neg hne] at c
    subst c
    simp only [(hout i _).1, (hout i _).2, Bool.or_self, Bool.false_eq_true, if_false]
    obtain ⟨d, e⟩ := ih (i + 1) seq1 (some (outcome i (0 + attempts - 1))) sent1 a
    refine ⟨d, ?_⟩
    rw [e, b, Nat.succ_mul]; omega

theorem SeqInv_nil : SeqInv 0 [] := ⟨rfl, fun k hk => absurd hk (by simp)⟩


/-- C13, the code at MaxHops = 2, Attempts = 2: when the first attempt of hop 1
is answered by an echo reply and the second one times out, the run goes on to
hop 2 (probes with hop limit 2 are sent) and ends by running out of hops; it
stops after hop 1 only when the last attempt of the hop is the one that is
answered. -/
theorem C13_only_last_attempt_checked :
    (replyThenTimeouts 1 0).EchoReply = true ∧
    trace6.traceLoop 2 2 replyThenTimeouts
      = (.exhausted, [(1, 0), (1, 1), (2, 2), (2, 3)]) ∧
    trace6.traceLoop 2 2 timeoutThenReply = (.exit1, [(1, 0), (1, 1)]) := by
  decide

/-- C14, as stated, fails: with MaxHops = 65537, Attempts = 1 and no answer at
all, the run sends 65537 probes, and the first and the last of them both carry
the sequence number 0. -/
theorem C14_counterexample :
    (trace6.traceLoop 65537 1 allTimeouts).2.length = 65537 ∧
    ((trace6.traceLoop 65537 1 allTimeouts).2.getD 0 (0, 0)).2 = 0 ∧
    ((trace6.traceLoop 65537 1 allTimeouts).2.getD 65536 (0, 0)).2 = 0 := by
  have hlen := (hopLoop_exhausts allTimeouts 1 (by decide) (fun _ _ => ⟨rfl, rfl⟩)
    65537 1 0 none [] SeqInv_nil).2
  have hseq := (hopLoop_spec allTimeouts 1 65537 1 0 none [] SeqInv_nil).1
  have e : trace6.traceLoop 65537 1 allTimeouts
      = trace6.hopLoop allTimeouts 1 65537 1 0 none [] := rfl
  rw [e]
  simp only [List.length_nil, Nat.zero_add, Nat.mul_one] at hlen
  refine ⟨hlen, ?_, ?_⟩
  · exact hseq 0 (by omega)
  · exact hseq 65536 (by omega)

/-- C14, amended: for every configuration of MaxHops and Attempts and every
course of the run, the first probe carries the sequence number 0 and the
`k`-th probe sent carries `k` modulo 2^16 (the counter is a `uint16`,
incremented once per attempt); so no two probes less than 65536 attempts apart
carry the same sequence number, and no two probes of a run at all when
MaxHops * Attempts is at most 65536. -/
theorem C14_sequence_numbers (maxHops attempts : Int) (outcome : Nat → Nat → trace6.response) :
    (∀ k, k < (trace6.traceLoop maxHops attempts outcome).2.length →
      ((trace6.traceLoop maxHops attempts outcome).2.getD k (0, 0)).2 = k % 65536) ∧
    (∀ k1 k2, k1 < k2 → k2 < (trace6.traceLoop maxHops attempts outcome).2.length →
      k2 < k1 + 65536 →
      ((trace6.traceLoop maxHops attempts outcome).2.getD k1 (0, 0)).2
        ≠ ((trace6.traceLoop maxHops attempts outcome).2.getD k2 (0, 0)).2) ∧
    (maxHops.toNat * attempts.toNat ≤ 65536 →
      ∀ k1 k2, k1 < k2 → k2 < (trace6.traceLoop maxHops attempts outcome).2.length →
        ((trace6.traceLoop maxHops attempts outcome).2.getD k1 (0, 0)).2
          ≠ ((trace6.traceLoop maxHops attempts outcome).2.getD k2 (0, 0)).2) := by
  obtain ⟨hseq, hlen⟩ := hopLoop_spec outcome attempts.toNat maxHops.toNat 1 0 none [] SeqInv_nil
  simp only [List.length_nil, Nat.zero_add] at hlen
  have key : ∀ k1 k2, k1 < k2 → k2 < (trace6.traceLoop maxHops attempts outcome).2.length →
      k2 < k1 + 65536 →
      ((trace6.traceLoop maxHops attempts outcome).2.getD k1 (0, 0)).2
        ≠ ((trace6.traceLoop maxHops attempts outcome).2.getD k2 (0, 0)).2 := by
    intro k1 k2 h12 h2 hd
    have e1 := hseq k1 (by unfold trace6.traceLoop at h2; omega)
    have e2 := hseq k2 h2
    unfold trace6.traceLoop
    rw [e1, e2]
    omega
  refine ⟨hseq, key, ?_⟩
  intro hcfg k1 k2 h12 h2
  refine key k1 k2 h12 h2 ?_
  have : (trace6.traceLoop maxHops attempts outcome).2.length
      ≤ maxHops.toNat * attempts.toNat := hlen
  omega

/-- C14, amended, at MaxHops = 3, Attempts = 2 with no answer: six probes with
the sequence numbers 0 to 5, the first and the last one different. -/
theorem C14_sequence_numbers_witness :
    (trace6.traceLoop 3 2 allTimeouts).2 = [(1, 0), (1, 1), (2, 2), (2, 3), (3, 4), (3, 5)] ∧
    ((trace6.traceLoop 3 2 allTimeouts).2.getD 0 (0, 0)).2
      ≠ ((trace6.traceLoop 3 2 allTimeouts).2.getD 5 (0, 0)).2 :=
  ⟨by decide, (C14_sequence_numbers 3 2 allTimeouts).2.2 (by decide) 0 5 (by decide) (by decide)⟩

/-! ## The extension-header loop -/

theorem slice_length (l : List Nat) (lo hi : Nat) (h : hi ≤ l.length) :
    (slice l lo hi).length = hi - lo := by
  simp [slice]; omega

/-- One iteration of the extension loop that does not panic. -/
theorem extLoop_step (b spare : List Nat) (n o : Nat) (ehs : List ipv6.ExtensionHeader)
    (hn : ¬ ipv6.EndsChain n) (h1 : o + 1 < b.length)
    (hcap : o + 2 + 8 + b.getD (o + 1) 0 ≤ b.length + spare.length) :
    ipv6.extLoop b spare n o ehs
      = ipv6.extLoop b spare (b.getD o 0) (o + 2 + 8 + b.getD (o + 1) 0)
          (ehs ++ [{ NextHeader := b.getD o 0, ExtensionLength := b.getD (o + 1) 0,
                     Data := slice (b ++ spare) (o + 2) (o + 2 + 8 + b.getD (o + 1) 0) }]) := by
  have h0 : o < b.length := by omega
  have e0 : b.getD o 0 = b[o] := by
    simp [List.getD_eq_getElem?_getD, List.getElem?_eq_getElem h0]
  have e1 : b.getD (o + 1) 0 = b[o + 1] := by
    simp [List.getD_eq_getElem?_getD, List.getElem?_eq_getElem h1]
  rw [e1] at hcap
  rw [e0, e1, ipv6.extLoop]
  unfold ipv6.EndsChain at hn
  simp only [hn, if_false, h0, h1, dite_true, hcap, if_true]

/-- What the extension loop returns: the headers it appends form a chain from
the offset it was entered with, each holds `8 + ExtensionLength` data bytes,
and the offset has moved past all of them. -/
theorem extLoop_chain (b spare : List Nat) :
    ∀ (m n o : Nat) (ehs : List ipv6.ExtensionHeader), b.length - o ≤ m →
      ∀ (o1 : Nat) (ehs1 : List ipv6.ExtensionHeader),
        ipv6.extLoop b spare n o ehs = .returns (o1, ehs1) →
        ∃ new, ehs1 = ehs ++ new ∧ ipv6.Chain b spare n o new ∧
          o1 = o + (new.map (fun e => 2 + e.Data.length)).sum ∧
          ∀ e ∈ new, e.Data.length = 8 + e.ExtensionLength := by
  intro m
  induction m with
  | zero =>
    intro n o ehs hm o1 ehs1 h
    by_cases hn : ipv6.EndsChain n
    · rw [extLoop_break _ _ _ _ _ hn] at h
      simp only [Run.returns.injEq, Prod.mk.injEq] at h
      exact ⟨[], by simp [h.2], by simpa [ipv6.Chain] using hn, by simp [h.1], by simp⟩
    · rw [extLoop_panics_at_end _ _ _ _ _ hn (by omega)] at h
      exact absurd h (by simp)
  | succ m ih =>
    intro n o ehs hm o1 ehs1 h
    by_cases hn : ipv6.EndsChain n
    · rw [extLoop_break _ _ _ _ _ hn] at h
      simp only [Run.returns.injEq, Prod.mk.injEq] at h
      exact ⟨[], by simp [h.2], by simpa [ipv6.Chain] using hn, by simp [h.1], by simp⟩
    · by_cases h1 : o + 1 < b.length
      · by_cases hcap : o + 2 + 8 + b.getD (o + 1) 0 ≤ b.length + spare.length
        · rw [extLoop_step b spare n o ehs hn h1 hcap] at h
          obtain ⟨new, e1, e2, e3, e4⟩ := ih _ _ _ (by omega) o1 ehs1 h
          have hlen : (slice (b ++ spare) (o + 2) (o + 2 + 8 + b.getD (o + 1) 0)).length
              = 8 + b.getD (o + 1) 0 := by
            rw [slice_length _ _ _ (by simpa using hcap)]; omega
          have h0 : o < b.length := by omega
          refine ⟨⟨b.getD o 0, b.getD (o + 1) 0,
            slice (b ++ spare) (o + 2) (o + 2 + 8 + b.getD (o + 1) 0)⟩ :: new, ?_, ?_, ?_, ?_⟩
          · rw [e1]; simp
          · have e5 : o + 2 + (8 + b.getD (o + 1) 0) = o + 2 + 8 + b.getD (o + 1) 0 := by omega
            refine ⟨hn, ?_, ?_, ?_, ?_, ?_⟩
            · simp [List.getD_eq_getElem?_getD, List.getElem?_eq_getElem h0]
            · simp [List.getD_eq_getElem?_getD, List.getElem?_eq_getElem h1]
            · simp only [hlen, e5]
            · simp only [hlen, e5]; exact hcap
            · simp only [hlen, e5]; exact e2
          · rw [e3]
            simp only [List.map_cons, List.sum_cons, hlen]
            omega
          · intro e he
            rcases List.mem_cons.1 he with rfl | he'
            · exact hlen
            · exact e4 e he'
        · exfalso
          have h0 : o < b.length := by omega
          have e0 : b.getD (o + 1) 0 = b[o + 1] := by
            simp [List.getD_eq_getElem?_getD, List.getElem?_eq_getElem h1]
          rw [e0] at hcap
          rw [ipv6.extLoop] at h
          unfold ipv6.EndsChain at hn
          simp [hn, h0, h1, hcap] at h
      · exfalso
        rw [ipv6.extLoop] at h
        unfold ipv6.EndsChain at hn
        by_cases h0 : o < b.length
        · simp [hn, h0, h1] at h
        · simp [hn, h0] at h


/-- With at least 40 bytes and the version nibble 6, `ParseHeader` is the
extension loop entered with the base next-header value at offset 40. -/
theorem ParseHeader_eq_extLoop (b spare : List Nat) (hlen : 40 ≤ b.length)
    (hver : b.getD 0 0 >>> 4 = 6) :
    ipv6.ParseHeader b spare
      = match ipv6.extLoop b spare (b.getD 6 0 % 256) 40 [] with
        | .panics => .panics
        | .returns (o, ehs) =>
            .returns (some { ipv6.baseHeader b with ExtensionHeaders := ehs }, o, none) := by
  have h1 : ¬ b.length < 40 := by omega
  simp only [ipv6.ParseHeader, ipv6.HeaderLen, h1, if_false, hver, byteOfInt_cast,
    ipv6.baseHeader]
  simp

/-- A successful `ParseHeader` is a successful extension loop. -/
theorem extLoop_of_ParseHeader (b spare : List Nat) (h : ipv6.Header) (o : Nat)
    (hok : ipv6.ParseHeader b spare = .returns (some h, o, none)) :
    40 ≤ b.length ∧ b.getD 0 0 >>> 4 = 6 ∧
    ipv6.extLoop b spare (b.getD 6 0 % 256) 40 [] = .returns (o, h.ExtensionHeaders) ∧
    h = { ipv6.baseHeader b with ExtensionHeaders := h.ExtensionHeaders } := by
  by_cases hlen : b.length < 40
  · simp [ipv6.ParseHeader, ipv6.HeaderLen, hlen] at hok
  · by_cases hver : b.getD 0 0 >>> 4 = 6
    · rw [ParseHeader_eq_extLoop b spare (by omega) hver] at hok
      generalize ipv6.extLoop b spare (b.getD 6 0 % 256) 40 [] = res at hok
      cases res with
      | panics => simp at hok
      | returns v =>
        obtain ⟨o1, ehs1⟩ := v
        simp only [Run.returns.injEq, Prod.mk.injEq, Option.some.injEq, and_true] at hok
        obtain ⟨hh, ho⟩ := hok
        subst hh ho
        exact ⟨by omega, hver, rfl, rfl⟩
    · exfalso
      have hv' : ¬ ((b.getD 0 0 >>> 4 : Nat) : Int) = 6 := by
        intro hc
        exact hver (by exact_mod_cast hc)
      simp only [ipv6.ParseHeader, ipv6.HeaderLen, hlen, if_false] at hok
      rw [if_pos (by simpa using hv')] at hok
      simp at hok

/-- C19: for every input on which `ParseHeader` succeeds, the extension headers
it returns lie in the input in wire order from offset 40 on, each announced by
the next-header value before it, the last one carrying the first next-header
value that is 0x3a or none of 0x00, 0x2b, 0x3c; the returned offset is 40
plus the sum over the extension headers of 2 + the length of their data; and
when the base next-header value is 0x3a or outside the recognized set, the
offset is 40 and the list is empty. -/
theorem C19_extension_walk (b spare : List Nat) (h : ipv6.Header) (o : Nat)
    (hok : ipv6.ParseHeader b spare = .returns (some h, o, none)) :
    ipv6.Chain b spare (b.getD 6 0 % 256) 40 h.ExtensionHeaders ∧
    o = 40 + (h.ExtensionHeaders.map (fun e => 2 + e.Data.length)).sum ∧
    (ipv6.EndsChain (b.getD 6 0 % 256) → o = 40 ∧ h.ExtensionHeaders = []) := by
  obtain ⟨_, _, hloop, _⟩ := extLoop_of_ParseHeader b spare h o hok
  obtain ⟨new, e1, e2, e3, _⟩ := extLoop_chain b spare (b.length - 40) _ 40 [] (le_refl _) _ _ hloop
  simp only [List.nil_append] at e1
  subst e1
  refine ⟨e2, e3, ?_⟩
  intro hend
  cases hnew : h.ExtensionHeaders with
  | nil => rw [hnew] at e3; simpa using e3
  | cons e rest =>
    rw [hnew] at e2
    exact absurd hend e2.1

theorem ParseHeader_twoExtDatagram :
    ipv6.ParseHeader twoExtDatagram []
      = .returns (some { ipv6.baseHeader twoExtDatagram with
          ExtensionHeaders := [⟨0x3c, 0, [1, 2, 3, 4, 5, 6, 7, 8]⟩,
                               ⟨0x3a, 0, [11, 12, 13, 14, 15, 16, 17, 18]⟩] }, 60, none) := by
  rw [ParseHeader_eq_extLoop _ _ (by decide) (by decide),
    extLoop_step _ _ _ _ _ (by decide) (by decide) (by decide),
    extLoop_step _ _ _ _ _ (by decide) (by decide) (by decide),
    extLoop_break _ _ _ _ _ (by decide)]
  decide

/-- C19 at a datagram with two extension headers: the offset is 40 + 10 + 10. -/
theorem C19_extension_walk_witness :
    ipv6.Chain twoExtDatagram [] 0x00 40
      [⟨0x3c, 0, [1, 2, 3, 4, 5, 6, 7, 8]⟩, ⟨0x3a, 0, [11, 12, 13, 14, 15, 16, 17, 18]⟩] ∧
    60 = 40 + (([⟨0x3c, 0, [1, 2, 3, 4, 5, 6, 7, 8]⟩,
      ⟨0x3a, 0, [11, 12, 13, 14, 15, 16, 17, 18]⟩] : List ipv6.ExtensionHeader).map
        (fun e => 2 + e.Data.length)).sum :=
  have key := C19_extension_walk twoExtDatagram [] _ 60 ParseHeader_twoExtDatagram
  ⟨key.1, key.2.1⟩

/-- C15, the code at an extension header with length byte 1: `ParseHeader`
appends a header whose data is the 9 bytes 1..9 (8 + 1 bytes, not 8*(1+1) =
16) and returns the offset 51 = 40 + 2 + 9 (not 58); with length byte 0 the
data is 8 bytes, as claimed. -/
theorem C15_data_length_not_scaled :
    ipv6.ParseHeader extLen1Datagram []
      = .returns (some { ipv6.baseHeader extLen1Datagram with
          ExtensionHeaders := [⟨0x3a, 1, [1, 2, 3, 4, 5, 6, 7, 8, 9]⟩] }, 51, none) := by
  rw [ParseHeader_eq_extLoop _ _ (by decide) (by decide),
    extLoop_step _ _ _ _ _ (by decide) (by decide) (by decide),
    extLoop_break _ _ _ _ _ (by decide)]
  decide

/-- C20, the code at chains that run past the available bytes.  On the 40-byte
input with next header 0x00 `ParseHeader` panics (index 40 out of range),
with or without spare capacity; on a 60-byte buffer that holds this header
followed by zero padding it walks through the padding and panics at index 60;
and on a 42-byte slice with 8 bytes of spare capacity it takes the data of the
extension header from beyond the end of the slice and returns the offset 50. -/
theorem C20_no_bounds_check :
    ipv6.ParseHeader baseNextHeader0 [] = .panics ∧
    ipv6.ParseHeader baseNextHeader0 [0, 0, 0, 0, 0, 0, 0, 0, 0, 0, 0, 0] = .panics ∧
    ipv6.ParseHeader (baseNextHeader0 ++ List.replicate 20 0) [] = .panics ∧
    ipv6.ParseHeader (baseNextHeader0 ++ [0x3a, 0x00]) [1, 2, 3, 4, 5, 6, 7, 8]
      = .returns (some { ipv6.baseHeader baseNextHeader0 with
          ExtensionHeaders := [⟨0x3a, 0, [1, 2, 3, 4, 5, 6, 7, 8]⟩] }, 50, none) := by
  refine ⟨?_, ?_, ?_, ?_⟩
  · rw [ParseHeader_eq_extLoop _ _ (by decide) (by decide),
      extLoop_panics_at_end _ _ _ _ _ (by decide) (by decide)]
  · rw [ParseHeader_eq_extLoop _ _ (by decide) (by decide),
      extLoop_panics_at_end _ _ _ _ _ (by decide) (by decide)]
  · rw [ParseHeader_eq_extLoop _ _ (by decide) (by decide),
      extLoop_step _ _ _ _ _ (by decide) (by decide) (by decide),
      extLoop_step _ _ _ _ _ (by decide) (by decide) (by decide),
      extLoop_panics_at_end _ _ _ _ _ (by decide) (by decide)]
  · rw [ParseHeader_eq_extLoop _ _ (by decide) (by decide),
      extLoop_step _ _ _ _ _ (by decide) (by decide) (by decide),
      extLoop_break _ _ _ _ _ (by decide)]
    decide

/-! ## The receive path -/

/-- The scan for the embedded header skips a prefix without a byte of high
nibble 6 and stops at the first such byte. -/
theorem headerOffsetFrom_skips (pre : List Nat) (x : Nat) (t : List Nat) (i : Nat)
    (hpre : ∀ y ∈ pre, y >>> 4 ≠ 6) (hx : x >>> 4 = 6) :
    trace6.headerOffsetFrom (pre ++ x :: t) i = i + pre.length := by
  induction pre generalizing i with
  | nil => simp [trace6.headerOffsetFrom, hx]
  | cons y ys ih =>
    have hy : y >>> 4 ≠ 6 := hpre y (by simp)
    have key := ih (i + 1) (fun z hz => hpre z (by simp [hz]))
    rw [List.cons_append, trace6.headerOffsetFrom, if_neg hy, key, List.length_cons]
    omega

/-- The first byte `Header.Marshal` writes for a valid header has high nibble 6. -/
theorem Header_Marshal_head (e : ipv6.Header) (he : e.Valid) :
    ∃ x t, e.Marshal = x :: t ∧ x >>> 4 = 6 := by
  obtain ⟨V, tc, f, pl, nh, hl, src, dst, ehs⟩ := e
  obtain ⟨hV, ⟨ht0, ht1⟩, ⟨hf0, _⟩, ⟨hp0, _⟩, ⟨hn0, _⟩, ⟨hl0, _⟩, hs, hd⟩ := he
  simp only at hV ht0 ht1 hf0 hp0 hn0 hl0 hs hd
  subst hV
  lift tc to ℕ using ht0
  lift f to ℕ using hf0
  lift pl to ℕ using hp0
  lift nh to ℕ using hn0
  lift hl to ℕ using hl0
  have ht : tc < 256 := by omega
  rw [Header_Marshal_valid tc f pl nh hl src dst ehs hs hd]
  refine ⟨_, _, rfl, ?_⟩
  rw [byte0_eq tc ht, Nat.shiftRight_eq_div_pow]
  omega

/-- C11: for every received datagram on which `ParseHeader` succeeds, whose
destination is the local address, whose ICMPv6 payload passes
`VerifyChecksum` and parses as an `EchoReply`, the iteration of the receive
loop sends a result exactly when the reply's identifier is the outstanding
probe's, its sequence number is the probe's current one and the datagram's
source equals the remote target (`net.IP.Equal`, which is equality of the 16
bytes for a 16-byte target); the result then is an echo reply whose sender is
the datagram's source, and otherwise there is none. -/
theorem C11_echo_reply_correlation (localIP : List Nat) (req : trace6.request)
    (from_ buf : List Nat) (l : Nat) (header : ipv6.Header) (o : Nat) (payload : List Nat)
    (r : icmp6.EchoReply)
    (hparse : ipv6.ParseHeader buf [] = .returns (some header, o, none))
    (hlocal : trace6.IPEqual localIP header.Dst = true)
    (hl : o ≤ l ∧ l ≤ buf.length)
    (hsum : icmp6.VerifyChecksum header (slice buf o l) (buf.drop l) = .returns (true, payload))
    (hmsg : icmp6.Unmarshal payload = (some (.echoReply r), none)) :
    trace6.onDatagram localIP req from_ buf l
      = .returns (if r.Identifier = req.Body.Identifier
            ∧ r.SequenceNumber = req.Body.SequenceNumber
            ∧ trace6.IPEqual from_ header.Src = true
          then some ⟨header.Src, false, false, true, false⟩ else none) ∧
    (from_.length = 16 → (trace6.IPEqual from_ header.Src = true ↔ from_ = header.Src)) := by
  constructor
  · simp only [trace6.onDatagram, hparse, hlocal, hl, hsum, hmsg]
    by_cases h1 : r.Identifier = req.Body.Identifier
    · by_cases h2 : r.SequenceNumber = req.Body.SequenceNumber
      · by_cases h3 : trace6.IPEqual from_ header.Src = true <;> simp [h1, h2, h3]
      · simp [h1, h2]
    · simp [h1]
  · intro hf
    obtain ⟨_, _, _, hh⟩ := extLoop_of_ParseHeader buf [] header o hparse
    have hsrc : header.Src.length = 16 := by
      rw [hh]
      simp [ipv6.baseHeader, copy, makeBytes, slice]
    simp [trace6.IPEqual, hf, hsrc]


theorem ParseHeader_replyBuffer :
    ipv6.ParseHeader replyBuffer [] = .returns (some replyHeader, 40, none) := by
  rw [replyBuffer, List.append_assoc]
  exact ParseHeader_Marshal_append replyHeader _ [] (by decide) (by decide)

/-- C11 at the echo reply with identifier 0x1234 and sequence 1 from
2001:db8::2: it yields the result while the probe with sequence 1 is
outstanding, and none once the probe with sequence 2 is. -/
theorem C11_echo_reply_correlation_witness :
    trace6.onDatagram addr1 outstandingProbe addr2 replyBuffer 48
      = .returns (some ⟨addr2, false, false, true, false⟩) ∧
    trace6.onDatagram addr1 nextProbe addr2 replyBuffer 48 = .returns none :=
  ⟨(C11_echo_reply_correlation addr1 outstandingProbe addr2 replyBuffer 48 replyHeader 40
      [0x81, 0, 0, 0, 0x12, 0x34, 0, 1] ⟨⟨0x81, 0, 0⟩, 0x1234, 1, []⟩
      ParseHeader_replyBuffer (by decide) (by decide) (by decide) (by decide)).1.trans
        (by decide),
   (C11_echo_reply_correlation addr1 nextProbe addr2 replyBuffer 48 replyHeader 40
      [0x81, 0, 0, 0, 0x12, 0x34, 0, 1] ⟨⟨0x81, 0, 0⟩, 0x1234, 1, []⟩
      ParseHeader_replyBuffer (by decide) (by decide) (by decide) (by decide)).1.trans
        (by decide)⟩

/-- C12: for every received datagram on which `ParseHeader` succeeds, whose
destination is the local address, whose ICMPv6 payload passes
`VerifyChecksum` and parses as a `DestinationUnreachable` whose invoking
packet is a prefix without a byte of high nibble 6, followed by the 40 bytes of
a valid IPv6 header `e` (next header not an extension type), followed by any
bytes: the scan finds the offset = length of the prefix, and the iteration
sends the result with DestinationUnreachable set and sender = `e.Dst`, not
the source of the datagram. -/
theorem C12_unreachable_reports_embedded_destination (localIP : List Nat)
    (req : trace6.request) (from_ buf : List Nat) (l : Nat) (header : ipv6.Header) (o : Nat)
    (payload : List Nat) (m : icmp6.DestinationUnreachable) (pre rest : List Nat)
    (e : ipv6.Header)
    (hparse : ipv6.ParseHeader buf [] = .returns (some header, o, none))
    (hlocal : trace6.IPEqual localIP header.Dst = true)
    (hl : o ≤ l ∧ l ≤ buf.length)
    (hsum : icmp6.VerifyChecksum header (slice buf o l) (buf.drop l) = .returns (true, payload))
    (hmsg : icmp6.Unmarshal payload = (some (.destinationUnreachable m), none))
    (hinv : m.InvokingPacket = pre ++ e.Marshal ++ rest)
    (hpre : ∀ x ∈ pre, x >>> 4 ≠ 6) (he : e.Valid)
    (hnh : e.NextHeader ≠ 0x00 ∧ e.NextHeader ≠ 0x2b ∧ e.NextHeader ≠ 0x3c) :
    trace6.headerOffsetFrom m.InvokingPacket 0 = pre.length ∧
    trace6.onDatagram localIP req from_ buf l
      = .returns (some ⟨e.Dst, true, false, false, false⟩) := by
  obtain ⟨x, t, hx, hx6⟩ := Header_Marshal_head e he
  have hoff : trace6.headerOffsetFrom m.InvokingPacket 0 = pre.length := by
    rw [hinv, hx, List.append_assoc, List.cons_append,
      headerOffsetFrom_skips pre x (t ++ rest) 0 hpre hx6, Nat.zero_add]
  have hdrop : m.InvokingPacket.drop pre.length = e.Marshal ++ rest := by
    rw [hinv, List.append_assoc]
    exact List.drop_left' rfl
  refine ⟨hoff, ?_⟩
  simp only [trace6.onDatagram, hparse, hlocal, hl, hsum, hmsg, hoff, hdrop,
    ParseHeader_Marshal_append e rest (buf.drop l) he hnh]
  simp

theorem ParseHeader_unreachableBuffer :
    ipv6.ParseHeader unreachableBuffer [] = .returns (some unreachableHeader, 40, none) := by
  rw [unreachableBuffer, List.append_assoc]
  exact ParseHeader_Marshal_append unreachableHeader _ [] (by decide) (by decide)

/-- C12 at the prefix 0x00 0x00: the router 2001:db8::3 reports the probe to
2001:db8::2 as undeliverable, and the result names 2001:db8::2. -/
theorem C12_unreachable_reports_embedded_destination_witness :
    trace6.headerOffsetFrom
        ([0x00, 0x00] ++ probeHeader.Marshal ++ [0x80, 0, 0x12, 0x13, 0x12, 0x34, 0, 1]) 0 = 2 ∧
    trace6.onDatagram addr1 outstandingProbe addr2 unreachableBuffer 98
      = .returns (some ⟨addr2, true, false, false, false⟩) :=
  C12_unreachable_reports_embedded_destination addr1 outstandingProbe addr2 unreachableBuffer
    98 unreachableHeader 40
    ([0x01, 0, 0, 0, 0, 0, 0, 0] ++ [0x00, 0x00] ++ probeHeader.Marshal
      ++ [0x80, 0, 0x12, 0x13, 0x12, 0x34, 0, 1])
    ⟨⟨0x01, 0, 0⟩, 0,
      [0x00, 0x00] ++ probeHeader.Marshal ++ [0x80, 0, 0x12, 0x13, 0x12, 0x34, 0, 1]⟩
    [0x00, 0x00] [0x80, 0, 0x12, 0x13, 0x12, 0x34, 0, 1] probeHeader
    ParseHeader_unreachableBuffer (by decide) (by decide) (by decide) (by decide) rfl
    (by decide) (by decide) (by decide)

/-! ## The checksum as a sum of words -/

theorem csum_eq_csumSumFrom (b : List Nat) :
    icmp6.csum b = netu.Htons
      ((((((icmp6.csumSumFrom b 0 >>> 16) + (icmp6.csumSumFrom b 0 &&& 0xffff)) % 4294967296)
        + ((((icmp6.csumSumFrom b 0 >>> 16) + (icmp6.csumSumFrom b 0 &&& 0xffff)) % 4294967296)
            >>> 16)) % 4294967296 % 65536) ^^^ 0xffff) := rfl

theorem land_neg_one : Int.land (((0 : Nat) : Int) - 1) 1 = 1 := by
  have e : (((0 : Nat) : Int) - 1) = Int.negSucc 0 := rfl
  rw [e]
  show ((Nat.ldiff 1 0 : Nat) : Int) = 1
  simp [Nat.ldiff]

theorem csumIndices_two_more (n : Nat) :
    icmp6.csumIndices (((n + 2 : Nat) : Int) - 1)
      = 0 :: (icmp6.csumIndices ((n : Int) - 1)).map (fun i => i + 2) := by
  have e1 : ((((n + 2 : Nat) : Int) - 1).toNat + 1) / 2 = (((n : Int) - 1).toNat + 1) / 2 + 1 := by
    omega
  simp only [icmp6.csumIndices, e1, List.range_succ_eq_map, List.map_cons, List.map_map,
    Nat.mul_zero]
  congr 1

theorem land_one_two_more (n : Nat) :
    (Int.land (((n + 2 : Nat) : Int) - 1) 1 = 0) ↔ (Int.land ((n : Int) - 1) 1 = 0) := by
  cases n with
  | zero =>
    have h1 : Int.land (((0 + 2 : Nat) : Int) - 1) 1 = 1 := by decide
    rw [h1, land_neg_one]
  | succ m =>
    have e1 : (((m + 1 + 2 : Nat) : Int) - 1) = ((m + 2 : Nat) : Int) := by push_cast; ring
    have e2 : (((m + 1 : Nat) : Int) - 1) = ((m : Nat) : Int) := by push_cast; ring
    rw [e1, e2]
    have f1 : Int.land ((m + 2 : Nat) : Int) 1 = (((m + 2) &&& 1 : Nat) : Int) := rfl
    have f2 : Int.land ((m : Nat) : Int) 1 = ((m &&& 1 : Nat) : Int) := rfl
    rw [f1, f2]
    have g1 := Nat.and_pow_two_sub_one_eq_mod (m + 2) 1
    have g2 := Nat.and_pow_two_sub_one_eq_mod m 1
    simp only [Nat.pow_one, Nat.add_one_sub_one] at g1 g2
    rw [g1, g2]
    omega

theorem csumSumFrom_cons_cons (x y : Nat) (rest : List Nat) (s0 : Nat) :
    icmp6.csumSumFrom (x :: y :: rest) s0
      = icmp6.csumSumFrom rest ((s0 + ((y <<< 8) ||| x)) % 4294967296) := by
  have hlen : (((x :: y :: rest).length : Nat) : Int) = ((rest.length + 2 : Nat) : Int) := rfl
  simp only [icmp6.csumSumFrom, hlen, csumIndices_two_more, List.foldl_cons, List.foldl_map,
    List.getD_cons_succ, List.getD_cons_zero, land_one_two_more]
  by_cases hodd : Int.land ((rest.length : Int) - 1) 1 = 0
  · have hne : rest ≠ [] := by
      intro h; subst h
      rw [List.length_nil, land_neg_one] at hodd
      exact absurd hodd (by decide)
    obtain ⟨m, hm⟩ : ∃ m, rest.length = m + 1 := by
      cases rest with
      | nil => exact absurd rfl hne
      | cons a t => exact ⟨t.length, rfl⟩
    have e1 : (((rest.length + 2 : Nat) : Int) - 1).toNat = ((rest.length : Int) - 1).toNat + 2 := by
      omega
    simp only [hodd, if_true, e1, List.getD_cons_succ]
  · simp only [hodd, if_false]

theorem leWord_eq (x y : Nat) (hx : x < 256) : (y <<< 8) ||| x = y * 256 + x := by
  rw [lor_shl _ _ 8 (by omega)]
  norm_num

theorem csumSumFrom_eq (b : List Nat) (hb : ∀ x ∈ b, x < 256) :
    ∀ s0, s0 < 4294967296 →
      icmp6.csumSumFrom b s0 = (s0 + (icmp6.leWords b).sum) % 4294967296 := by
  induction b using icmp6.leWords.induct with
  | case1 x y rest ih =>
    intro s0 _
    have hx : x < 256 := hb x (by simp)
    rw [csumSumFrom_cons_cons, ih (fun z hz => hb z (by simp [hz])) _ (Nat.mod_lt _ (by norm_num)),
      leWord_eq x y hx]
    simp only [icmp6.leWords, List.sum_cons]
    omega
  | case2 x =>
    intro s0 _
    have h0 : Int.land (((1 : Nat) : Int) - 1) 1 = 0 := by decide
    have h1 : (((1 : Nat) : Int) - 1).toNat = 0 := by decide
    have h2 : icmp6.csumIndices (((1 : Nat) : Int) - 1) = [] := by decide
    simp only [icmp6.csumSumFrom, List.length_singleton, h0, h1, h2, if_true, List.foldl_nil,
      icmp6.leWords, List.sum_cons, List.sum_nil, List.getD_cons_zero, Nat.add_zero]
  | case3 =>
    intro s0 hs
    have h0 : Int.land ((([] : List Nat).length : Int) - 1) 1 ≠ 0 := by
      rw [List.length_nil, land_neg_one]; decide
    have h2 : icmp6.csumIndices ((([] : List Nat).length : Int) - 1) = [] := by decide
    simp only [icmp6.csumSumFrom, h0, h2, if_false, List.foldl_nil, icmp6.leWords,
      List.sum_nil, Nat.add_zero, Nat.mod_eq_of_lt hs]

theorem and_ffff (x : Nat) : x &&& 0xffff = x % 65536 := Nat.and_pow_two_sub_one_eq_mod x 16

theorem xor_ffff (v : Nat) (hv : v < 65536) : v ^^^ 0xffff = 65535 - v := by
  have h1 : (~~~ (BitVec.ofNat 16 v)).toNat = 2 ^ 16 - 1 - (BitVec.ofNat 16 v).toNat :=
    BitVec.toNat_not
  have h2 : (~~~ (BitVec.ofNat 16 v)) = BitVec.allOnes 16 ^^^ BitVec.ofNat 16 v :=
    BitVec.not_def
  rw [h2, BitVec.toNat_xor, BitVec.toNat_allOnes, BitVec.toNat_ofNat,
    Nat.mod_eq_of_lt (by simpa using hv)] at h1
  rw [Nat.xor_comm]
  simpa using h1

theorem Htons_eq_swapBytes (n : Nat) (hn : n < 65536) : netu.Htons n = icmp6.swapBytes n := by
  simp only [netu.Htons, icmp6.swapBytes, Nat.shiftLeft_eq, Nat.shiftRight_eq_div_pow,
    Nat.reducePow]
  have h1 : n * 256 % 65536 = (n % 256) * 256 := by omega
  have h2 : n / 256 % 256 = n / 256 := Nat.mod_eq_of_lt (by omega)
  rw [h1, h2]
  exact Nat.mod_eq_of_lt (by omega)

theorem csum_eq_leChecksum (b : List Nat) (hb : ∀ x ∈ b, x < 256) :
    icmp6.csum b = icmp6.leChecksum b := by
  rw [csum_eq_csumSumFrom, csumSumFrom_eq b hb 0 (by norm_num), Nat.zero_add]
  generalize hgen : (icmp6.leWords b).sum % 4294967296 = s
  have hs : s < 4294967296 := hgen ▸ Nat.mod_lt _ (by norm_num)
  simp only [icmp6.leChecksum, hgen, icmp6.foldCarry, and_ffff, Nat.shiftRight_eq_div_pow,
    Nat.reducePow]
  have h1 : (s / 65536 + s % 65536) % 4294967296 = s / 65536 + s % 65536 :=
    Nat.mod_eq_of_lt (by omega)
  rw [h1]
  have h2 : ((s / 65536 + s % 65536) + (s / 65536 + s % 65536) / 65536) % 4294967296 % 65536
      = ((s / 65536 + s % 65536) / 65536 + (s / 65536 + s % 65536) % 65536) % 65536 := by
    omega
  rw [h2, xor_ffff _ (Nat.mod_lt _ (by norm_num)), Htons_eq_swapBytes _ (by omega)]


theorem leWords_sum_le (b : List Nat) (hb : ∀ x ∈ b, x < 256) :
    (icmp6.leWords b).sum ≤ 65535 * ((b.length + 1) / 2) := by
  induction b using icmp6.leWords.induct with
  | case1 x y rest ih =>
    have hx : x < 256 := hb x (by simp)
    have hy : y < 256 := hb y (by simp)
    have := ih (fun z hz => hb z (by simp [hz]))
    simp only [icmp6.leWords, List.sum_cons, List.length_cons]
    omega
  | case2 x =>
    have hx : x < 256 := hb x (by simp)
    simp only [icmp6.leWords, List.sum_cons, List.sum_nil, List.length_singleton]
    omega
  | case3 => simp [icmp6.leWords]

/-- C17, as stated, fails: on the two bytes 12 34 the procedure of the claim
(big-endian words, fold, complement, byte swap) gives 0xcbed where `csum`
returns 0xedcb, and on the pseudo-header and echo request of the scenario it
gives 0x1312 where `csum` returns 0x1213, the checksum that is correct when
written big-endian. -/
theorem C17_counterexample :
    icmp6.csum [0x12, 0x34] = 0xedcb ∧ icmp6.specChecksum [0x12, 0x34] = 0xcbed ∧
    icmp6.csum ((ipv6.NewPseudoHeader 8 0x3a addr1 addr2).Marshal ++ echoBytes) = 0x1213 ∧
    icmp6.specChecksum ((ipv6.NewPseudoHeader 8 0x3a addr1 addr2).Marshal ++ echoBytes)
      = 0x1312 := by
  decide

/-- C17, amended: for every byte sequence `b`, `csum(b)` equals the value
obtained by summing `b`'s 16-bit little-endian words in 32-bit arithmetic,
adding the final byte as a zero-padded word when the length is odd, folding
carries twice with sum = (sum>>16) + (sum & 0xffff), taking the one's
complement of the low 16 bits, and byte-swapping the result; up to 2^17 bytes
the 32-bit sum does not wrap. -/
theorem C17_csum_sums_little_endian_words (b : List Nat) (hb : ∀ x ∈ b, x < 256) :
    icmp6.csum b = icmp6.leChecksum b ∧
    (b.length ≤ 131072 → (icmp6.leWords b).sum < 4294967296) := by
  refine ⟨csum_eq_leChecksum b hb, ?_⟩
  intro hlen
  have := leWords_sum_le b hb
  have h2 : (b.length + 1) / 2 ≤ 65536 := by omega
  calc (icmp6.leWords b).sum ≤ 65535 * ((b.length + 1) / 2) := this
    _ ≤ 65535 * 65536 := Nat.mul_le_mul_left _ h2
    _ < 4294967296 := by norm_num

/-- C17, amended, at the pseudo-header and echo request of the scenario (48
bytes) and at a 3-byte sequence. -/
theorem C17_csum_sums_little_endian_words_witness :
    icmp6.csum ((ipv6.NewPseudoHeader 8 0x3a addr1 addr2).Marshal ++ echoBytes)
      = icmp6.leChecksum ((ipv6.NewPseudoHeader 8 0x3a addr1 addr2).Marshal ++ echoBytes) ∧
    icmp6.csum [0x12, 0x34, 0x56] = icmp6.leChecksum [0x12, 0x34, 0x56] :=
  ⟨(C17_csum_sums_little_endian_words _ (by decide)).1,
   (C17_csum_sums_little_endian_words [0x12, 0x34, 0x56] (by decide)).1⟩

/-! ## The flags of a neighbor advertisement -/

set_option maxRecDepth 100000 in
theorem and_four_ne_one : ∀ t, t < 256 → t &&& 4 ≠ 1 := by decide

set_option maxRecDepth 100000 in
theorem and_two_ne_one : ∀ t, t < 256 → t &&& 2 ≠ 1 := by decide

theorem and_one_shr29 (flags : Nat) :
    (((flags >>> 29) % 256) &&& 1 = 1) ↔ flags.testBit 29 = true := by
  rw [Nat.and_one_is_mod, Nat.testBit_to_div_mod, Nat.shiftRight_eq_div_pow]
  simp only [decide_eq_true_eq]
  omega

/-- C27, the code: `FlagSet` compares the masked value with 1, so it is false
for the flag constants 4 (R) and 2 (S) whatever the flags word is, also when
bit 31 or bit 30 is set; only for the constant 1 does it report its bit, bit 29. -/
theorem C27_flag_set_compares_with_one :
    (routerAdvertisement.Flags.testBit 31 = true ∧
      routerAdvertisement.FlagSet ndp.ICMPv6NeighborAdvertisementFlagR = false) ∧
    (solicitedAdvertisement.Flags.testBit 30 = true ∧
      solicitedAdvertisement.FlagSet ndp.ICMPv6NeighborAdvertisementFlagS = false) ∧
    (∀ m : ndp.ICMPv6NeighborAdvertisement,
      m.FlagSet ndp.ICMPv6NeighborAdvertisementFlagR = false ∧
      m.FlagSet ndp.ICMPv6NeighborAdvertisementFlagS = false ∧
      (m.FlagSet ndp.ICMPv6NeighborAdvertisementFlag0 = true ↔ m.Flags.testBit 29 = true)) := by
  refine ⟨⟨by decide, by decide⟩, ⟨by decide, by decide⟩, fun m => ⟨?_, ?_, ?_⟩⟩
  · simp only [ndp.ICMPv6NeighborAdvertisement.FlagSet, ndp.ICMPv6NeighborAdvertisementFlagR,
      decide_eq_false_iff_not]
    exact and_four_ne_one _ (Nat.mod_lt _ (by norm_num))
  · simp only [ndp.ICMPv6NeighborAdvertisement.FlagSet, ndp.ICMPv6NeighborAdvertisementFlagS,
      decide_eq_false_iff_not]
    exact and_two_ne_one _ (Nat.mod_lt _ (by norm_num))
  · simp only [ndp.ICMPv6NeighborAdvertisement.FlagSet, ndp.ICMPv6NeighborAdvertisementFlag0,
      decide_eq_true_eq]
    exact and_one_shr29 m.Flags
/-! ## The frame of VerifyChecksum -/

theorem VerifyChecksum_returns (h : ipv6.Header) (b spare : List Nat) (hlen : 4 ≤ b.length) :
    icmp6.VerifyChecksum h b spare
      = .returns (decide (BigEndian.Uint16 (slice (b ++ spare) 2 4)
          = icmp6.csum ((ipv6.NewPseudoHeader h.PayloadLen h.NextHeader h.Src h.Dst).Marshal
              ++ (b.set 2 0).set 3 0)), (b.set 2 0).set 3 0) := by
  have h4 : 4 ≤ b.length + spare.length := by omega
  have h2 : 2 < b.length := by omega
  have h3 : 3 < (b.set 2 0).length := by rw [List.length_set]; omega
  simp only [icmp6.VerifyChecksum, h4, h2, h3, not_true_eq_false, if_false]

theorem Unmarshal_checksum (b : List Nat) (m : icmp6.Message)
    (hm : (icmp6.Unmarshal b).1 = some m) :
    m.Header.Checksum = BigEndian.Uint16 (slice b 2 4) := by
  simp only [icmp6.Unmarshal] at hm
  split at hm
  · exact absurd hm (by simp)
  split at hm
  · exact absurd hm (by simp)
  split at hm
  · simp only [Option.some.injEq] at hm; subst hm; rfl
  split at hm
  · split at hm
    · exact absurd hm (by simp)
    · simp only [Option.some.injEq] at hm; subst hm; rfl
  split at hm
  · simp only [Option.some.injEq] at hm; subst hm; rfl
  · exact absurd hm (by simp)

/-- C26: on at least 4 bytes `VerifyChecksum` returns, and leaves the caller's
bytes as they were except for bytes 2 and 3, which are zero; every message
`Unmarshal` then builds from these bytes has the checksum field 0. -/
theorem C26_verify_zeroes_checksum_field (h : ipv6.Header) (b spare : List Nat)
    (hlen : 4 ≤ b.length) :
    ∃ ok after, icmp6.VerifyChecksum h b spare = .returns (ok, after) ∧
      after.length = b.length ∧ after[2]? = some 0 ∧ after[3]? = some 0 ∧
      (∀ i, i ≠ 2 → i ≠ 3 → after[i]? = b[i]?) ∧
      (∀ m, (icmp6.Unmarshal after).1 = some m → m.Header.Checksum = 0) := by
  refine ⟨_, _, VerifyChecksum_returns h b spare hlen, ?_, ?_, ?_, ?_, ?_⟩
  · simp
  · rw [List.getElem?_set_ne (by decide), List.getElem?_set_self]
    simp [show 2 < b.length by omega]
  · rw [List.getElem?_set_self]
    simp [show 3 < b.length by omega]
  · intro i h2 h3
    rw [List.getElem?_set_ne (Ne.symm h3), List.getElem?_set_ne (Ne.symm h2)]
  · intro m hm
    rw [Unmarshal_checksum _ m hm]
    obtain ⟨x0, x1, x2, x3, t, rfl⟩ : ∃ x0 x1 x2 x3 t, b = x0 :: x1 :: x2 :: x3 :: t := by
      match b, hlen with
      | x0 :: x1 :: x2 :: x3 :: t, _ => exact ⟨x0, x1, x2, x3, t, rfl⟩
    simp [BigEndian.Uint16, slice]

/-- C26 at an echo reply received with the checksum 0xabcd. -/
theorem C26_verify_zeroes_checksum_field_witness :
    ∃ ok after,
      icmp6.VerifyChecksum probeHeader [0x81, 0, 0xab, 0xcd, 0x12, 0x34, 0, 1] []
        = .returns (ok, after) ∧
      after.length = 8 ∧ after[2]? = some 0 ∧ after[3]? = some 0 ∧
      (∀ i, i ≠ 2 → i ≠ 3 → after[i]? = [0x81, 0, 0xab, 0xcd, 0x12, 0x34, 0, 1][i]?) ∧
      (∀ m, (icmp6.Unmarshal after).1 = some m → m.Header.Checksum = 0) :=
  C26_verify_zeroes_checksum_field probeHeader [0x81, 0, 0xab, 0xcd, 0x12, 0x34, 0, 1] []
    (by decide)
/-! ## Marshalling a parsed header -/

theorem parse_trafficClass (x0 x1 : Nat) (h1 : x1 < 256) :
    ((x0 &&& 0x0f) <<< 4) ||| (x1 >>> 4) = (x0 % 16) * 16 + x1 / 16 := by
  rw [and_0f, Nat.shiftRight_eq_div_pow, lor_shl _ _ 4 (by omega)]
  norm_num

theorem parse_flowLabel (x1 x2 x3 : Nat) (h2 : x2 < 256) (h3 : x3 < 256) :
    ((x1 &&& 0x0f) <<< 16) ||| (x2 <<< 8) ||| x3 = (x1 % 16) * 65536 + x2 * 256 + x3 := by
  have e : x2 <<< 8 = x2 * 256 := by rw [Nat.shiftLeft_eq]
  rw [and_0f, e, lor_shl _ _ 16 (by omega)]
  have e2 : x1 % 16 * 2 ^ 16 + x2 * 256 = (x1 % 16 * 256 + x2) <<< 8 := by
    rw [Nat.shiftLeft_eq]; omega
  rw [e2, lor_shl _ _ 8 (by omega)]
  omega

/-- The bytes `Header.Marshal` produces for the header `ParseHeader` builds from
the bytes `x0 ... x7`, the 16-byte addresses `src`, `dst` and any extension headers. -/
theorem Marshal_of_parsed (x0 x1 x2 x3 x4 x5 x6 x7 : Nat) (src dst : List Nat)
    (ehs : List ipv6.ExtensionHeader)
    (h0 : x0 / 16 = 6) (h1 : x1 < 256) (h2 : x2 < 256) (h3 : x3 < 256) (h4 : x4 < 256)
    (h5 : x5 < 256) (h6 : x6 < 256) (h7 : x7 < 256)
    (hs : src.length = 16) (hd : dst.length = 16) :
    ipv6.Header.Marshal
      ⟨6, ((((x0 &&& 0x0f) <<< 4) ||| (x1 >>> 4) : Nat) : Int),
        ((((x1 &&& 0x0f) <<< 16) ||| (x2 <<< 8) ||| x3 : Nat) : Int),
        (((x4 <<< 8) ||| x5 : Nat) : Int), ((x6 : Nat) : Int), ((x7 : Nat) : Int), src, dst, ehs⟩
      = [x0, x1, x2, x3, x4, x5, x6, x7] ++ src ++ dst := by
  rw [Header_Marshal_valid _ _ _ _ _ _ _ _ hs hd, parse_trafficClass x0 x1 h1,
    parse_flowLabel x1 x2 x3 h2 h3, leWord_eq x5 x4 h5]
  have hg : ((x1 % 16) * 65536 + x2 * 256 + x3) >>> 16 < 16 := by
    rw [Nat.shiftRight_eq_div_pow]; omega
  have b0 := byte0_eq ((x0 % 16) * 16 + x1 / 16) (by omega)
  have b1 := byte1_eq ((x0 % 16) * 16 + x1 / 16) _ hg
  simp only [Nat.reducePow] at b0 b1 ⊢
  rw [b0, b1]
  simp only [and_ff, Nat.shiftRight_eq_div_pow, Nat.reducePow]
  congr 1
  congr 1
  have e0 : 96 + (x0 % 16 * 16 + x1 / 16) / 16 = x0 := by omega
  have e1 : (x0 % 16 * 16 + x1 / 16) % 16 * 16 + (x1 % 16 * 65536 + x2 * 256 + x3) / 65536
      = x1 := by omega
  have e2 : (x1 % 16 * 65536 + x2 * 256 + x3) / 256 % 256 = x2 := by omega
  have e3 : (x1 % 16 * 65536 + x2 * 256 + x3) % 256 % 256 = x3 := by omega
  have e4 : (x4 * 256 + x5) / 256 % 256 = x4 := by omega
  have e5 : (x4 * 256 + x5) % 256 % 256 = x5 := by omega
  rw [e0, e1, e2, e3, e4, e5, Nat.mod_eq_of_lt h6, Nat.mod_eq_of_lt h7]

/-- A list of at least 40 elements is 8 elements, two blocks of 16 and a rest. -/
theorem split_40 (b : List Nat) (hlen : 40 ≤ b.length) :
    ∃ x0 x1 x2 x3 x4 x5 x6 x7 src dst t, src.length = 16 ∧ dst.length = 16 ∧
      b = [x0, x1, x2, x3, x4, x5, x6, x7] ++ src ++ dst ++ t := by
  match b, hlen with
  | x0 :: x1 :: x2 :: x3 :: x4 :: x5 :: x6 :: x7 :: r, hlen =>
    simp only [List.length_cons] at hlen
    refine ⟨x0, x1, x2, x3, x4, x5, x6, x7, r.take 16, (r.drop 16).take 16, r.drop 32,
      by simp; omega, by simp; omega, ?_⟩
    have e : r = r.take 16 ++ ((r.drop 16).take 16 ++ r.drop 32) := by
      rw [← List.drop_drop 16 16 r, List.take_append_drop, List.take_append_drop]
    simp only [List.cons_append, List.nil_append, List.append_assoc]
    rw [← e]

/-- C25: for every input on which `ParseHeader` succeeds, `Marshal` of the
returned header is the first 40 bytes of the input. -/
theorem C25_marshal_reproduces_fixed_header (b spare : List Nat) (h : ipv6.Header) (o : Nat)
    (hbytes : ∀ x ∈ b, x < 256)
    (hok : ipv6.ParseHeader b spare = .returns (some h, o, none)) :
    h.Marshal = slice b 0 40 ∧ h.Marshal.length = 40 := by
  obtain ⟨hlen, hver, _, hh⟩ := extLoop_of_ParseHeader b spare h o hok
  obtain ⟨x0, x1, x2, x3, x4, x5, x6, x7, src, dst, t, hs, hd, rfl⟩ := split_40 b hlen
  have hx : ∀ x ∈ [x0, x1, x2, x3, x4, x5, x6, x7], x < 256 := fun x hx =>
    hbytes x (by simp only [List.append_assoc, List.mem_append]; exact Or.inl hx)
  simp only [List.mem_cons, List.mem_singleton, forall_eq_or_imp, forall_eq, List.not_mem_nil,
    false_implies, implies_true, and_true] at hx
  obtain ⟨-, h1, h2, h3, h4, h5, h6, h7⟩ := hx
  have hv : x0 >>> 4 = 6 := by simpa using hver
  have h0 : x0 / 16 = 6 := by rw [Nat.shiftRight_eq_div_pow] at hv; exact hv
  have key : h.Marshal = [x0, x1, x2, x3, x4, x5, x6, x7] ++ src ++ dst := by
    rw [hh]
    simp only [ipv6.baseHeader]
    rw [slice_24_40 _ _ _ _ _ _ _ _ _ _ _ hs hd, List.append_assoc _ dst t,
      slice_8_24 _ _ _ _ _ _ _ _ _ _ hs, copy_make16 _ hs, copy_make16 _ hd]
    simp only [List.cons_append, List.nil_append, List.getD_cons_zero, List.getD_cons_succ, hv,
      Nat.cast_ofNat]
    exact Marshal_of_parsed x0 x1 x2 x3 x4 x5 x6 x7 src dst _ h0 h1 h2 h3 h4 h5 h6 h7 hs hd
  have hl : ([x0, x1, x2, x3, x4, x5, x6, x7] ++ src ++ dst).length = 40 := by
    simp [hs, hd]
  refine ⟨?_, by rw [key, hl]⟩
  rw [key]
  unfold slice
  rw [List.drop_zero, Nat.sub_zero, List.take_left' hl]

/-- C25 at a datagram with two extension headers. -/
theorem C25_marshal_reproduces_fixed_header_witness :
    ({ ipv6.baseHeader twoExtDatagram with
        ExtensionHeaders := [⟨0x3c, 0, [1, 2, 3, 4, 5, 6, 7, 8]⟩,
                             ⟨0x3a, 0, [11, 12, 13, 14, 15, 16, 17, 18]⟩] }
      : ipv6.Header).Marshal = slice twoExtDatagram 0 40 :=
  (C25_marshal_reproduces_fixed_header twoExtDatagram [] _ 60 (by decide)
    ParseHeader_twoExtDatagram).1
/-! ## The checksum in network byte order -/

/-- The end-around-carry sum stays within 16 bits, is congruent to the plain
sum modulo 65535, and is zero only for a zero sum. -/
theorem foldl_endAroundAdd (ws : List Nat) (hw : ∀ w ∈ ws, w ≤ 65535) :
    ∀ acc, acc ≤ 65535 →
      ws.foldl icmp6.endAroundAdd acc ≤ 65535 ∧
      ws.foldl icmp6.endAroundAdd acc % 65535 = (acc + ws.sum) % 65535 ∧
      (ws.foldl icmp6.endAroundAdd acc = 0 ↔ acc + ws.sum = 0) := by
  induction ws with
  | nil => intro acc hacc; simp [hacc]
  | cons w rest ih =>
    intro acc hacc
    have hw0 : w ≤ 65535 := hw w (by simp)
    have hstep : icmp6.endAroundAdd acc w ≤ 65535 ∧
        icmp6.endAroundAdd acc w % 65535 = (acc + w) % 65535 ∧
        (icmp6.endAroundAdd acc w = 0 ↔ acc + w = 0) := by
      unfold icmp6.endAroundAdd
      split_ifs <;> omega
    obtain ⟨s1, s2, s3⟩ := hstep
    obtain ⟨r1, r2, r3⟩ := ih (fun z hz => hw z (by simp [hz])) _ s1
    simp only [List.foldl_cons, List.sum_cons]
    refine ⟨r1, ?_, ?_⟩
    · rw [r2]; omega
    · rw [r3]; omega

theorem beWords_le (b : List Nat) (hb : ∀ x ∈ b, x < 256) : ∀ w ∈ icmp6.beWords b, w ≤ 65535 := by
  induction b using icmp6.beWords.induct with
  | case1 x y rest ih =>
    have hx : x < 256 := hb x (by simp)
    have hy : y < 256 := hb y (by simp)
    have := ih (fun z hz => hb z (by simp [hz]))
    intro w hw
    simp only [icmp6.beWords, List.mem_cons] at hw
    rcases hw with rfl | hw
    · omega
    · exact this w hw
  | case2 x =>
    have hx : x < 256 := hb x (by simp)
    intro w hw
    simp only [icmp6.beWords, List.mem_singleton] at hw
    omega
  | case3 => intro w hw; simp [icmp6.beWords] at hw

/-- Exchanging the bytes of every word multiplies the sum by 256 modulo 65535. -/
theorem beWords_sum_leWords_sum (b : List Nat) :
    (icmp6.beWords b).sum % 65535 = (256 * (icmp6.leWords b).sum) % 65535 ∧
    ((icmp6.beWords b).sum = 0 ↔ (icmp6.leWords b).sum = 0) := by
  induction b using icmp6.beWords.induct with
  | case1 x y rest ih =>
    obtain ⟨i1, i2⟩ := ih
    simp only [icmp6.beWords, icmp6.leWords, List.sum_cons]
    constructor <;> omega
  | case2 x => simp only [icmp6.beWords, icmp6.leWords, List.sum_cons, List.sum_nil]; omega
  | case3 => simp [icmp6.beWords, icmp6.leWords]

/-- The two folding steps bring a 32-bit sum into 16 bits, keep it modulo 65535
and keep it non-zero. -/
theorem fold_facts (S : Nat) (hS : S < 4294967296) :
    icmp6.foldCarry (icmp6.foldCarry S) % 65536 ≤ 65535 ∧
    icmp6.foldCarry (icmp6.foldCarry S) % 65536 % 65535 = S % 65535 ∧
    (icmp6.foldCarry (icmp6.foldCarry S) % 65536 = 0 ↔ S = 0) := by
  obtain ⟨q, r, hr, hq, rfl⟩ : ∃ q r, r < 65536 ∧ q < 65536 ∧ S = 65536 * q + r :=
    ⟨S / 65536, S % 65536, by omega, by omega, by omega⟩
  have e1 : icmp6.foldCarry (65536 * q + r) = q + r := by
    unfold icmp6.foldCarry; omega
  rw [e1]
  by_cases hc : q + r < 65536
  · have e2 : icmp6.foldCarry (q + r) = q + r := by unfold icmp6.foldCarry; omega
    rw [e2, Nat.mod_eq_of_lt hc]
    refine ⟨by omega, by omega, by omega⟩
  · have e2 : icmp6.foldCarry (q + r) = q + r - 65535 := by unfold icmp6.foldCarry; omega
    rw [e2, Nat.mod_eq_of_lt (by omega)]
    refine ⟨by omega, by omega, by omega⟩

/-- Exchanging the two bytes of a 16-bit value multiplies it by 256 modulo 65535. -/
theorem swap_facts (f : Nat) (hf : f ≤ 65535) :
    (f % 256) * 256 + f / 256 ≤ 65535 ∧
    ((f % 256) * 256 + f / 256) % 65535 = (256 * f) % 65535 ∧
    ((f % 256) * 256 + f / 256 = 0 ↔ f = 0) := by
  obtain ⟨a, c, hc, ha, rfl⟩ : ∃ a c, c < 256 ∧ a < 256 ∧ f = 256 * a + c :=
    ⟨f / 256, f % 256, by omega, by omega, by omega⟩
  have e1 : (256 * a + c) % 256 = c := by omega
  have e2 : (256 * a + c) / 256 = a := by omega
  rw [e1, e2]
  refine ⟨by omega, by omega, by omega⟩

theorem mod_mul_congr (x y : Nat) (h : x % 65535 = y % 65535) :
    (256 * x) % 65535 = (256 * y) % 65535 := by
  rw [Nat.mul_mod, h, ← Nat.mul_mod]

theorem eq_of_mod_65535 (g v : Nat) (hg : g ≤ 65535) (hv : v ≤ 65535)
    (h : g % 65535 = v % 65535) (h0 : g = 0 ↔ v = 0) : g = v := by omega

theorem swapBytes_compl (f : Nat) (hf : f ≤ 65535) :
    icmp6.swapBytes (65535 - f) = 65535 - ((f % 256) * 256 + f / 256) := by
  obtain ⟨a, c, hc, ha, rfl⟩ : ∃ a c, c < 256 ∧ a < 256 ∧ f = 256 * a + c :=
    ⟨f / 256, f % 256, by omega, by omega, by omega⟩
  obtain ⟨A, hA⟩ : ∃ A, A + a = 255 := ⟨255 - a, by omega⟩
  obtain ⟨C, hC⟩ : ∃ C, C + c = 255 := ⟨255 - c, by omega⟩
  have e1 : (256 * a + c) % 256 = c := by omega
  have e2 : (256 * a + c) / 256 = a := by omega
  have e3 : 65535 - (256 * a + c) = 256 * A + C := by omega
  have e4 : (256 * A + C) % 256 = C := by omega
  have e5 : (256 * A + C) / 256 % 256 = A := by omega
  rw [e1, e2, e3]
  unfold icmp6.swapBytes
  rw [e4, e5]
  omega

/-- The arithmetic heart of the byte-order independence: the two folding steps
on the little-endian sum, complemented and byte-swapped, give the complement of
the end-around-carry value `g` of the big-endian sum. -/
theorem swap_fold_eq (S T g : Nat) (hS : S < 4294967296) (hg : g ≤ 65535)
    (hgT : g % 65535 = T % 65535) (hg0 : g = 0 ↔ T = 0)
    (hTS : T % 65535 = (256 * S) % 65535) (hT0 : T = 0 ↔ S = 0) :
    icmp6.swapBytes (65535 - icmp6.foldCarry (icmp6.foldCarry (S % 4294967296)) % 65536)
      = 65535 - g := by
  rw [Nat.mod_eq_of_lt hS]
  obtain ⟨f1, f2, f3⟩ := fold_facts S hS
  generalize icmp6.foldCarry (icmp6.foldCarry S) % 65536 = f at f1 f2 f3 ⊢
  obtain ⟨v1, v2, v3⟩ := swap_facts f f1
  rw [swapBytes_compl f f1]
  have hmod : g % 65535 = ((f % 256) * 256 + f / 256) % 65535 := by
    rw [hgT, hTS, v2]
    exact mod_mul_congr S f f2.symm
  have hzero : g = 0 ↔ (f % 256) * 256 + f / 256 = 0 := by
    rw [hg0, hT0, v3, f3]
  rw [eq_of_mod_65535 g _ hg v1 hmod hzero]

/-- C24: for every sequence of at most 2^17 bytes, `csum` is the RFC 1071
checksum of the bytes read in network byte order, so that its two bytes written
big-endian are the high and the low byte of that checksum. -/
theorem C24_csum_is_rfc1071 (b : List Nat) (hb : ∀ x ∈ b, x < 256) (hlen : b.length ≤ 131072) :
    icmp6.csum b = icmp6.rfc1071Checksum b ∧
    BigEndian.bytes16 (icmp6.csum b)
      = [icmp6.rfc1071Checksum b / 256, icmp6.rfc1071Checksum b % 256] := by
  have hS : (icmp6.leWords b).sum < 4294967296 := by
    have := leWords_sum_le b hb
    have h2 : (b.length + 1) / 2 ≤ 65536 := by omega
    calc (icmp6.leWords b).sum ≤ 65535 * ((b.length + 1) / 2) := this
      _ ≤ 65535 * 65536 := Nat.mul_le_mul_left _ h2
      _ < 4294967296 := by norm_num
  obtain ⟨g1, g2, g3⟩ := foldl_endAroundAdd (icmp6.beWords b) (beWords_le b hb) 0 (by norm_num)
  obtain ⟨t1, t2⟩ := beWords_sum_leWords_sum b
  rw [Nat.zero_add] at g2 g3
  have key : icmp6.csum b = icmp6.rfc1071Checksum b := by
    rw [csum_eq_leChecksum b hb]
    exact swap_fold_eq _ _ _ hS g1 g2 g3 t1 t2
  refine ⟨key, ?_⟩
  rw [key]
  have hr : icmp6.rfc1071Checksum b ≤ 65535 := Nat.sub_le _ _
  simp only [BigEndian.bytes16, Nat.shiftRight_eq_div_pow, Nat.reducePow]
  rw [Nat.mod_eq_of_lt (show icmp6.rfc1071Checksum b / 256 < 256 by omega)]

/-- C24 at the pseudo-header and echo request of the scenario (checksum
0x1213) and at a sequence of odd length. -/
theorem C24_csum_is_rfc1071_witness :
    icmp6.rfc1071Checksum ((ipv6.NewPseudoHeader 8 0x3a addr1 addr2).Marshal ++ echoBytes)
      = 0x1213 ∧
    icmp6.csum ((ipv6.NewPseudoHeader 8 0x3a addr1 addr2).Marshal ++ echoBytes)
      = icmp6.rfc1071Checksum ((ipv6.NewPseudoHeader 8 0x3a addr1 addr2).Marshal ++ echoBytes) ∧
    icmp6.csum [0x12, 0x34, 0x56] = icmp6.rfc1071Checksum [0x12, 0x34, 0x56] :=
  ⟨by decide, (C24_csum_is_rfc1071 _ (by decide) (by decide)).1,
   (C24_csum_is_rfc1071 [0x12, 0x34, 0x56] (by decide) (by decide)).1⟩
/-! ## Verification of a datagram with extension headers -/

theorem ParseHeader_extReplyDatagram :
    ipv6.ParseHeader extReplyDatagram [] = .returns (some extReplyParsed, 50, none) := by
  rw [ParseHeader_eq_extLoop _ _ (by decide) (by decide),
    extLoop_step _ _ _ _ _ (by decide) (by decide) (by decide),
    extLoop_break _ _ _ _ _ (by decide)]
  decide

theorem ParseHeader_wireExtReplyDatagram :
    ipv6.ParseHeader wireExtReplyDatagram []
      = .returns (some wireExtReplyParsed, 50, none) := by
  rw [ParseHeader_eq_extLoop _ _ (by decide) (by decide),
    extLoop_step _ _ _ _ _ (by decide) (by decide) (by decide),
    extLoop_break _ _ _ _ _ (by decide)]
  decide

/-- C21, the code at an echo reply behind one extension header, its checksum
0x1113 computed over the pseudo-header with the message length 8 and the
next-header value 0x3a.  `VerifyChecksum` builds its pseudo-header from the
fields of the base header, the payload length 18 (extension header included)
and the next-header value 0x00, and returns false on the header `ParseHeader`
returns and the bytes from the returned offset; the same bytes verify under a
header that carries the message length and 0x3a.  In wire format, where the
extension header is 8 bytes, the returned offset 50 is two bytes into the
message and the verification fails as well. -/
theorem C21_pseudo_header_from_base_header :
    ipv6.ParseHeader extReplyDatagram [] = .returns (some extReplyParsed, 50, none) ∧
    extReplyDatagram.drop 50 = [0x81, 0, 0x11, 0x13, 0x12, 0x34, 0, 1] ∧
    icmp6.csum ((ipv6.NewPseudoHeader 8 0x3a addr2 addr1).Marshal
      ++ [0x81, 0, 0, 0, 0x12, 0x34, 0, 1]) = 0x1113 ∧
    ipv6.NewPseudoHeader extReplyParsed.PayloadLen extReplyParsed.NextHeader
        extReplyParsed.Src extReplyParsed.Dst
      = ipv6.NewPseudoHeader 18 0x00 addr2 addr1 ∧
    icmp6.VerifyChecksum extReplyParsed (extReplyDatagram.drop 50) []
      = .returns (false, [0x81, 0, 0, 0, 0x12, 0x34, 0, 1]) ∧
    icmp6.VerifyChecksum replyHeader (extReplyDatagram.drop 50) []
      = .returns (true, [0x81, 0, 0, 0, 0x12, 0x34, 0, 1]) ∧
    ipv6.ParseHeader wireExtReplyDatagram []
      = .returns (some wireExtReplyParsed, 50, none) ∧
    icmp6.VerifyChecksum wireExtReplyParsed (wireExtReplyDatagram.drop 50) []
      = .returns (false, [0x11, 0x13, 0, 0, 0, 1]) :=
  ⟨ParseHeader_extReplyDatagram, by decide, by decide, by decide, by decide, by decide,
   ParseHeader_wireExtReplyDatagram, by decide⟩
/-! ## The filter of the receive path -/

theorem onDatagram_foreign (localIP : List Nat) (req : trace6.request) (from_ buf : List Nat)
    (l : Nat) (header : ipv6.Header) (o : Nat)
    (hparse : ipv6.ParseHeader buf [] = .returns (some header, o, none))
    (hlocal : trace6.IPEqual localIP header.Dst = false) :
    trace6.onDatagram localIP req from_ buf l = .returns none := by
  simp only [trace6.onDatagram, hparse, hlocal]
  simp

theorem onDatagram_slice_panics (localIP : List Nat) (req : trace6.request)
    (from_ buf : List Nat) (l : Nat) (header : ipv6.Header) (o : Nat)
    (hparse : ipv6.ParseHeader buf [] = .returns (some header, o, none))
    (hlocal : trace6.IPEqual localIP header.Dst = true)
    (hl : ¬ (o ≤ l ∧ l ≤ buf.length)) :
    trace6.onDatagram localIP req from_ buf l = .panics := by
  simp only [trace6.onDatagram, hparse, hlocal, hl]
  simp

theorem onDatagram_verify_panics (localIP : List Nat) (req : trace6.request)
    (from_ buf : List Nat) (l : Nat) (header : ipv6.Header) (o : Nat)
    (hparse : ipv6.ParseHeader buf [] = .returns (some header, o, none))
    (hlocal : trace6.IPEqual localIP header.Dst = true)
    (hl : o ≤ l ∧ l ≤ buf.length)
    (hsum : icmp6.VerifyChecksum header (slice buf o l) (buf.drop l) = .panics) :
    trace6.onDatagram localIP req from_ buf l = .panics := by
  simp only [trace6.onDatagram, hparse, hlocal, hl, hsum]
  simp

theorem onDatagram_unverified (localIP : List Nat) (req : trace6.request)
    (from_ buf : List Nat) (l : Nat) (header : ipv6.Header) (o : Nat) (payload : List Nat)
    (hparse : ipv6.ParseHeader buf [] = .returns (some header, o, none))
    (hlocal : trace6.IPEqual localIP header.Dst = true)
    (hl : o ≤ l ∧ l ≤ buf.length)
    (hsum : icmp6.VerifyChecksum header (slice buf o l) (buf.drop l)
      = .returns (false, payload)) :
    trace6.onDatagram localIP req from_ buf l = .returns none := by
  simp only [trace6.onDatagram, hparse, hlocal, hl, hsum]
  simp

theorem onDatagram_unparsed (localIP : List Nat) (req : trace6.request)
    (from_ buf : List Nat) (l : Nat) (header : ipv6.Header) (o : Nat) (payload : List Nat)
    (hparse : ipv6.ParseHeader buf [] = .returns (some header, o, none))
    (hlocal : trace6.IPEqual localIP header.Dst = true)
    (hl : o ≤ l ∧ l ≤ buf.length)
    (hsum : icmp6.VerifyChecksum header (slice buf o l) (buf.drop l)
      = .returns (true, payload))
    (herr : (icmp6.Unmarshal payload).2 ≠ none) :
    trace6.onDatagram localIP req from_ buf l = .returns none := by
  rcases hU : icmp6.Unmarshal payload with ⟨mo, eo⟩
  rw [hU] at herr
  cases eo with
  | none => exact absurd rfl herr
  | some e =>
    simp only [trace6.onDatagram, hparse, hlocal, hl, hsum, hU]
    simp

theorem onDatagram_timeExceeded (localIP : List Nat) (req : trace6.request)
    (from_ buf : List Nat) (l : Nat) (header : ipv6.Header) (o : Nat) (payload : List Nat)
    (m : icmp6.TimeExceeded)
    (hparse : ipv6.ParseHeader buf [] = .returns (some header, o, none))
    (hlocal : trace6.IPEqual localIP header.Dst = true)
    (hl : o ≤ l ∧ l ≤ buf.length)
    (hsum : icmp6.VerifyChecksum header (slice buf o l) (buf.drop l)
      = .returns (true, payload))
    (hmsg : icmp6.Unmarshal payload = (some (.timeExceeded m), none)) :
    trace6.onDatagram localIP req from_ buf l
      = .returns (some ⟨header.Src, false, true, false, false⟩) := by
  simp only [trace6.onDatagram, hparse, hlocal, hl, hsum, hmsg]
  simp

theorem ParseHeader_padOnlyBuffer :
    ipv6.ParseHeader padOnlyBuffer []
      = .returns (some { replyHeader with
          NextHeader := 0x00
          ExtensionHeaders := [⟨0x3b, 0, [1, 4, 0, 0, 0, 0, 0, 0]⟩] }, 50, none) := by
  rw [ParseHeader_eq_extLoop _ _ (by decide) (by decide),
    extLoop_step _ _ _ _ _ (by decide) (by decide) (by decide),
    extLoop_break _ _ _ _ _ (by decide)]
  decide

theorem ParseHeader_shortMessageBuffer :
    ipv6.ParseHeader shortMessageBuffer []
      = .returns (some { replyHeader with
          PayloadLen := 12
          NextHeader := 0x00
          ExtensionHeaders := [⟨0x3a, 0, [1, 4, 0, 0, 0, 0, 0x81, 0]⟩] }, 50, none) := by
  rw [ParseHeader_eq_extLoop _ _ (by decide) (by decide),
    extLoop_step _ _ _ _ _ (by decide) (by decide) (by decide),
    extLoop_break _ _ _ _ _ (by decide)]
  decide

/-- C22, the code.  On a 48-byte datagram addressed to the local address that
consists of the base header and an 8-byte hop-by-hop header, `ParseHeader`
succeeds with the offset 50 and the slice expression `buf[50:48]` panics; on a
52-byte datagram whose ICMPv6 part ends after 2 bytes of the slice,
`VerifyChecksum` panics: the iteration neither discards nor yields a result.
For every datagram on which `ParseHeader` succeeds the rest of the claim
holds: a destination other than the local address yields no result, and when
the ICMPv6 part has at least 4 bytes (`o + 4 ≤ l`, so always for `o = 40` and
`l ≥ 48`) `VerifyChecksum` returns, a failed verification and a failed
`Unmarshal` yield no result, and a verified `TimeExceeded` yields the result
with TimeExceeded set and the source of the datagram as sender. -/
theorem C22_filter_panics_on_short_payload :
    trace6.onDatagram addr1 outstandingProbe addr2 padOnlyBuffer 48 = .panics ∧
    trace6.onDatagram addr1 outstandingProbe addr2 shortMessageBuffer 52 = .panics ∧
    (∀ (localIP : List Nat) (req : trace6.request) (from_ buf : List Nat) (l : Nat)
        (header : ipv6.Header) (o : Nat),
      ipv6.ParseHeader buf [] = .returns (some header, o, none) →
      (trace6.IPEqual localIP header.Dst = false →
        trace6.onDatagram localIP req from_ buf l = .returns none) ∧
      (trace6.IPEqual localIP header.Dst = true → o + 4 ≤ l → l ≤ buf.length →
        ∃ ok payload,
          icmp6.VerifyChecksum header (slice buf o l) (buf.drop l) = .returns (ok, payload) ∧
          (ok = false → trace6.onDatagram localIP req from_ buf l = .returns none) ∧
          (ok = true → (icmp6.Unmarshal payload).2 ≠ none →
            trace6.onDatagram localIP req from_ buf l = .returns none) ∧
          (ok = true → ∀ m, icmp6.Unmarshal payload = (some (.timeExceeded m), none) →
            trace6.onDatagram localIP req from_ buf l
              = .returns (some ⟨header.Src, false, true, false, false⟩)))) := by
  refine ⟨?_, ?_, ?_⟩
  · exact onDatagram_slice_panics _ _ _ _ _ _ _ ParseHeader_padOnlyBuffer (by decide)
      (by decide)
  · exact onDatagram_verify_panics _ _ _ _ _ _ _ ParseHeader_shortMessageBuffer (by decide)
      (by decide) (by decide)
  · intro localIP req from_ buf l header o hparse
    refine ⟨onDatagram_foreign localIP req from_ buf l header o hparse, ?_⟩
    intro hlocal h4 hlb
    have hl : o ≤ l ∧ l ≤ buf.length := ⟨by omega, hlb⟩
    have hlen : 4 ≤ (slice buf o l).length := by rw [slice_length buf o l hlb]; omega
    refine ⟨_, _, VerifyChecksum_returns header _ _ hlen, ?_, ?_, ?_⟩
    · intro hok
      have hsum := VerifyChecksum_returns header (slice buf o l) (buf.drop l) hlen
      rw [hok] at hsum
      exact onDatagram_unverified localIP req from_ buf l header o _ hparse hlocal hl hsum
    · intro hok herr
      have hsum := VerifyChecksum_returns header (slice buf o l) (buf.drop l) hlen
      rw [hok] at hsum
      exact onDatagram_unparsed localIP req from_ buf l header o _ hparse hlocal hl hsum herr
    · intro hok m hmsg
      have hsum := VerifyChecksum_returns header (slice buf o l) (buf.drop l) hlen
      rw [hok] at hsum
      exact onDatagram_timeExceeded localIP req from_ buf l header o _ m hparse hlocal hl
        hsum hmsg
/-! ## Error messages and the outstanding probe -/

theorem ParseHeader_timeExceededBuffer :
    ipv6.ParseHeader timeExceededBuffer [] = .returns (some timeExceededHeader, 40, none) := by
  rw [timeExceededBuffer, List.append_assoc]
  exact ParseHeader_Marshal_append timeExceededHeader _ [] (by decide) (by decide)

theorem onDatagram_unreachable (localIP : List Nat) (req : trace6.request)
    (from_ buf : List Nat) (l : Nat) (header : ipv6.Header) (o : Nat) (payload : List Nat)
    (m : icmp6.DestinationUnreachable) (h : ipv6.Header) (o2 : Nat)
    (hparse : ipv6.ParseHeader buf [] = .returns (some header, o, none))
    (hlocal : trace6.IPEqual localIP header.Dst = true)
    (hl : o ≤ l ∧ l ≤ buf.length)
    (hsum : icmp6.VerifyChecksum header (slice buf o l) (buf.drop l)
      = .returns (true, payload))
    (hmsg : icmp6.Unmarshal payload = (some (.destinationUnreachable m), none))
    (hemb : ipv6.ParseHeader
        (m.InvokingPacket.drop (trace6.headerOffsetFrom m.InvokingPacket 0)) (buf.drop l)
      = .returns (some h, o2, none)) :
    trace6.onDatagram localIP req from_ buf l
      = .returns (some ⟨h.Dst, true, false, false, false⟩) := by
  simp only [trace6.onDatagram, hparse, hlocal, hl, hsum, hmsg, hemb]
  simp

/-- C23 fails as stated.  While the probe with identifier 0x1234 and sequence 1
is outstanding, a verified time-exceeded message whose invoking packet embeds
an echo request with identifier 0x9999 and sequence 7 yields a result; and
while the probe with sequence 2 is outstanding, a verified
destination-unreachable message that embeds the echo request with sequence 1
yields a result. -/
theorem C23_counterexample :
    (outstandingProbe.Body.Identifier = 0x1234 ∧ outstandingProbe.Body.SequenceNumber = 1) ∧
    timeExceededBuffer.drop 88 = [0x80, 0, 0x8a, 0xa7, 0x99, 0x99, 0, 7] ++ List.replicate 32 0 ∧
    trace6.onDatagram addr1 outstandingProbe addr2 timeExceededBuffer 96
      = .returns (some ⟨addr3, false, true, false, false⟩) ∧
    (nextProbe.Body.Identifier = 0x1234 ∧ nextProbe.Body.SequenceNumber = 2) ∧
    unreachableBuffer.drop 90 = [0x80, 0, 0x12, 0x13, 0x12, 0x34, 0, 1] ++ List.replicate 30 0 ∧
    trace6.onDatagram addr1 nextProbe addr2 unreachableBuffer 98
      = .returns (some ⟨addr2, true, false, false, false⟩) := by
  refine ⟨by decide, by decide, ?_, by decide, by decide, ?_⟩
  · exact onDatagram_timeExceeded addr1 outstandingProbe addr2 timeExceededBuffer 96
      timeExceededHeader 40 foreignTimeExceeded
      ⟨⟨0x03, 0, 0⟩, 0, expiredProbeHeader.Marshal ++ [0x80, 0, 0x8a, 0xa7, 0x99, 0x99, 0, 7]⟩
      ParseHeader_timeExceededBuffer (by decide) (by decide) (by decide) (by decide)
  · have hemb : ipv6.ParseHeader
        (([0x00, 0x00] ++ probeHeader.Marshal ++ [0x80, 0, 0x12, 0x13, 0x12, 0x34, 0, 1]).drop
          (trace6.headerOffsetFrom
            ([0x00, 0x00] ++ probeHeader.Marshal ++ [0x80, 0, 0x12, 0x13, 0x12, 0x34, 0, 1]) 0))
        (unreachableBuffer.drop 98) = .returns (some probeHeader, 40, none) := by
      have e : ([0x00, 0x00] ++ probeHeader.Marshal
            ++ [0x80, 0, 0x12, 0x13, 0x12, 0x34, 0, 1]).drop
          (trace6.headerOffsetFrom
            ([0x00, 0x00] ++ probeHeader.Marshal ++ [0x80, 0, 0x12, 0x13, 0x12, 0x34, 0, 1]) 0)
          = probeHeader.Marshal ++ [0x80, 0, 0x12, 0x13, 0x12, 0x34, 0, 1] := by decide
      rw [e]
      exact ParseHeader_Marshal_append probeHeader _ _ (by decide) (by decide)
    exact onDatagram_unreachable addr1 nextProbe addr2 unreachableBuffer 98 unreachableHeader 40
      ([0x01, 0, 0, 0, 0, 0, 0, 0] ++ [0x00, 0x00] ++ probeHeader.Marshal
        ++ [0x80, 0, 0x12, 0x13, 0x12, 0x34, 0, 1])
      ⟨⟨0x01, 0, 0⟩, 0,
        [0x00, 0x00] ++ probeHeader.Marshal ++ [0x80, 0, 0x12, 0x13, 0x12, 0x34, 0, 1]⟩
      probeHeader 40
      ParseHeader_unreachableBuffer (by decide) (by decide) (by decide) (by decide) hemb

/-- C23 as amended: for every datagram on which `ParseHeader` succeeds, that is
addressed to the local address and whose ICMPv6 part verifies, only an echo
reply is matched against the outstanding probe: it yields no result when its
identifier, its sequence number or its source differs.  A `TimeExceeded`
yields its result whatever the outstanding probe and the invoking packet are,
and a `DestinationUnreachable` yields a result whenever `ParseHeader` succeeds
at the scanned offset of its invoking packet; its outcome is the same for every
outstanding probe and target. -/
theorem C23_only_echo_replies_are_matched (localIP : List Nat) (req : trace6.request)
    (from_ buf : List Nat) (l : Nat) (header : ipv6.Header) (o : Nat) (payload : List Nat)
    (hparse : ipv6.ParseHeader buf [] = .returns (some header, o, none))
    (hlocal : trace6.IPEqual localIP header.Dst = true)
    (hl : o ≤ l ∧ l ≤ buf.length)
    (hsum : icmp6.VerifyChecksum header (slice buf o l) (buf.drop l)
      = .returns (true, payload)) :
    (∀ r, icmp6.Unmarshal payload = (some (.echoReply r), none) →
      r.Identifier ≠ req.Body.Identifier ∨ r.SequenceNumber ≠ req.Body.SequenceNumber
        ∨ trace6.IPEqual from_ header.Src = false →
      trace6.onDatagram localIP req from_ buf l = .returns none) ∧
    (∀ m, icmp6.Unmarshal payload = (some (.timeExceeded m), none) →
      trace6.onDatagram localIP req from_ buf l
        = .returns (some ⟨header.Src, false, true, false, false⟩)) ∧
    (∀ m, icmp6.Unmarshal payload = (some (.destinationUnreachable m), none) →
      (∀ h o2, ipv6.ParseHeader
          (m.InvokingPacket.drop (trace6.headerOffsetFrom m.InvokingPacket 0)) (buf.drop l)
            = .returns (some h, o2, none) →
        trace6.onDatagram localIP req from_ buf l
          = .returns (some ⟨h.Dst, true, false, false, false⟩)) ∧
      (∀ req2 from2, trace6.onDatagram localIP req2 from2 buf l
        = trace6.onDatagram localIP req from_ buf l)) := by
  refine ⟨?_, ?_, ?_⟩
  · intro r hmsg hne
    simp only [trace6.onDatagram, hparse, hlocal, hl, hsum, hmsg]
    rcases hne with h1 | h2 | h3
    · simp [h1]
    · simp [h2]
    · simp [h3]
  · intro m hmsg
    exact onDatagram_timeExceeded localIP req from_ buf l header o payload m hparse hlocal hl
      hsum hmsg
  · intro m hmsg
    refine ⟨?_, ?_⟩
    · intro h o2 hemb
      exact onDatagram_unreachable localIP req from_ buf l header o payload m h o2 hparse
        hlocal hl hsum hmsg hemb
    · intro req2 from2
      simp only [trace6.onDatagram, hparse, hlocal, hl, hsum, hmsg]

/-- C23 as amended, at the echo reply with sequence 1 while the probe with
sequence 2 is outstanding (no result) and at the destination-unreachable
message (the same outcome for both probes). -/
theorem C23_only_echo_replies_are_matched_witness :
    trace6.onDatagram addr1 nextProbe addr2 replyBuffer 48 = .returns none ∧
    trace6.onDatagram addr1 outstandingProbe addr2 unreachableBuffer 98
      = trace6.onDatagram addr1 nextProbe addr2 unreachableBuffer 98 :=
  ⟨(C23_only_echo_replies_are_matched addr1 nextProbe addr2 replyBuffer 48 replyHeader 40
      [0x81, 0, 0, 0, 0x12, 0x34, 0, 1]
      ParseHeader_replyBuffer (by decide) (by decide) (by decide)).1
      ⟨⟨0x81, 0, 0⟩, 0x1234, 1, []⟩ (by decide) (by decide),
   ((C23_only_echo_replies_are_matched addr1 nextProbe addr2 unreachableBuffer 98
      unreachableHeader 40
      ([0x01, 0, 0, 0, 0, 0, 0, 0] ++ [0x00, 0x00] ++ probeHeader.Marshal
        ++ [0x80, 0, 0x12, 0x13, 0x12, 0x34, 0, 1])
      ParseHeader_unreachableBuffer (by decide) (by decide) (by decide)).2.2
      ⟨⟨0x01, 0, 0⟩, 0,
        [0x00, 0x00] ++ probeHeader.Marshal ++ [0x80, 0, 0x12, 0x13, 0x12, 0x34, 0, 1]⟩
      (by decide)).2 outstandingProbe addr2⟩
end grnvs
